import Mathlib

/-!
# LuaPlayer platform layer: frame buffers, software GU primitives, input bridge

A shallow embedding of the Linux platform layer of LuaPlayer
(`src/platform/platform_linux.cpp`, `src/platform/psp_stubs.cpp`,
`src/platform/platform.h`) together with theorems about its drawing
primitives, the buffer flip and the key-event handling.

Conventions of the embedding

* A `Color` is the bit pattern of a `u32`, held as a natural number.
* A pixel buffer of `n` texels is a function on `Fin n`; an access through an
  index outside `0 .. n-1` is undefined behaviour in C and is modelled as a
  fault (`none`).  C `int` arithmetic is done in `Int`; all index expressions
  of the modelled functions stay far inside the 32-bit range whenever the
  access they feed is inside its buffer.
* The global variables of the two translation units are the fields of `State`.
* Each C `for` loop is `forLoop`, which runs the body for `i = 0, 1, ..`
  in order and stops at the first fault.
* Every function is a sequential state transformer.  The two threads and the
  render mutex appear only in the interleaving model of the flip and the
  presentation snapshot (`Threads`, `threadStep`).
-/

namespace LuaPlayer

/-! ## Constants of `platform.h` -/

/-- Packed 32-bit colour, `typedef u32 Color`. -/
abbrev Color := Nat

/-- The macro `PLATFORM_SCREEN_WIDTH`. -/
abbrev PLATFORM_SCREEN_WIDTH : Nat := 480
/-- The macro `PLATFORM_SCREEN_HEIGHT`. -/
abbrev PLATFORM_SCREEN_HEIGHT : Nat := 272
/-- The macro `PLATFORM_LINE_SIZE`, the stride of a frame buffer row. -/
abbrev PLATFORM_LINE_SIZE : Nat := 512

/-- Number of texels of one frame buffer, `PLATFORM_LINE_SIZE * PLATFORM_SCREEN_HEIGHT`. -/
abbrev FB_SIZE : Nat := PLATFORM_LINE_SIZE * PLATFORM_SCREEN_HEIGHT

/-- The macro `COLOR_A(color)`: the alpha byte, bits 24..31. -/
def COLOR_A (color : Color) : Nat := (color >>> 24) &&& 0xFF

/-! ## Pixel buffers -/

/-- A C array of `n` colours. -/
abbrev Buffer (n : Nat) := Fin n → Color

namespace Buffer

/-- The C expression `b[i]` used as a value; faults outside the array. -/
def read {n : Nat} (b : Buffer n) (i : Int) : Option Color :=
  if h : 0 ≤ i ∧ i < n then some (b ⟨i.toNat, by omega⟩) else none

/-- The C statement `b[i] = c`; faults outside the array. -/
def write {n : Nat} (b : Buffer n) (i : Int) (c : Color) : Option (Buffer n) :=
  if h : 0 ≤ i ∧ i < n then some (Function.update b ⟨i.toNat, by omega⟩ c) else none

end Buffer

/-- Caller-owned pixel memory reached through a `Color*`: the allocation the
pointer points into.  A null pointer is the allocation of size `0`. -/
structure Texels where
  size : Nat
  data : Buffer size

/-- The null `Color*`: no index is valid. -/
def Texels.null : Texels := ⟨0, fun i => i.elim0⟩

/-- A `Color*` as `sceGuTexImage` receives it in `tbp`: the start of memory owned
by the caller, which does not overlap the frame buffers (a null pointer is
`memory Texels.null`), or `g_vram_base + offset`, a pointer into the array
`g_framebuffer`, whose `2 * 512 * 272` texels are frame buffer 0 followed by
frame buffer 1 (`getVramDrawBuffer` and `getVramDisplayBuffer` hand out the
offsets `0` and `512 * 272`). -/
inductive TexturePtr where
  | memory (t : Texels)
  | vram (offset : Nat)

/-! ## Loops -/

/-- The iterations `i, i+1, .., i+count-1` of a loop body, in order, stopping at a fault. -/
def forLoopFrom {σ : Type} (body : Int → σ → Option σ) : Nat → Int → σ → Option σ
  | 0, _, s => some s
  | k + 1, i, s => (body i s).bind (forLoopFrom body k (i + 1))

/-- The C loop `for (int i = 0; i < n; i++) body`. -/
def forLoop {σ : Type} (n : Int) (body : Int → σ → Option σ) (s : σ) : Option σ :=
  forLoopFrom body n.toNat 0 s

/-! ## Global state -/

/-- The `Vertex` struct of `psp_stubs.cpp`: `unsigned short u, v; short x, y, z`. -/
structure Vertex where
  u : Nat
  v : Nat
  x : Int
  y : Int
  z : Int

/-- The file-scope variables of `platform_linux.cpp` and `psp_stubs.cpp`.
`g_back_buffer` only ever holds `0` or `1`.  `g_current_controls` is the bit
pattern of the `int`.  `currentTexture` is the pointer that was bound, not a
copy of the texels. -/
structure State where
  g_framebuffer : Fin 2 → Buffer FB_SIZE
  g_back_buffer : Fin 2
  g_render_buffer : Buffer FB_SIZE
  g_running : Bool
  g_current_controls : Nat
  currentTexture : TexturePtr
  currentTextureWidth : Int
  currentTextureHeight : Int
  clear_color : Color

/-! ## Frame buffer manager (`platform_linux.cpp`) -/

/-- The function `getVramDrawBuffer`: `g_framebuffer[g_back_buffer]`. -/
def getVramDrawBuffer (s : State) : Buffer FB_SIZE :=
  s.g_framebuffer s.g_back_buffer

/-- The function `getVramDisplayBuffer`: `g_framebuffer[1 - g_back_buffer]`. -/
def getVramDisplayBuffer (s : State) : Buffer FB_SIZE :=
  s.g_framebuffer (1 - s.g_back_buffer)

/-- Store through the pointer returned by `getVramDrawBuffer`. -/
def setVramDrawBuffer (s : State) (d : Buffer FB_SIZE) : State :=
  { s with g_framebuffer := Function.update s.g_framebuffer s.g_back_buffer d }

/-- The function `emuFlipBuffers`: `memcpy` of the whole back buffer into the
render buffer, then `g_back_buffer = 1 - g_back_buffer`. -/
def emuFlipBuffers (s : State) : State :=
  let copied : State := { s with g_render_buffer := s.g_framebuffer s.g_back_buffer }
  { copied with g_back_buffer := 1 - copied.g_back_buffer }

/-- The pixel rows written by `renderFrame` into the locked streaming texture:
row `y` receives `PLATFORM_SCREEN_WIDTH` colours starting at
`g_render_buffer + y * PLATFORM_LINE_SIZE`. -/
def renderFrame (s : State) (y : Fin PLATFORM_SCREEN_HEIGHT) (x : Fin PLATFORM_SCREEN_WIDTH) : Color :=
  s.g_render_buffer ⟨y.val * PLATFORM_LINE_SIZE + x.val, by
    have hx := x.isLt
    have hy := y.isLt
    simp only [FB_SIZE, PLATFORM_LINE_SIZE, PLATFORM_SCREEN_HEIGHT, PLATFORM_SCREEN_WIDTH] at *
    omega⟩

/-! ## Software GU primitives (`psp_stubs.cpp`) -/

/-- The function `sceGuClearColor`. -/
def sceGuClearColor (s : State) (color : Color) : State :=
  { s with clear_color := color }

/-- The function `sceGuClear`: stores `clear_color` into every element of the draw buffer. -/
def sceGuClear (s : State) (_flags : Int) : Option State :=
  let dest := getVramDrawBuffer s
  (forLoop (PLATFORM_LINE_SIZE * PLATFORM_SCREEN_HEIGHT : Nat)
      (fun n d => d.write n s.clear_color) dest).map (setVramDrawBuffer s)

/-- The function `sceGuTexImage`: records the pointer and the dimensions. -/
def sceGuTexImage (s : State) (_mipmap width height _tbw : Int) (tbp : TexturePtr) : State :=
  { s with currentTexture := tbp, currentTextureWidth := width, currentTextureHeight := height }

/-- Number of texels that can be read through a texture pointer at the
non-negative indices: the size of the allocation, or what is left of
`g_framebuffer` from the offset on. -/
def TexturePtr.size : TexturePtr → Nat
  | TexturePtr.memory t => t.size
  | TexturePtr.vram offset => 2 * FB_SIZE - offset

/-- The element `j` of the flat array `g_framebuffer` while `sceGuDrawArray`
runs: `dest` is the draw buffer as the stores made so far have left it, the
other frame buffer is as in `s`. -/
def readVram (s : State) (dest : Buffer FB_SIZE) (j : Int) : Option Color :=
  if j < FB_SIZE then
    if s.g_back_buffer = 0 then dest.read j else (s.g_framebuffer 0).read j
  else
    if s.g_back_buffer = 1 then dest.read (j - FB_SIZE)
    else (s.g_framebuffer 1).read (j - FB_SIZE)

/-- The C expression `currentTexture[i]` inside `sceGuDrawArray`: `dest` is the
draw buffer as the stores made so far have left it, all other memory is as in
`s`.  A texture pointer into the draw buffer reads `dest`. -/
def readTexture (s : State) (dest : Buffer FB_SIZE) (i : Int) : Option Color :=
  match s.currentTexture with
  | TexturePtr.memory t => t.data.read i
  | TexturePtr.vram offset => readVram s dest (offset + i)

/-- The texel `i` of the bound texture is an element of the draw buffer: the
texture pointer points into `g_framebuffer` and `currentTexture + i` lies in
`g_framebuffer[g_back_buffer]`. -/
def sampleInDrawBuffer (s : State) (i : Int) : Prop :=
  match s.currentTexture with
  | TexturePtr.memory _ => False
  | TexturePtr.vram offset =>
    (s.g_back_buffer.val : Int) * FB_SIZE ≤ offset + i ∧
      offset + i < ((s.g_back_buffer.val : Int) + 1) * FB_SIZE

instance (s : State) (i : Int) : Decidable (sampleInDrawBuffer s i) := by
  unfold sampleInDrawBuffer
  split <;> infer_instance

/-- The function `sceGuCopyImage` for a source and a destination that do not overlap. -/
def sceGuCopyImage {n m : Nat} (_psm sx sy width height srcw : Int) (src : Buffer n)
    (dx dy destw : Int) (dest : Buffer m) : Option (Buffer m) :=
  forLoop height (fun y d =>
    forLoop width (fun x d =>
      (src.read (x + sx + (y + sy) * srcw)).bind fun c =>
        d.write (x + dx + (y + dy) * destw) c) d) dest

/-- The function `sceGuDrawArray`, reading the vertices `v[0]` and `v[1]`. -/
def sceGuDrawArray (s : State) (_prim _vtype _count : Int) (v0 v1 : Vertex) : Option State :=
  let sx : Int := v0.u
  let sy : Int := v0.v
  let dx : Int := v0.x
  let dy : Int := v0.y
  let width : Int := v1.x - v0.x
  let height : Int := v1.y - v0.y
  let dest := getVramDrawBuffer s
  (forLoop height (fun y d =>
    forLoop width (fun x d =>
      (readTexture s d (x + sx + (y + sy) * s.currentTextureWidth)).bind fun color =>
        if color &&& 0xFF000000 ≠ 0 then
          d.write (x + dx + (y + dy) * PLATFORM_LINE_SIZE) color
        else some d) d) dest).map (setVramDrawBuffer s)

/-! ## Input bridge (`platform_linux.cpp`) -/

/-- The macro `CTRL_SELECT`. -/
abbrev CTRL_SELECT : Nat := 0x000001
/-- The macro `CTRL_START`. -/
abbrev CTRL_START : Nat := 0x000008
/-- The macro `CTRL_UP`. -/
abbrev CTRL_UP : Nat := 0x000010
/-- The macro `CTRL_RIGHT`. -/
abbrev CTRL_RIGHT : Nat := 0x000020
/-- The macro `CTRL_DOWN`. -/
abbrev CTRL_DOWN : Nat := 0x000040
/-- The macro `CTRL_LEFT`. -/
abbrev CTRL_LEFT : Nat := 0x000080
/-- The macro `CTRL_LTRIGGER`. -/
abbrev CTRL_LTRIGGER : Nat := 0x000100
/-- The macro `CTRL_RTRIGGER`. -/
abbrev CTRL_RTRIGGER : Nat := 0x000200
/-- The macro `CTRL_TRIANGLE`. -/
abbrev CTRL_TRIANGLE : Nat := 0x001000
/-- The macro `CTRL_CIRCLE`. -/
abbrev CTRL_CIRCLE : Nat := 0x002000
/-- The macro `CTRL_CROSS`. -/
abbrev CTRL_CROSS : Nat := 0x004000
/-- The macro `CTRL_SQUARE`. -/
abbrev CTRL_SQUARE : Nat := 0x008000
/-- The macro `CTRL_HOME`. -/
abbrev CTRL_HOME : Nat := 0x010000

/-- The enum `SDL_Scancode` of the SDL2 headers: the values that
`platform_linux.cpp` names, and `other` for every remaining value. -/
inductive SDL_Scancode where
  | UNKNOWN | A | S | Q | W | R | F | C | D | SPACE | UP | RIGHT | DOWN | LEFT | ESCAPE
  | other (code : Nat)
  deriving DecidableEq, Repr

/-- The part of an `SDL_Event` that `processEvents` looks at: its type and,
for keyboard events, `event.key.keysym.scancode`. -/
inductive SDL_Event where
  | SDL_QUIT
  | SDL_KEYDOWN (scancode : SDL_Scancode)
  | SDL_KEYUP (scancode : SDL_Scancode)
  | ignored
  deriving DecidableEq, Repr

/-- The struct `KeyMapping`. -/
structure KeyMapping where
  scancode : SDL_Scancode
  button : Nat
  deriving DecidableEq, Repr

/-- The table `g_key_mappings`, ending with its `SDL_SCANCODE_UNKNOWN` sentinel. -/
def g_key_mappings : List KeyMapping :=
  [ ⟨SDL_Scancode.A, CTRL_SELECT⟩,
    ⟨SDL_Scancode.S, CTRL_START⟩,
    ⟨SDL_Scancode.Q, CTRL_LTRIGGER⟩,
    ⟨SDL_Scancode.W, CTRL_RTRIGGER⟩,
    ⟨SDL_Scancode.R, CTRL_TRIANGLE⟩,
    ⟨SDL_Scancode.F, CTRL_CIRCLE⟩,
    ⟨SDL_Scancode.C, CTRL_CROSS⟩,
    ⟨SDL_Scancode.D, CTRL_SQUARE⟩,
    ⟨SDL_Scancode.SPACE, CTRL_HOME⟩,
    ⟨SDL_Scancode.UP, CTRL_UP⟩,
    ⟨SDL_Scancode.RIGHT, CTRL_RIGHT⟩,
    ⟨SDL_Scancode.DOWN, CTRL_DOWN⟩,
    ⟨SDL_Scancode.LEFT, CTRL_LEFT⟩,
    ⟨SDL_Scancode.UNKNOWN, 0⟩ ]

/-- The C operator `~` on the bit pattern of a 32-bit `int`. -/
def bitNot32 (b : Nat) : Nat := 0xFFFFFFFF ^^^ b

/-- The search loop shared by the two key cases of `processEvents`:
`for (i = 0; table[i].scancode != SDL_SCANCODE_UNKNOWN; i++)
   if (table[i].scancode == scancode) { controls = update(controls, table[i].button); break; }`
run over the entries from the current position on. -/
def mappingLoop (update : Nat → Nat → Nat) (scancode : SDL_Scancode) :
    List KeyMapping → Nat → Nat
  | [], controls => controls
  | m :: rest, controls =>
    if m.scancode = SDL_Scancode.UNKNOWN then controls
    else if m.scancode = scancode then update controls m.button
    else mappingLoop update scancode rest controls

/-- The body of the `while (SDL_PollEvent(&event))` loop of `processEvents`. -/
def processEvent (s : State) (event : SDL_Event) : State :=
  match event with
  | SDL_Event.SDL_QUIT => { s with g_running := false }
  | SDL_Event.SDL_KEYDOWN scancode =>
    if scancode = SDL_Scancode.ESCAPE then { s with g_running := false }
    else
      let controls := mappingLoop (fun controls button => controls ||| button) scancode
        g_key_mappings s.g_current_controls
      { s with g_current_controls := controls }
  | SDL_Event.SDL_KEYUP scancode =>
    let controls := mappingLoop (fun controls button => controls &&& bitNot32 button) scancode
      g_key_mappings s.g_current_controls
    { s with g_current_controls := controls }
  | SDL_Event.ignored => s

/-- The function `processEvents`, given the events that `SDL_PollEvent` delivers, in order. -/
def processEvents (s : State) (events : List SDL_Event) : State :=
  events.foldl processEvent s

/-! ## Concrete data used in the examples -/

/-- The colour `COLOR_RGBA(0, 0, 255, 255)`: opaque blue. -/
def opaqueBlue : Color := 0xFFFF0000

/-- A 2x2 texture whose four texels are opaque blue. -/
def blueTexture : Texels := ⟨4, fun _ => opaqueBlue⟩

/-- A state with both frame buffers and the render buffer zeroed (as after the
`memset` in `main`), buffer 0 selected for drawing, and `blueTexture` bound
with width 2 and height 2. -/
def blueState : State :=
  { g_framebuffer := fun _ _ => 0
    g_back_buffer := 0
    g_render_buffer := fun _ => 0
    g_running := true
    g_current_controls := 0
    currentTexture := TexturePtr.memory blueTexture
    currentTextureWidth := 2
    currentTextureHeight := 2
    clear_color := 0 }

/-- A 64x1 texture whose texels are opaque blue. -/
def blueStrip : Texels := ⟨64, fun _ => opaqueBlue⟩

/-- The state `blueState` with `blueStrip` bound instead, width 64 and height 1. -/
def stripState : State :=
  { blueState with currentTexture := TexturePtr.memory blueStrip, currentTextureWidth := 64,
                   currentTextureHeight := 1 }

/-- The state `blueState` with texel 478 of both frame buffers opaque blue and
the pointer `g_vram_base`, the start of the draw buffer, bound as texture with
width 1 and height 272. -/
def aliasState : State :=
  { blueState with
    g_framebuffer := fun _ k => if k.val = 478 then opaqueBlue else 0
    currentTexture := TexturePtr.vram 0
    currentTextureWidth := 1
    currentTextureHeight := 272 }

/-- A 2x2 source buffer holding `1 2 / 3 4`. -/
def sampleSource : Buffer 4 := fun i => i.val + 1

/-- A zeroed 3x3 destination buffer. -/
def sampleDest : Buffer 9 := fun _ => 0

/-- The empty source buffer: no index is valid. -/
def emptySource : Buffer 0 := fun i => i.elim0

/-! ## Loop invariant of the rectangle loops -/

/-- Loop invariant of a two-level rectangle loop that is at row `Y`, column `X`:
the texels visited so far (the rows before `Y`, and the columns before `X` of
row `Y`) hold the stored colour where `e` yields one and their old value
where it yields none; every other index holds what `d0` held. -/
def RectInv {m : Nat} (W H : Int) (idx : Int → Int → Int) (e : Int → Int → Option Color)
    (d0 : Buffer m) (X Y : Int) (d : Buffer m) : Prop :=
  (∀ x y, 0 ≤ x → x < W → 0 ≤ y → y < H → (y < Y ∨ (y = Y ∧ x < X)) →
      (∀ c, e x y = some c → d.read (idx x y) = some c) ∧
      (e x y = none → d.read (idx x y) = d0.read (idx x y))) ∧
  (∀ j, (∀ x y, 0 ≤ x → x < W → 0 ≤ y → y < H → (y < Y ∨ (y = Y ∧ x < X)) → j ≠ idx x y) →
      d.read j = d0.read j)

/-- Loop invariant of a two-level rectangle loop whose index map need not be
injective, at row `Y`, column `X`: an index `j` that exactly one texel
`(x, y)` of the rectangle maps to holds, once that texel has been visited,
the stored colour where `e` yields one and its old value where it yields none;
an index that no visited texel maps to holds what `d0` held. -/
def RectInvU {m : Nat} (W H : Int) (idx : Int → Int → Int) (e : Int → Int → Option Color)
    (d0 : Buffer m) (X Y : Int) (d : Buffer m) : Prop :=
  ∀ j : Int,
    (∀ x y, 0 ≤ x → x < W → 0 ≤ y → y < H → idx x y = j →
      (∀ x2 y2, 0 ≤ x2 → x2 < W → 0 ≤ y2 → y2 < H → idx x2 y2 = j → x2 = x ∧ y2 = y) →
      (y < Y ∨ (y = Y ∧ x < X)) →
      (∀ c, e x y = some c → d.read j = some c) ∧ (e x y = none → d.read j = d0.read j)) ∧
    ((∀ x y, 0 ≤ x → x < W → 0 ≤ y → y < H → (y < Y ∨ (y = Y ∧ x < X)) → idx x y ≠ j) →
      d.read j = d0.read j)

/-! ## Controller polling (`psp_stubs.cpp`) -/

/-- The struct `CtrlData` of `platform.h`. -/
structure CtrlData where
  TimeStamp : Nat
  Buttons : Nat
  Lx : Nat
  Ly : Nat
  Rsrv : Fin 6 → Nat

/-- The function `ctrlReadBufferPositive`: fills `*pad_data` and returns `0`.
The result is the state after the call, the struct after the call and the
return value. -/
def ctrlReadBufferPositive (s : State) (pad_data : CtrlData) (_count : Int) :
    State × CtrlData × Int :=
  (s, { pad_data with Buttons := s.g_current_controls, Lx := 128, Ly := 128 }, 0)

/-! ## Vsync pacer (`platform_linux.cpp`, `psp_stubs.cpp`) -/

/-- What one call of `emuWaitVsync` leaves behind: the new value of the static
`last_time` and the argument of `SDL_Delay` when it is called. -/
structure VsyncResult where
  last_time : Nat
  delay : Option Nat
  deriving DecidableEq, Repr

/-- The function `emuWaitVsync`.  `last_time` is the static variable at entry,
`now` the value of the first `SDL_GetTicks()` and `after` the value of the
`SDL_GetTicks()` at the end; `now - last_time` is a `Uint32` subtraction. -/
def emuWaitVsync (last_time now after : Nat) : VsyncResult :=
  let frame_time : Nat := 1000 / 60
  if last_time = 0 then
    { last_time := now, delay := none }
  else
    let elapsed : Nat := (now + 2 ^ 32 - last_time) % 2 ^ 32
    if elapsed < frame_time then
      { last_time := after, delay := some (frame_time - elapsed) }
    else
      { last_time := after, delay := none }

/-- Consecutive calls of `emuWaitVsync`, starting with the given `last_time`;
each pair holds the two clock readings `now` and `after` of one call.  The
result lists what each call leaves behind; its `last_time` is the tick at
which that call returns. -/
def vsyncCalls : Nat → List (Nat × Nat) → List VsyncResult
  | _, [] => []
  | last_time, ticks :: rest =>
    let r := emuWaitVsync last_time ticks.1 ticks.2
    r :: vsyncCalls r.last_time rest

/-- The function `emuIsRunning`. -/
def emuIsRunning (s : State) : Bool := s.g_running

/-- How `sceDisplayWaitVblankStart` ends: the process exits with a status, or
the function returns a value after one call of `emuWaitVsync`. -/
inductive VblankOutcome where
  | exited (status : Int)
  | returned (value : Int) (pacer : VsyncResult)
  deriving DecidableEq, Repr

/-- The function `sceDisplayWaitVblankStart`. -/
def sceDisplayWaitVblankStart (s : State) (last_time now after : Nat) : VblankOutcome :=
  if !emuIsRunning s then VblankOutcome.exited 0
  else VblankOutcome.returned 0 (emuWaitVsync last_time now after)

/-! ## Render loop and script thread (`platform_linux.cpp`) -/

/-- The three calls of the body of the `while (g_running)` loop of `main`. -/
inductive LoopAction where
  | processEvents
  | MikMod_Update
  | renderFrame
  deriving DecidableEq, Repr

/-- Configuration of the render loop: the globals, the events that
`SDL_PollEvent` will deliver in each coming iteration, and the calls made so
far, each with the value `g_running` had when the call started. -/
structure LoopConfig where
  state : State
  pending : List (List SDL_Event)
  trace : List (LoopAction × Bool)

/-- One evaluation of the loop condition of `while (g_running) { processEvents();
MikMod_Update(); renderFrame(); }` followed, when it holds, by the body;
`none` when the loop is left. -/
def mainLoopStep (c : LoopConfig) : Option LoopConfig :=
  if c.state.g_running then
    let s1 := processEvents c.state (c.pending.headD [])
    some { state := s1
           pending := c.pending.tail
           trace := c.trace ++ [(LoopAction.processEvents, c.state.g_running),
                                (LoopAction.MikMod_Update, s1.g_running),
                                (LoopAction.renderFrame, s1.g_running)] }
  else none

/-- At most `n` iterations of the render loop. -/
def mainLoop : Nat → LoopConfig → LoopConfig
  | 0, c => c
  | n + 1, c =>
    match mainLoopStep c with
    | some c1 => mainLoop n c1
    | none => c

/-- The statements of `luaThread`, in order. -/
inductive ThreadAction where
  | runScript
  | uninitSound
  | clearRunning
  deriving DecidableEq, Repr

/-- The function `luaThread`.  `script` is what `runScript` does to the globals
together with the error message it returns (`none` for a null pointer). -/
def luaThread (script : State → State × Option String) (s : State) :
    State × List ThreadAction :=
  let afterScript := (script s).1
  ({ afterScript with g_running := false },
    [ThreadAction.runScript, ThreadAction.uninitSound, ThreadAction.clearRunning])

/-- The globals as the static initialisers and the `memset` in `main` leave them. -/
def initialState : State :=
  { g_framebuffer := fun _ _ => 0
    g_back_buffer := 0
    g_render_buffer := fun _ => 0
    g_running := true
    g_current_controls := 0
    currentTexture := TexturePtr.memory Texels.null
    currentTextureWidth := 0
    currentTextureHeight := 0
    clear_color := 0 }

/-- The operations on the globals: the modelled functions and the two
assignments `g_running = 0` at the end of `luaThread` and after the loop of `main`. -/
inductive Operation where
  | processEvents (events : List SDL_Event)
  | emuFlipBuffers
  | sceGuClearColor (color : Color)
  | sceGuClear (flags : Int)
  | sceGuTexImage (mipmap width height tbw : Int) (tbp : TexturePtr)
  | sceGuDrawArray (prim vtype count : Int) (v0 v1 : Vertex)
  | ctrlReadBufferPositive (pad_data : CtrlData) (count : Int)
  | luaThreadEnd
  | mainLoopEnd

/-- Effect of one operation; `none` when it faults. -/
def Operation.apply (s : State) : Operation → Option State
  | Operation.processEvents events => some (LuaPlayer.processEvents s events)
  | Operation.emuFlipBuffers => some (LuaPlayer.emuFlipBuffers s)
  | Operation.sceGuClearColor color => some (LuaPlayer.sceGuClearColor s color)
  | Operation.sceGuClear flags => LuaPlayer.sceGuClear s flags
  | Operation.sceGuTexImage mipmap width height tbw tbp =>
    some (LuaPlayer.sceGuTexImage s mipmap width height tbw tbp)
  | Operation.sceGuDrawArray prim vtype count v0 v1 =>
    LuaPlayer.sceGuDrawArray s prim vtype count v0 v1
  | Operation.ctrlReadBufferPositive pad_data count =>
    some (LuaPlayer.ctrlReadBufferPositive s pad_data count).1
  | Operation.luaThreadEnd => some { s with g_running := false }
  | Operation.mainLoopEnd => some { s with g_running := false }

/-- A sequence of operations, stopping at a fault. -/
def runOperations : List Operation → State → Option State
  | [], s => some s
  | op :: ops, s => (op.apply s).bind (runOperations ops)

/-- Invariant of the render loop: every iteration started with the flag set, at
most one upload was made with the flag cleared, and such an upload is the last
call made, with the flag still cleared. -/
def LoopInv (c : LoopConfig) : Prop :=
  (∀ flag, (LoopAction.processEvents, flag) ∈ c.trace → flag = true) ∧
  List.count (LoopAction.renderFrame, false) c.trace ≤ 1 ∧
  ((LoopAction.renderFrame, false) ∈ c.trace →
    c.trace.getLast? = some (LoopAction.renderFrame, false) ∧ c.state.g_running = false)

/-! ## Start of `main` (`platform_linux.cpp`, `sound.cpp`) -/

/-- The two `if` statements of `main` that clamp `g_scale` after `atoi`. -/
def clampScale (n : Int) : Int :=
  let g : Int := if n < 1 then 1 else n
  if g > 8 then 8 else g

/-- The option loop of `main` and the test that follows it, on the arguments
from `argv[arg_idx]` on and the current `g_scale`; `atoi` is the C library
function.  The result is `g_scale` and `g_script_path`, or the value that
`main` returns at once. -/
def parseArguments (atoi : String → Int) : List String → Int → Except Int (Int × String)
  | [], _ => Except.error 1
  | arg :: rest, g_scale =>
    if arg.data.head? = some '-' then
      if arg = "-scale" then
        match rest with
        | value :: rest2 => parseArguments atoi rest2 (clampScale (atoi value))
        | [] => Except.error 1
      else Except.error 1
    else Except.ok (g_scale, arg)

/-- The arguments `-scale v` for each `v` of a list, in order. -/
def scaleOptions : List String → List String
  | [] => []
  | v :: vs => "-scale" :: v :: scaleOptions vs

/-- Whether each fallible step of the start of `main` succeeds: `SDL_Init`
(video and audio subsystems), `SDL_CreateWindow`, `SDL_CreateRenderer`,
`SDL_CreateTexture`, and `MikMod_Init` inside `initSound`. -/
structure InitOutcomes where
  sdlInit : Bool
  createWindow : Bool
  createRenderer : Bool
  createTexture : Bool
  mikmodInit : Bool

/-- The calls that the start of `main` makes, `initSound` unfolded to its MikMod calls. -/
inductive StartupAction where
  | SDL_Init
  | SDL_CreateWindow
  | SDL_CreateRenderer
  | SDL_RenderSetLogicalSize
  | SDL_CreateTexture
  | SDL_DestroyRenderer
  | SDL_DestroyWindow
  | SDL_Quit
  | MikMod_Init
  | MikMod_SetNumVoices
  | MikMod_EnableOutput
  | initGraphics
  | pthread_create
  deriving DecidableEq, Repr

/-- How the start of `main` ends: `main` returns a value, or the script thread
has been created and the render loop is entered; both with the calls made. -/
inductive StartupResult where
  | returned (value : Int) (calls : List StartupAction)
  | threadStarted (calls : List StartupAction)
  deriving DecidableEq, Repr

/-- The function `initSound`: the MikMod calls it makes after the registrations. -/
def initSound (o : InitOutcomes) : List StartupAction :=
  if o.mikmodInit then
    [StartupAction.MikMod_Init, StartupAction.MikMod_SetNumVoices,
     StartupAction.MikMod_EnableOutput]
  else [StartupAction.MikMod_Init]

/-- The part of `main` from `SDL_Init` to `pthread_create`. -/
def mainStartup (o : InitOutcomes) : StartupResult :=
  if !o.sdlInit then StartupResult.returned 1 [StartupAction.SDL_Init]
  else if !o.createWindow then
    StartupResult.returned 1
      [StartupAction.SDL_Init, StartupAction.SDL_CreateWindow, StartupAction.SDL_Quit]
  else if !o.createRenderer then
    StartupResult.returned 1
      [StartupAction.SDL_Init, StartupAction.SDL_CreateWindow, StartupAction.SDL_CreateRenderer,
       StartupAction.SDL_DestroyWindow, StartupAction.SDL_Quit]
  else if !o.createTexture then
    StartupResult.returned 1
      [StartupAction.SDL_Init, StartupAction.SDL_CreateWindow, StartupAction.SDL_CreateRenderer,
       StartupAction.SDL_RenderSetLogicalSize, StartupAction.SDL_CreateTexture,
       StartupAction.SDL_DestroyRenderer, StartupAction.SDL_DestroyWindow,
       StartupAction.SDL_Quit]
  else
    StartupResult.threadStarted
      ([StartupAction.SDL_Init, StartupAction.SDL_CreateWindow,
        StartupAction.SDL_CreateRenderer, StartupAction.SDL_RenderSetLogicalSize,
        StartupAction.SDL_CreateTexture] ++ initSound o ++
       [StartupAction.initGraphics, StartupAction.pthread_create])

/-! ## Mixer settings (`sound.cpp`) -/

/-- The MikMod variables `md_musicvolume`, `md_sndfxvolume`, `md_reverb` and
`md_pansep`, which `mikmod.h` declares as `UBYTE`. -/
structure MixerSettings where
  md_musicvolume : Nat
  md_sndfxvolume : Nat
  md_reverb : Nat
  md_pansep : Nat
  deriving DecidableEq, Repr

/-- The function `setMusicVolume`: the settings after the call and the value returned. -/
def setMusicVolume (m : MixerSettings) (arg : Nat) : MixerSettings × Nat :=
  if arg ≠ 9999 then
    let arg := if arg > 128 then 128 else arg
    let m1 := { m with md_musicvolume := arg % 256 }
    (m1, m1.md_musicvolume)
  else (m, m.md_musicvolume)

/-- The function `setSFXVolume`: the settings after the call and the value returned. -/
def setSFXVolume (m : MixerSettings) (arg : Nat) : MixerSettings × Nat :=
  if arg ≠ 9999 then
    let arg := if arg > 128 then 128 else arg
    let m1 := { m with md_sndfxvolume := arg % 256 }
    (m1, m1.md_sndfxvolume)
  else (m, m.md_sndfxvolume)

/-- The function `setReverb`: the settings after the call and the value returned. -/
def setReverb (m : MixerSettings) (arg : Nat) : MixerSettings × Nat :=
  if arg ≠ 9999 then
    let arg := if arg > 15 then 15 else arg
    let m1 := { m with md_reverb := arg % 256 }
    (m1, m1.md_reverb)
  else (m, m.md_reverb)

/-- The function `setPanSep`: the settings after the call and the value returned. -/
def setPanSep (m : MixerSettings) (arg : Nat) : MixerSettings × Nat :=
  if arg ≠ 9999 then
    let arg := if arg > 128 then 128 else arg
    let m1 := { m with md_pansep := arg % 256 }
    (m1, m1.md_pansep)
  else (m, m.md_pansep)

/-! ## MD5 (`md5.cpp`, `psp_stubs.cpp`)

Bytes and words are natural numbers; every `uint32_t` operation is reduced
modulo `2 ^ 32` and the 64-bit bit count modulo `2 ^ 64`.  A byte sequence is
a list; a `memcpy` or a block read that leaves its source or destination is a
fault (`none`). -/

/-- Modelled from the spec: the macro `MD5_BUFLEN` of `md5.h`, a header that is
not among the sources; 64, the number of initialisers of `md5_paddat` and the
bound on `md5_i`. -/
abbrev MD5_BUFLEN : Nat := 64

/-- Modelled from the spec: the struct `md5_ctxt` of `md5.h`, a header that is
not among the sources, with the members that `md5.cpp` uses: the four 32-bit
state words, the 64-bit bit count `md5_n`, the buffer index `md5_i` and the
buffer `md5_buf` of `MD5_BUFLEN` bytes. -/
structure md5_ctxt where
  md5_sta : Nat
  md5_stb : Nat
  md5_stc : Nat
  md5_std : Nat
  md5_n : Nat
  md5_i : Nat
  md5_buf : List Nat
  deriving DecidableEq, Repr

/-- The macro `SHIFT(X, s)` on a `uint32_t`. -/
def SHIFT (X s : Nat) : Nat := (((X <<< s) % 2 ^ 32) ||| (X >>> (32 - s))) % 2 ^ 32

/-- The C operator `~` on a `uint32_t`. -/
def not32 (X : Nat) : Nat := X ^^^ 0xFFFFFFFF

/-- The macro `F(X, Y, Z)`. -/
def F (X Y Z : Nat) : Nat := (X &&& Y) ||| (not32 X &&& Z)
/-- The macro `G(X, Y, Z)`. -/
def G (X Y Z : Nat) : Nat := (X &&& Z) ||| (Y &&& not32 Z)
/-- The macro `H(X, Y, Z)`. -/
def H (X Y Z : Nat) : Nat := X ^^^ Y ^^^ Z
/-- The macro `I(X, Y, Z)`. -/
def I (X Y Z : Nat) : Nat := Y ^^^ (X ||| not32 Z)

/-- The macro `Sa`. -/
abbrev Sa : Nat := 7
/-- The macro `Sb`. -/
abbrev Sb : Nat := 12
/-- The macro `Sc`. -/
abbrev Sc : Nat := 17
/-- The macro `Sd`. -/
abbrev Sd : Nat := 22
/-- The macro `Se`. -/
abbrev Se : Nat := 5
/-- The macro `Sf`. -/
abbrev Sf : Nat := 9
/-- The macro `Sg`. -/
abbrev Sg : Nat := 14
/-- The macro `Sh`. -/
abbrev Sh : Nat := 20
/-- The macro `Si`. -/
abbrev Si : Nat := 4
/-- The macro `Sj`. -/
abbrev Sj : Nat := 11
/-- The macro `Sk`. -/
abbrev Sk : Nat := 16
/-- The macro `Sl`. -/
abbrev Sl : Nat := 23
/-- The macro `Sm`. -/
abbrev Sm : Nat := 6
/-- The macro `Sn`. -/
abbrev Sn : Nat := 10
/-- The macro `So`. -/
abbrev So : Nat := 15
/-- The macro `Sp`. -/
abbrev Sp : Nat := 21

/-- The macro `MD5_A0`. -/
abbrev MD5_A0 : Nat := 0x67452301
/-- The macro `MD5_B0`. -/
abbrev MD5_B0 : Nat := 0xefcdab89
/-- The macro `MD5_C0`. -/
abbrev MD5_C0 : Nat := 0x98badcfe
/-- The macro `MD5_D0`. -/
abbrev MD5_D0 : Nat := 0x10325476

/-- The table `T`. -/
def T : List Nat :=
  [
    0, 0xd76aa478, 0xe8c7b756, 0x242070db,
    0xc1bdceee, 0xf57c0faf, 0x4787c62a, 0xa8304613,
    0xfd469501, 0x698098d8, 0x8b44f7af, 0xffff5bb1,
    0x895cd7be, 0x6b901122, 0xfd987193, 0xa679438e,
    0x49b40821, 0xf61e2562, 0xc040b340, 0x265e5a51,
    0xe9b6c7aa, 0xd62f105d, 0x2441453, 0xd8a1e681,
    0xe7d3fbc8, 0x21e1cde6, 0xc33707d6, 0xf4d50d87,
    0x455a14ed, 0xa9e3e905, 0xfcefa3f8, 0x676f02d9,
    0x8d2a4c8a, 0xfffa3942, 0x8771f681, 0x6d9d6122,
    0xfde5380c, 0xa4beea44, 0x4bdecfa9, 0xf6bb4b60,
    0xbebfbc70, 0x289b7ec6, 0xeaa127fa, 0xd4ef3085,
    0x4881d05, 0xd9d4d039, 0xe6db99e5, 0x1fa27cf8,
    0xc4ac5665, 0xf4292244, 0x432aff97, 0xab9423a7,
    0xfc93a039, 0x655b59c3, 0x8f0ccc92, 0xffeff47d,
    0x85845dd1, 0x6fa87e4f, 0xfe2ce6e0, 0xa3014314,
    0x4e0811a1, 0xf7537e82, 0xbd3af235, 0x2ad7d2bb,
    0xeb86d391 ]

/-- The table `md5_paddat`. -/
def md5_paddat : List Nat := 0x80 :: List.replicate 63 0

/-- The three statements shared by the macros `ROUND1` .. `ROUND4`, for the
auxiliary function `f`: the new value of `a`. -/
def ROUND (f : Nat → Nat → Nat → Nat) (a b c d : Nat) (X : List Nat) (k s i : Nat) : Nat :=
  let a := (a + f b c d + X.getD k 0 + T.getD i 0) % 2 ^ 32
  let a := SHIFT a s
  (b + a) % 2 ^ 32

/-- The macro `ROUND1`. -/
def ROUND1 (a b c d : Nat) (X : List Nat) (k s i : Nat) : Nat := ROUND F a b c d X k s i
/-- The macro `ROUND2`. -/
def ROUND2 (a b c d : Nat) (X : List Nat) (k s i : Nat) : Nat := ROUND G a b c d X k s i
/-- The macro `ROUND3`. -/
def ROUND3 (a b c d : Nat) (X : List Nat) (k s i : Nat) : Nat := ROUND H a b c d X k s i
/-- The macro `ROUND4`. -/
def ROUND4 (a b c d : Nat) (X : List Nat) (k s i : Nat) : Nat := ROUND I a b c d X k s i

/-- The sixteen `uint32_t` that a little-endian host sees in 64 bytes. -/
def wordsLE (b64 : List Nat) : List Nat :=
  (List.range 16).map fun k =>
    b64.getD (4 * k) 0 + b64.getD (4 * k + 1) 0 * 2 ^ 8 + b64.getD (4 * k + 2) 0 * 2 ^ 16 +
      b64.getD (4 * k + 3) 0 * 2 ^ 24

/-- The 64 `ROUND` statements of `md5_calc`, in the order of the source, on the
local variables `A`, `B`, `C`, `D` and the words `X`: the final `A`, `B`, `C`, `D`. -/
def md5_calc_rounds (X : List Nat) (A B C D : Nat) : Nat × Nat × Nat × Nat :=
  let A := ROUND1 A B C D X 0 Sa 1
  let D := ROUND1 D A B C X 1 Sb 2
  let C := ROUND1 C D A B X 2 Sc 3
  let B := ROUND1 B C D A X 3 Sd 4
  let A := ROUND1 A B C D X 4 Sa 5
  let D := ROUND1 D A B C X 5 Sb 6
  let C := ROUND1 C D A B X 6 Sc 7
  let B := ROUND1 B C D A X 7 Sd 8
  let A := ROUND1 A B C D X 8 Sa 9
  let D := ROUND1 D A B C X 9 Sb 10
  let C := ROUND1 C D A B X 10 Sc 11
  let B := ROUND1 B C D A X 11 Sd 12
  let A := ROUND1 A B C D X 12 Sa 13
  let D := ROUND1 D A B C X 13 Sb 14
  let C := ROUND1 C D A B X 14 Sc 15
  let B := ROUND1 B C D A X 15 Sd 16
  let A := ROUND2 A B C D X 1 Se 17
  let D := ROUND2 D A B C X 6 Sf 18
  let C := ROUND2 C D A B X 11 Sg 19
  let B := ROUND2 B C D A X 0 Sh 20
  let A := ROUND2 A B C D X 5 Se 21
  let D := ROUND2 D A B C X 10 Sf 22
  let C := ROUND2 C D A B X 15 Sg 23
  let B := ROUND2 B C D A X 4 Sh 24
  let A := ROUND2 A B C D X 9 Se 25
  let D := ROUND2 D A B C X 14 Sf 26
  let C := ROUND2 C D A B X 3 Sg 27
  let B := ROUND2 B C D A X 8 Sh 28
  let A := ROUND2 A B C D X 13 Se 29
  let D := ROUND2 D A B C X 2 Sf 30
  let C := ROUND2 C D A B X 7 Sg 31
  let B := ROUND2 B C D A X 12 Sh 32
  let A := ROUND3 A B C D X 5 Si 33
  let D := ROUND3 D A B C X 8 Sj 34
  let C := ROUND3 C D A B X 11 Sk 35
  let B := ROUND3 B C D A X 14 Sl 36
  let A := ROUND3 A B C D X 1 Si 37
  let D := ROUND3 D A B C X 4 Sj 38
  let C := ROUND3 C D A B X 7 Sk 39
  let B := ROUND3 B C D A X 10 Sl 40
  let A := ROUND3 A B C D X 13 Si 41
  let D := ROUND3 D A B C X 0 Sj 42
  let C := ROUND3 C D A B X 3 Sk 43
  let B := ROUND3 B C D A X 6 Sl 44
  let A := ROUND3 A B C D X 9 Si 45
  let D := ROUND3 D A B C X 12 Sj 46
  let C := ROUND3 C D A B X 15 Sk 47
  let B := ROUND3 B C D A X 2 Sl 48
  let A := ROUND4 A B C D X 0 Sm 49
  let D := ROUND4 D A B C X 7 Sn 50
  let C := ROUND4 C D A B X 14 So 51
  let B := ROUND4 B C D A X 5 Sp 52
  let A := ROUND4 A B C D X 12 Sm 53
  let D := ROUND4 D A B C X 3 Sn 54
  let C := ROUND4 C D A B X 10 So 55
  let B := ROUND4 B C D A X 1 Sp 56
  let A := ROUND4 A B C D X 8 Sm 57
  let D := ROUND4 D A B C X 15 Sn 58
  let C := ROUND4 C D A B X 6 So 59
  let B := ROUND4 B C D A X 13 Sp 60
  let A := ROUND4 A B C D X 4 Sm 61
  let D := ROUND4 D A B C X 11 Sn 62
  let C := ROUND4 C D A B X 2 So 63
  let B := ROUND4 B C D A X 9 Sp 64
  (A, B, C, D)

/-- The function `md5_calc` on a block of 64 bytes. -/
def md5_calc (b64 : List Nat) (ctxt : md5_ctxt) : md5_ctxt :=
  let r := md5_calc_rounds (wordsLE b64) ctxt.md5_sta ctxt.md5_stb ctxt.md5_stc ctxt.md5_std
  { ctxt with
    md5_sta := (ctxt.md5_sta + r.1) % 2 ^ 32
    md5_stb := (ctxt.md5_stb + r.2.1) % 2 ^ 32
    md5_stc := (ctxt.md5_stc + r.2.2.1) % 2 ^ 32
    md5_std := (ctxt.md5_std + r.2.2.2) % 2 ^ 32 }

/-- The call `memcpy(dest + doff, src + soff, n)` on byte arrays. -/
def memcpy (dest : List Nat) (doff : Nat) (src : List Nat) (soff n : Nat) : Option (List Nat) :=
  if doff + n ≤ dest.length ∧ soff + n ≤ src.length then
    some (dest.take doff ++ (src.drop soff).take n ++ dest.drop (doff + n))
  else none

/-- The function `md5_init`. -/
def md5_init : md5_ctxt :=
  { md5_n := 0
    md5_i := 0
    md5_sta := MD5_A0
    md5_stb := MD5_B0
    md5_stc := MD5_C0
    md5_std := MD5_D0
    md5_buf := List.replicate MD5_BUFLEN 0 }

/-- The loop `for (i = gap; i + MD5_BUFLEN <= len; i += MD5_BUFLEN) md5_calc(input + i, ctxt)`
of `md5_loop`, from the current `i` on, in `unsigned int` arithmetic; the
result is the final `i` and the context.  The first argument bounds the
number of iterations; `len / MD5_BUFLEN + 1` is never used up, because an
iteration that does not fault moves `i` 64 bytes further inside the input. -/
def md5_loop_blocks (input : List Nat) (len : Nat) :
    Nat → Nat → md5_ctxt → Option (Nat × md5_ctxt)
  | 0, _, _ => none
  | fuel + 1, i, ctxt =>
    if (i + MD5_BUFLEN) % 2 ^ 32 ≤ len then
      if i + MD5_BUFLEN ≤ input.length then
        md5_loop_blocks input len fuel ((i + MD5_BUFLEN) % 2 ^ 32)
          (md5_calc ((input.drop i).take MD5_BUFLEN) ctxt)
      else none
    else some (i, ctxt)

/-- The function `md5_loop` on the `len = input.length` bytes of `input`
(a length below `2 ^ 32`, as `len` is an `unsigned int`). -/
def md5_loop (ctxt : md5_ctxt) (input : List Nat) : Option md5_ctxt :=
  let len := input.length
  let c1 := { ctxt with md5_n := (ctxt.md5_n + (len * 8) % 2 ^ 32) % 2 ^ 64 }
  let gap := (MD5_BUFLEN + 2 ^ 32 - c1.md5_i) % 2 ^ 32
  if len ≥ gap then
    (memcpy c1.md5_buf c1.md5_i input 0 gap).bind fun buf =>
    let c2 := md5_calc buf { c1 with md5_buf := buf }
    (md5_loop_blocks input len (len / MD5_BUFLEN + 1) gap c2).bind fun r =>
    let i := r.1
    let c3 := { r.2 with md5_i := (len + 2 ^ 32 - i) % 2 ^ 32 }
    (memcpy c3.md5_buf 0 input i c3.md5_i).map fun buf3 => { c3 with md5_buf := buf3 }
  else
    (memcpy c1.md5_buf c1.md5_i input 0 len).map fun buf =>
    { c1 with md5_buf := buf, md5_i := (c1.md5_i + len) % 2 ^ 32 }

/-- The eight bytes `md5_n8` of the bit count on a little-endian host. -/
def md5_n8 (ctxt : md5_ctxt) : List Nat :=
  (List.range 8).map fun k => (ctxt.md5_n / 2 ^ (8 * k)) % 256

/-- The function `md5_pad` (branch `MD5_LITTLE_ENDIAN`). -/
def md5_pad (ctxt : md5_ctxt) : Option md5_ctxt :=
  let gap := (MD5_BUFLEN + 2 ^ 32 - ctxt.md5_i) % 2 ^ 32
  let padded : Option md5_ctxt :=
    if gap > 8 then
      (memcpy ctxt.md5_buf ctxt.md5_i md5_paddat 0 (gap - 8)).map fun buf =>
      { ctxt with md5_buf := buf }
    else
      (memcpy ctxt.md5_buf ctxt.md5_i md5_paddat 0 gap).bind fun buf =>
      let c1 := md5_calc buf { ctxt with md5_buf := buf }
      (memcpy c1.md5_buf 0 md5_paddat gap (MD5_BUFLEN - 8)).map fun buf2 =>
      { c1 with md5_buf := buf2 }
  padded.bind fun c2 =>
  (memcpy c2.md5_buf 56 (md5_n8 c2) 0 8).map fun buf3 =>
  md5_calc buf3 { c2 with md5_buf := buf3 }

/-- The sixteen bytes `md5_st8` of the state words on a little-endian host. -/
def md5_st8 (ctxt : md5_ctxt) : List Nat :=
  [ctxt.md5_sta, ctxt.md5_stb, ctxt.md5_stc, ctxt.md5_std].flatMap fun w =>
    (List.range 4).map fun k => (w / 2 ^ (8 * k)) % 256

/-- The function `md5_result` (branch `MD5_LITTLE_ENDIAN`): the 16 bytes of `digest`. -/
def md5_result (ctxt : md5_ctxt) : List Nat := md5_st8 ctxt

/-- The function `sceKernelUtilsMd5Digest`, with `MD5Init`, `MD5Update` and
`MD5Final` expanded to `md5_init`, `md5_loop`, and `md5_pad` followed by
`md5_result`: the bytes written to `digest` and the value returned. -/
def sceKernelUtilsMd5Digest (data : List Nat) : Option (List Nat × Int) :=
  (md5_loop md5_init data).bind fun c1 =>
  (md5_pad c1).map fun c2 => (md5_result c2, 0)

/-! ## Definitions for the buffer index and the pacer branches -/

/-- The C variable `g_back_buffer`, an `int`, after one operation: only
`emuFlipBuffers` assigns it, `g_back_buffer = 1 - g_back_buffer`. -/
def Operation.backBuffer (i : Int) : Operation → Int
  | Operation.emuFlipBuffers => 1 - i
  | _ => i

/-- The C variable `g_back_buffer` after a sequence of operations. -/
def backBufferAfter : List Operation → Int → Int
  | [], i => i
  | op :: ops, i => backBufferAfter ops (op.backBuffer i)

/-- The pacing branch as the specification words it: `elapsed` is
`(now - last_time) mod 2 ^ 32`; the call sleeps `1000 / 60 - elapsed` when
`elapsed` is below that period and does not sleep otherwise; the tick read at
the end is stored. -/
def pacingBranch (last_time now after : Nat) : VsyncResult :=
  let elapsed := (now + 2 ^ 32 - last_time) % 2 ^ 32
  { last_time := after
    delay := if elapsed < 1000 / 60 then some (1000 / 60 - elapsed) else none }

/-- Consecutive calls that all take the pacing branch, as the specification
words it, starting from the stored tick `last_time`. -/
def pacedCalls : Nat → List (Nat × Nat) → List VsyncResult
  | _, [] => []
  | last_time, ticks :: rest =>
    pacingBranch last_time ticks.1 ticks.2 :: pacedCalls ticks.2 rest

/-! ## Interleaving of the script thread and the presentation thread (`platform_linux.cpp`)

`emuFlipBuffers` runs on the script thread, `renderFrame` and `processEvents`
on the main thread; both copies are made with `g_render_mutex` held.  A
configuration holds the globals, the owner of the mutex and the position of
each thread inside its critical section; a step is one atomic action of one
thread, and a step that is not enabled (a thread blocked in
`pthread_mutex_lock`, an action out of program order, a faulting call) yields
`none`.  The two `memcpy` are split into one step per texel, so that every
interleaving of the two copies with the other thread is a run.  A call of the
script is one step: it touches neither the render buffer nor the mutex.  The
schedule is arbitrary: `g_running`, which only decides how long the two
threads go on, is not consulted. -/

/-- The two threads that take `g_render_mutex`. -/
inductive Thread where
  | script
  | main

/-- Position of the script thread with respect to `emuFlipBuffers`: outside the
function, inside the `memcpy` with the mutex held and `k` texels copied, or
between `pthread_mutex_unlock` and the assignment to `g_back_buffer`. -/
inductive FlipPc where
  | outside
  | copying (k : Nat)
  | unlocked

/-- Position of the main thread with respect to the critical section of
`renderFrame`: outside, or inside the row loop with the mutex held and `k`
texels of the 480x272 picture copied, row by row. -/
inductive ShowPc where
  | outside
  | copying (k : Nat)

/-- A configuration of the two threads.  `pixels` is the locked streaming
texture that `renderFrame` fills, pixel `(x, y)` at `x + y * 480`.  The last two
fields are history variables, which no step reads: `frames` lists the initial
content of the render buffer and then, for each flip whose copy has been
completed, the content of the draw buffer that was copied; `snapshots` lists
the pictures that completed critical sections of `renderFrame` have taken. -/
structure Threads where
  state : State
  mutex : Option Thread
  flipPc : FlipPc
  showPc : ShowPc
  pixels : Nat → Color
  frames : List (Buffer FB_SIZE)
  snapshots : List (Nat → Color)

/-- The calls that the script makes between two flips: they draw, bind textures
and poll the controller. -/
def Operation.isScriptCall : Operation → Bool
  | Operation.sceGuClearColor _ => true
  | Operation.sceGuClear _ => true
  | Operation.sceGuTexImage _ _ _ _ _ => true
  | Operation.sceGuDrawArray _ _ _ _ _ => true
  | Operation.ctrlReadBufferPositive _ _ => true
  | _ => false

/-- The atomic actions: a call of the script outside `emuFlipBuffers`; the
statements of `emuFlipBuffers` (`pthread_mutex_lock`, one texel of the `memcpy`,
`pthread_mutex_unlock`, `g_back_buffer = 1 - g_back_buffer`); `processEvents` on
the main thread; the critical section of `renderFrame` (`pthread_mutex_lock`,
one texel of the row copies, `pthread_mutex_unlock`). -/
inductive Step where
  | script (op : Operation)
  | flipLock
  | flipCopy
  | flipUnlock
  | flipToggle
  | processEvents (events : List SDL_Event)
  | showLock
  | showCopy
  | showUnlock

/-- One atomic action; `none` when the action is not enabled. -/
def threadStep (c : Threads) : Step → Option Threads
  | Step.script op =>
    match c.flipPc with
    | FlipPc.outside =>
      if op.isScriptCall then (op.apply c.state).map fun t => { c with state := t } else none
    | _ => none
  | Step.flipLock =>
    match c.flipPc, c.mutex with
    | FlipPc.outside, none =>
      some { c with mutex := some Thread.script, flipPc := FlipPc.copying 0 }
    | _, _ => none
  | Step.flipCopy =>
    match c.flipPc with
    | FlipPc.copying k =>
      if k < PLATFORM_LINE_SIZE * PLATFORM_SCREEN_HEIGHT then
        ((getVramDrawBuffer c.state).read k).bind fun color =>
          (c.state.g_render_buffer.write k color).map fun r =>
            { c with state := { c.state with g_render_buffer := r }
                     flipPc := FlipPc.copying (k + 1) }
      else none
    | _ => none
  | Step.flipUnlock =>
    match c.flipPc with
    | FlipPc.copying k =>
      if k = PLATFORM_LINE_SIZE * PLATFORM_SCREEN_HEIGHT then
        some { c with mutex := none, flipPc := FlipPc.unlocked
                      frames := c.frames ++ [getVramDrawBuffer c.state] }
      else none
    | _ => none
  | Step.flipToggle =>
    match c.flipPc with
    | FlipPc.unlocked =>
      some { c with state := { c.state with g_back_buffer := 1 - c.state.g_back_buffer }
                    flipPc := FlipPc.outside }
    | _ => none
  | Step.processEvents events =>
    match c.showPc with
    | ShowPc.outside => some { c with state := LuaPlayer.processEvents c.state events }
    | _ => none
  | Step.showLock =>
    match c.showPc, c.mutex with
    | ShowPc.outside, none =>
      some { c with mutex := some Thread.main, showPc := ShowPc.copying 0 }
    | _, _ => none
  | Step.showCopy =>
    match c.showPc with
    | ShowPc.copying k =>
      if k < PLATFORM_SCREEN_WIDTH * PLATFORM_SCREEN_HEIGHT then
        (c.state.g_render_buffer.read
            ((k % PLATFORM_SCREEN_WIDTH : Nat) +
              (k / PLATFORM_SCREEN_WIDTH : Nat) * (PLATFORM_LINE_SIZE : Nat))).map fun color =>
          { c with pixels := Function.update c.pixels k color
                   showPc := ShowPc.copying (k + 1) }
      else none
    | _ => none
  | Step.showUnlock =>
    match c.showPc with
    | ShowPc.copying k =>
      if k = PLATFORM_SCREEN_WIDTH * PLATFORM_SCREEN_HEIGHT then
        some { c with mutex := none, showPc := ShowPc.outside
                      snapshots := c.snapshots ++ [c.pixels] }
      else none
    | _ => none

/-- A run: the actions of a schedule in order, `none` when one of them is not enabled. -/
def runThreads : List Step → Threads → Option Threads
  | [], c => some c
  | st :: rest, c => (threadStep c st).bind (runThreads rest)

/-- The configuration at the start of the two threads, with the globals `s`:
mutex free, both threads outside their critical sections, no snapshot taken;
what the render buffer holds is the first frame. -/
def initialThreads (s : State) : Threads :=
  { state := s
    mutex := none
    flipPc := FlipPc.outside
    showPc := ShowPc.outside
    pixels := fun _ => 0
    frames := [s.g_render_buffer]
    snapshots := [] }

/-- The picture `p` shows the frame `f`: pixel `(x, y)` of the 480x272 picture is
the texel `x + y * 512` of `f`. -/
def showsFrame (p : Nat → Color) (f : Buffer FB_SIZE) : Prop :=
  ∀ x y : Nat, x < PLATFORM_SCREEN_WIDTH → y < PLATFORM_SCREEN_HEIGHT →
    f.read ((x : Int) + (y : Int) * (PLATFORM_LINE_SIZE : Nat)) =
      some (p (x + y * PLATFORM_SCREEN_WIDTH))

/-- The steps of one call of `emuFlipBuffers`, in program order. -/
def flipSteps : List Step :=
  Step.flipLock :: List.replicate (PLATFORM_LINE_SIZE * PLATFORM_SCREEN_HEIGHT) Step.flipCopy ++
    [Step.flipUnlock, Step.flipToggle]

/-- The steps of the critical section of one call of `renderFrame`, in program order. -/
def showSteps : List Step :=
  Step.showLock :: List.replicate (PLATFORM_SCREEN_WIDTH * PLATFORM_SCREEN_HEIGHT) Step.showCopy ++
    [Step.showUnlock]

/-- Invariant of the runs: a thread inside its copy holds the mutex; the texels
copied so far by a flip are those of the draw buffer; the pixels copied so far
by a snapshot are those of the render buffer; while no flip is copying, the
render buffer is the last frame; every snapshot taken shows one frame. -/
def ThreadsInv (c : Threads) : Prop :=
  (∀ k, c.flipPc = FlipPc.copying k →
    c.mutex = some Thread.script ∧ k ≤ PLATFORM_LINE_SIZE * PLATFORM_SCREEN_HEIGHT ∧
    ∀ j : Nat, j < k →
      c.state.g_render_buffer.read (j : Int) = (getVramDrawBuffer c.state).read (j : Int)) ∧
  (∀ k, c.showPc = ShowPc.copying k →
    c.mutex = some Thread.main ∧ k ≤ PLATFORM_SCREEN_WIDTH * PLATFORM_SCREEN_HEIGHT ∧
    ∀ j : Nat, j < k →
      c.state.g_render_buffer.read
          ((j % PLATFORM_SCREEN_WIDTH : Nat) +
            (j / PLATFORM_SCREEN_WIDTH : Nat) * (PLATFORM_LINE_SIZE : Nat)) =
        some (c.pixels j)) ∧
  ((∀ k, c.flipPc ≠ FlipPc.copying k) → c.frames.getLast? = some c.state.g_render_buffer) ∧
  (∀ p ∈ c.snapshots, ∃ f ∈ c.frames, showsFrame p f)

/-- A schedule: the script clears the draw buffer to red and flips; the main
thread enters the critical section of `renderFrame` and copies 1000 pixels; the
script clears the new draw buffer to blue; the main thread copies the other
pixels and leaves the critical section. -/
def exampleSchedule : List Step :=
  [Step.script (Operation.sceGuClearColor 0xFF0000FF), Step.script (Operation.sceGuClear 0)] ++
    flipSteps ++
    (Step.showLock :: List.replicate 1000 Step.showCopy) ++
    [Step.script (Operation.sceGuClearColor 0xFFFF0000), Step.script (Operation.sceGuClear 0)] ++
    List.replicate (PLATFORM_SCREEN_WIDTH * PLATFORM_SCREEN_HEIGHT - 1000) Step.showCopy ++
    [Step.showUnlock]


/-! ## Buffer and loop lemmas -/

theorem Buffer.read_of_inRange {n : Nat} (b : Buffer n) (i : Int) (h : 0 ≤ i ∧ i < n) :
    ∃ c, b.read i = some c := by
  unfold Buffer.read
  rw [dif_pos h]
  exact ⟨_, rfl⟩

theorem Buffer.read_eq_none {n : Nat} (b : Buffer n) (i : Int) (h : ¬ (0 ≤ i ∧ i < n)) :
    b.read i = none := by
  unfold Buffer.read
  rw [dif_neg h]

theorem Buffer.read_write {n : Nat} {b b' : Buffer n} {i : Int} {c : Color}
    (h : b.write i c = some b') (j : Int) :
    b'.read j = if j = i then some c else b.read j := by
  unfold Buffer.write at h
  split at h
  · rename_i hi
    cases h
    unfold Buffer.read
    by_cases hj : 0 ≤ j ∧ j < n
    · rw [dif_pos hj, dif_pos hj]
      by_cases hji : j = i
      · subst hji
        simp
      · have hne : (⟨j.toNat, by omega⟩ : Fin n) ≠ ⟨i.toNat, by omega⟩ := by
          intro heq
          have := congrArg Fin.val heq
          simp only at this
          omega
        rw [if_neg hji, Function.update_noteq hne]
    · rw [dif_neg hj, dif_neg hj]
      have hji : j ≠ i := by
        intro heq
        subst heq
        exact hj hi
      rw [if_neg hji]
  · cases h

theorem Buffer.write_of_inRange {n : Nat} (b : Buffer n) (i : Int) (c : Color)
    (h : 0 ≤ i ∧ i < n) : ∃ b', b.write i c = some b' := by
  unfold Buffer.write
  rw [dif_pos h]
  exact ⟨_, rfl⟩

theorem Buffer.write_eq_none {n : Nat} (b : Buffer n) (i : Int) (c : Color)
    (h : ¬ (0 ≤ i ∧ i < n)) : b.write i c = none := by
  unfold Buffer.write
  rw [dif_neg h]

theorem Buffer.ext_read {n : Nat} {b b' : Buffer n} (h : ∀ j : Int, b.read j = b'.read j) :
    b = b' := by
  funext k
  have hk : (0 : Int) ≤ (k.val : Int) ∧ (k.val : Int) < n := by
    have := k.isLt
    omega
  have := h k.val
  unfold Buffer.read at this
  rw [dif_pos hk, dif_pos hk] at this
  simpa using this

/-- Invariant rule for `forLoopFrom`: an invariant that every iteration in range
preserves without faulting holds after the loop, and the loop does not fault. -/
theorem forLoopFrom_inv {σ : Type} (body : Int → σ → Option σ) (P : Int → σ → Prop) :
    ∀ (k : Nat) (i : Int) (s : σ), P i s →
      (∀ j t, i ≤ j → j < i + k → P j t → ∃ t', body j t = some t' ∧ P (j + 1) t') →
      ∃ s', forLoopFrom body k i s = some s' ∧ P (i + k) s' := by
  intro k
  induction k with
  | zero =>
    intro i s hP _
    exact ⟨s, rfl, by simpa using hP⟩
  | succ k ih =>
    intro i s hP hstep
    obtain ⟨t, hbt, hPt⟩ := hstep i s (le_refl _) (by push_cast; omega) hP
    obtain ⟨s', hs', hP'⟩ := ih (i + 1) t hPt (by
      intro j u h1 h2 hu
      exact hstep j u (by omega) (by push_cast; omega) hu)
    refine ⟨s', ?_, ?_⟩
    · simp only [forLoopFrom, hbt, Option.bind_some, Option.some_bind]
      exact hs'
    · have : i + ((k + 1 : Nat) : Int) = i + 1 + (k : Int) := by push_cast; omega
      rw [this]
      exact hP'

/-- Invariant rule for the C loop `for (int i = 0; i < n; i++)`. -/
theorem forLoop_inv {σ : Type} (n : Int) (body : Int → σ → Option σ) (P : Int → σ → Prop)
    (s : σ) (h0 : P 0 s)
    (hstep : ∀ j t, 0 ≤ j → j < n → P j t → ∃ t', body j t = some t' ∧ P (j + 1) t') :
    ∃ s', forLoop n body s = some s' ∧ P (max n 0) s' := by
  obtain ⟨s', h1, h2⟩ := forLoopFrom_inv body P n.toNat 0 s h0 (by
    intro j t hj1 hj2 hP
    exact hstep j t hj1 (by omega) hP)
  refine ⟨s', h1, ?_⟩
  have : (0 : Int) + (n.toNat : Int) = max n 0 := by omega
  rw [← this]
  exact h2

theorem rectInv_step {m : Nat} (W H : Int) (idx : Int → Int → Int)
    (e : Int → Int → Option Color) (body : Int → Int → Buffer m → Option (Buffer m))
    (hwr : ∀ x y d c, 0 ≤ x → x < W → 0 ≤ y → y < H → e x y = some c →
      body x y d = d.write (idx x y) c)
    (hskip : ∀ x y d, 0 ≤ x → x < W → 0 ≤ y → y < H → e x y = none → body x y d = some d)
    (hin : ∀ x y c, 0 ≤ x → x < W → 0 ≤ y → y < H → e x y = some c →
      0 ≤ idx x y ∧ idx x y < m)
    (hinj : ∀ x y x' y', 0 ≤ x → x < W → 0 ≤ y → y < H → 0 ≤ x' → x' < W → 0 ≤ y' → y' < H →
      idx x y = idx x' y' → x = x' ∧ y = y')
    (d0 : Buffer m) (X Y : Int) (hX0 : 0 ≤ X) (hXW : X < W) (hY0 : 0 ≤ Y) (hYH : Y < H)
    (d : Buffer m) (hinv : RectInv W H idx e d0 X Y d) :
    ∃ d', body X Y d = some d' ∧ RectInv W H idx e d0 (X + 1) Y d' := by
  obtain ⟨hA, hB⟩ := hinv
  cases he : e X Y with
  | none =>
    refine ⟨d, hskip X Y d hX0 hXW hY0 hYH he, ?_, ?_⟩
    · intro x y hx0 hxW hy0 hyH hdone
      by_cases hxy : x = X ∧ y = Y
      · obtain ⟨rfl, rfl⟩ := hxy
        refine ⟨fun c hc => (by rw [he] at hc; cases hc), fun _ => ?_⟩
        apply hB
        intro x' y' hx0' hxW' hy0' hyH' hdone' heq
        have := hinj x y x' y' hx0 hxW hy0 hyH hx0' hxW' hy0' hyH' heq
        omega
      · exact hA x y hx0 hxW hy0 hyH (by omega)
    · intro j hj
      apply hB
      intro x y hx0 hxW hy0 hyH hdone
      exact hj x y hx0 hxW hy0 hyH (by omega)
  | some c =>
    obtain ⟨d', hd'⟩ := Buffer.write_of_inRange d (idx X Y) c (hin X Y c hX0 hXW hY0 hYH he)
    refine ⟨d', by rw [hwr X Y d c hX0 hXW hY0 hYH he]; exact hd', ?_, ?_⟩
    · intro x y hx0 hxW hy0 hyH hdone
      rw [Buffer.read_write hd']
      by_cases hxy : x = X ∧ y = Y
      · obtain ⟨rfl, rfl⟩ := hxy
        rw [if_pos rfl]
        refine ⟨fun c' hc' => (by rw [he] at hc'; exact hc'), fun hn => (by rw [he] at hn; cases hn)⟩
      · have hne : idx x y ≠ idx X Y := by
          intro heq
          have := hinj x y X Y hx0 hxW hy0 hyH hX0 hXW hY0 hYH heq
          exact hxy this
        rw [if_neg hne]
        exact hA x y hx0 hxW hy0 hyH (by omega)
    · intro j hj
      rw [Buffer.read_write hd']
      have hne : j ≠ idx X Y := hj X Y hX0 hXW hY0 hYH (by omega)
      rw [if_neg hne]
      apply hB
      intro x y hx0 hxW hy0 hyH hdone
      exact hj x y hx0 hxW hy0 hyH (by omega)

/-- Effect of a two-level rectangle loop whose body, at `(x, y)`, either stores
`c` at `idx x y` (when `e x y = some c`) or does nothing (when `e x y = none`),
with in-range stores and an index map that is injective on the rectangle: the
loop does not fault, every stored texel holds its new value, every skipped
texel and every index outside the rectangle keeps its value. -/
theorem rect_loop {m : Nat} (W H : Int) (idx : Int → Int → Int)
    (e : Int → Int → Option Color) (body : Int → Int → Buffer m → Option (Buffer m))
    (hwr : ∀ x y d c, 0 ≤ x → x < W → 0 ≤ y → y < H → e x y = some c →
      body x y d = d.write (idx x y) c)
    (hskip : ∀ x y d, 0 ≤ x → x < W → 0 ≤ y → y < H → e x y = none → body x y d = some d)
    (hin : ∀ x y c, 0 ≤ x → x < W → 0 ≤ y → y < H → e x y = some c →
      0 ≤ idx x y ∧ idx x y < m)
    (hinj : ∀ x y x' y', 0 ≤ x → x < W → 0 ≤ y → y < H → 0 ≤ x' → x' < W → 0 ≤ y' → y' < H →
      idx x y = idx x' y' → x = x' ∧ y = y')
    (d0 : Buffer m) :
    ∃ d', forLoop H (fun y d => forLoop W (fun x d => body x y d) d) d0 = some d' ∧
      (∀ x y, 0 ≤ x → x < W → 0 ≤ y → y < H →
        (∀ c, e x y = some c → d'.read (idx x y) = some c) ∧
        (e x y = none → d'.read (idx x y) = d0.read (idx x y))) ∧
      (∀ j, (∀ x y, 0 ≤ x → x < W → 0 ≤ y → y < H → j ≠ idx x y) → d'.read j = d0.read j) := by
  have houter := forLoop_inv H (fun y d => forLoop W (fun x d => body x y d) d)
    (fun Y d => RectInv W H idx e d0 0 Y d) d0
    ⟨fun x y _ _ _ _ h => by omega, fun j _ => rfl⟩
    (by
      intro Y d hY0 hYH hinv
      obtain ⟨d', hd', hinv'⟩ := forLoop_inv W (fun x d => body x Y d)
        (fun X d => RectInv W H idx e d0 X Y d) d hinv
        (fun X t hX0 hXW ht =>
          rectInv_step W H idx e body hwr hskip hin hinj d0 X Y hX0 hXW hY0 hYH t ht)
      have hrow : RectInv W H idx e d0 (max W 0) Y d' := hinv'
      refine ⟨d', hd', ?_⟩
      show RectInv W H idx e d0 0 (Y + 1) d'
      refine ⟨?_, ?_⟩
      · intro x y hx0 hxW hy0 hyH hdone
        exact hrow.1 x y hx0 hxW hy0 hyH (by omega)
      · intro j hj
        apply hrow.2
        intro x y hx0 hxW hy0 hyH hdone
        exact hj x y hx0 hxW hy0 hyH (by omega))
  obtain ⟨d', hd', hinv'⟩ := houter
  have hinv : RectInv W H idx e d0 0 (max H 0) d' := hinv'
  refine ⟨d', hd', ?_, ?_⟩
  · intro x y hx0 hxW hy0 hyH
    exact hinv.1 x y hx0 hxW hy0 hyH (by omega)
  · intro j hj
    apply hinv.2
    intro x y hx0 hxW hy0 hyH _
    exact hj x y hx0 hxW hy0 hyH

theorem rectInvU_step {m : Nat} (W H : Int) (idx : Int → Int → Int)
    (e : Int → Int → Option Color) (body : Int → Int → Buffer m → Option (Buffer m))
    (hwr : ∀ x y d c, 0 ≤ x → x < W → 0 ≤ y → y < H → e x y = some c →
      body x y d = d.write (idx x y) c)
    (hskip : ∀ x y d, 0 ≤ x → x < W → 0 ≤ y → y < H → e x y = none → body x y d = some d)
    (hin : ∀ x y c, 0 ≤ x → x < W → 0 ≤ y → y < H → e x y = some c →
      0 ≤ idx x y ∧ idx x y < m)
    (d0 : Buffer m) (X Y : Int) (hX0 : 0 ≤ X) (hXW : X < W) (hY0 : 0 ≤ Y) (hYH : Y < H)
    (d : Buffer m) (hinv : RectInvU W H idx e d0 X Y d) :
    ∃ d', body X Y d = some d' ∧ RectInvU W H idx e d0 (X + 1) Y d' := by
  cases he : e X Y with
  | none =>
    refine ⟨d, hskip X Y d hX0 hXW hY0 hYH he, ?_⟩
    intro j
    obtain ⟨hA, hB⟩ := hinv j
    refine ⟨?_, ?_⟩
    · intro x y hx0 hxW hy0 hyH hj huniq hdone
      by_cases hxy : x = X ∧ y = Y
      · obtain ⟨rfl, rfl⟩ := hxy
        refine ⟨fun c hc => (by rw [he] at hc; cases hc), fun _ => ?_⟩
        apply hB
        intro x2 y2 h1 h2 h3 h4 hdone2 heq
        have := huniq x2 y2 h1 h2 h3 h4 heq
        omega
      · exact hA x y hx0 hxW hy0 hyH hj huniq (by omega)
    · intro hj
      apply hB
      intro x y hx0 hxW hy0 hyH hdone
      exact hj x y hx0 hxW hy0 hyH (by omega)
  | some c =>
    obtain ⟨d', hd'⟩ := Buffer.write_of_inRange d (idx X Y) c (hin X Y c hX0 hXW hY0 hYH he)
    refine ⟨d', by rw [hwr X Y d c hX0 hXW hY0 hYH he]; exact hd', ?_⟩
    intro j
    obtain ⟨hA, hB⟩ := hinv j
    refine ⟨?_, ?_⟩
    · intro x y hx0 hxW hy0 hyH hj huniq hdone
      rw [Buffer.read_write hd']
      by_cases hxy : x = X ∧ y = Y
      · obtain ⟨rfl, rfl⟩ := hxy
        rw [if_pos hj.symm]
        exact ⟨fun c2 hc2 => (by rw [he] at hc2; exact hc2),
          fun hn => (by rw [he] at hn; cases hn)⟩
      · have hne : j ≠ idx X Y := by
          intro heq
          have h2 := huniq X Y hX0 hXW hY0 hYH heq.symm
          exact hxy ⟨h2.1.symm, h2.2.symm⟩
        rw [if_neg hne]
        exact hA x y hx0 hxW hy0 hyH hj huniq (by omega)
    · intro hj
      rw [Buffer.read_write hd']
      have hne : j ≠ idx X Y := fun heq => hj X Y hX0 hXW hY0 hYH (by omega) heq.symm
      rw [if_neg hne]
      apply hB
      intro x y hx0 hxW hy0 hyH hdone
      exact hj x y hx0 hxW hy0 hyH (by omega)

/-- Effect of a two-level rectangle loop at the indices that exactly one texel of
the rectangle maps to, and at those that none maps to, for in-range stores;
the index map need not be injective elsewhere. -/
theorem rect_loop_unique {m : Nat} (W H : Int) (idx : Int → Int → Int)
    (e : Int → Int → Option Color) (body : Int → Int → Buffer m → Option (Buffer m))
    (hwr : ∀ x y d c, 0 ≤ x → x < W → 0 ≤ y → y < H → e x y = some c →
      body x y d = d.write (idx x y) c)
    (hskip : ∀ x y d, 0 ≤ x → x < W → 0 ≤ y → y < H → e x y = none → body x y d = some d)
    (hin : ∀ x y c, 0 ≤ x → x < W → 0 ≤ y → y < H → e x y = some c →
      0 ≤ idx x y ∧ idx x y < m)
    (d0 : Buffer m) :
    ∃ d', forLoop H (fun y d => forLoop W (fun x d => body x y d) d) d0 = some d' ∧
      ∀ j : Int,
        (∀ x y, 0 ≤ x → x < W → 0 ≤ y → y < H → idx x y = j →
          (∀ x2 y2, 0 ≤ x2 → x2 < W → 0 ≤ y2 → y2 < H → idx x2 y2 = j → x2 = x ∧ y2 = y) →
          (∀ c, e x y = some c → d'.read j = some c) ∧
          (e x y = none → d'.read j = d0.read j)) ∧
        ((∀ x y, 0 ≤ x → x < W → 0 ≤ y → y < H → idx x y ≠ j) → d'.read j = d0.read j) := by
  have houter := forLoop_inv H (fun y d => forLoop W (fun x d => body x y d) d)
    (fun Y d => RectInvU W H idx e d0 0 Y d) d0
    (fun j => ⟨fun x y _ _ _ _ _ _ h => (by omega), fun _ => rfl⟩)
    (by
      intro Y d hY0 hYH hinv
      obtain ⟨d', hd', hinv'⟩ := forLoop_inv W (fun x d => body x Y d)
        (fun X d => RectInvU W H idx e d0 X Y d) d hinv
        (fun X t hX0 hXW ht =>
          rectInvU_step W H idx e body hwr hskip hin d0 X Y hX0 hXW hY0 hYH t ht)
      have hrow : RectInvU W H idx e d0 (max W 0) Y d' := hinv'
      refine ⟨d', hd', ?_⟩
      show RectInvU W H idx e d0 0 (Y + 1) d'
      intro j
      refine ⟨?_, ?_⟩
      · intro x y hx0 hxW hy0 hyH hj huniq hdone
        exact (hrow j).1 x y hx0 hxW hy0 hyH hj huniq (by omega)
      · intro hj
        apply (hrow j).2
        intro x y hx0 hxW hy0 hyH hdone
        exact hj x y hx0 hxW hy0 hyH (by omega))
  obtain ⟨d', hd', hinv'⟩ := houter
  have hinv : RectInvU W H idx e d0 0 (max H 0) d' := hinv'
  refine ⟨d', hd', fun j => ⟨?_, ?_⟩⟩
  · intro x y hx0 hxW hy0 hyH hj huniq
    exact (hinv j).1 x y hx0 hxW hy0 hyH hj huniq (by omega)
  · intro hj
    apply (hinv j).2
    intro x y hx0 hxW hy0 hyH _
    exact hj x y hx0 hxW hy0 hyH

/-- A two-level rectangle loop whose body, at `(x, y)`, either does nothing or
stores some colour at `idx x y`, with in-range stores, does not fault and
changes no index outside the image of the rectangle, whatever it stores. -/
theorem rect_loop_frame {m : Nat} (W H : Int) (idx : Int → Int → Int)
    (body : Int → Int → Buffer m → Option (Buffer m))
    (hbody : ∀ x y d, 0 ≤ x → x < W → 0 ≤ y → y < H →
      body x y d = some d ∨ ∃ c, body x y d = d.write (idx x y) c)
    (hin : ∀ x y, 0 ≤ x → x < W → 0 ≤ y → y < H → 0 ≤ idx x y ∧ idx x y < m)
    (d0 : Buffer m) :
    ∃ d', forLoop H (fun y d => forLoop W (fun x d => body x y d) d) d0 = some d' ∧
      ∀ j : Int, (∀ x y, 0 ≤ x → x < W → 0 ≤ y → y < H → j ≠ idx x y) →
        d'.read j = d0.read j := by
  have houter := forLoop_inv H (fun y d => forLoop W (fun x d => body x y d) d)
    (fun _ d => ∀ j : Int, (∀ x y, 0 ≤ x → x < W → 0 ≤ y → y < H → j ≠ idx x y) →
      d.read j = d0.read j) d0
    (fun j _ => rfl)
    (by
      intro Y d hY0 hYH hinv
      obtain ⟨d', hd', hinv'⟩ := forLoop_inv W (fun x d => body x Y d)
        (fun _ d => ∀ j : Int, (∀ x y, 0 ≤ x → x < W → 0 ≤ y → y < H → j ≠ idx x y) →
          d.read j = d0.read j) d hinv
        (by
          intro X t hX0 hXW ht
          rcases hbody X Y t hX0 hXW hY0 hYH with hb | ⟨c, hb⟩
          · exact ⟨t, hb, ht⟩
          · obtain ⟨t', ht'⟩ := Buffer.write_of_inRange t (idx X Y) c (hin X Y hX0 hXW hY0 hYH)
            refine ⟨t', hb.trans ht', ?_⟩
            intro j hj
            rw [Buffer.read_write ht', if_neg (hj X Y hX0 hXW hY0 hYH)]
            exact ht j hj)
      exact ⟨d', hd', hinv'⟩)
  obtain ⟨d', hd', hinv⟩ := houter
  exact ⟨d', hd', hinv⟩

theorem getVramDrawBuffer_setVramDrawBuffer (s : State) (d : Buffer FB_SIZE) :
    getVramDrawBuffer (setVramDrawBuffer s d) = d := by
  simp [getVramDrawBuffer, setVramDrawBuffer]

theorem getVramDisplayBuffer_setVramDrawBuffer (s : State) (d : Buffer FB_SIZE) :
    getVramDisplayBuffer (setVramDrawBuffer s d) = getVramDisplayBuffer s := by
  have hne : (1 : Fin 2) - s.g_back_buffer ≠ s.g_back_buffer := by
    generalize s.g_back_buffer = i
    revert i
    decide
  simp [getVramDisplayBuffer, setVramDrawBuffer, Function.update_noteq hne]

theorem fin_two_cases (k : Fin 2) : k = 0 ∨ k = 1 := by
  revert k
  decide

/-- A texel of the bound texture inside the readable range is read without a
fault, whatever the draw buffer holds. -/
theorem readTexture_of_inRange (s : State) (d : Buffer FB_SIZE) (i : Int)
    (h : 0 ≤ i ∧ i < s.currentTexture.size) : ∃ c, readTexture s d i = some c := by
  unfold readTexture
  cases ht : s.currentTexture with
  | memory t =>
    rw [ht] at h
    exact Buffer.read_of_inRange t.data i h
  | vram offset =>
    rw [ht] at h
    simp only [TexturePtr.size] at h
    simp only [readVram]
    have hF : ((FB_SIZE : Nat) : Int) = 139264 := by simp [FB_SIZE]
    have hlt : (offset : Int) + i < 2 * 139264 := by
      have h2 := h.2
      simp only [FB_SIZE, PLATFORM_LINE_SIZE, PLATFORM_SCREEN_HEIGHT] at h2
      omega
    split
    · rename_i hj
      have hr : 0 ≤ (offset : Int) + i ∧ (offset : Int) + i < (FB_SIZE : Nat) := ⟨by omega, hj⟩
      split
      · exact Buffer.read_of_inRange d _ hr
      · exact Buffer.read_of_inRange (s.g_framebuffer 0) _ hr
    · rename_i hj
      have hr : 0 ≤ (offset : Int) + i - (FB_SIZE : Nat) ∧
          (offset : Int) + i - (FB_SIZE : Nat) < (FB_SIZE : Nat) := by
        rw [hF] at hj ⊢
        omega
      split
      · exact Buffer.read_of_inRange d _ hr
      · exact Buffer.read_of_inRange (s.g_framebuffer 1) _ hr

/-- A texel of the bound texture that is not an element of the draw buffer reads
the same whatever the stores made so far have put into the draw buffer. -/
theorem readTexture_of_not_sampleInDrawBuffer (s : State) (d : Buffer FB_SIZE) (i : Int)
    (h : ¬ sampleInDrawBuffer s i) :
    readTexture s d i = readTexture s (getVramDrawBuffer s) i := by
  unfold readTexture
  unfold sampleInDrawBuffer at h
  cases ht : s.currentTexture with
  | memory t => rfl
  | vram offset =>
    rw [ht] at h
    simp only at h
    simp only [readVram, getVramDrawBuffer]
    have hF : ((FB_SIZE : Nat) : Int) = 139264 := by simp [FB_SIZE]
    rw [hF] at h ⊢
    rcases fin_two_cases s.g_back_buffer with hb | hb
    · rw [hb] at h ⊢
      simp only [Fin.val_zero, Nat.cast_zero, zero_mul, zero_add, one_mul, not_and, not_lt] at h
      split
      · rename_i hj
        simp only [if_true]
        by_cases h0 : 0 ≤ (offset : Int) + i
        · exact absurd hj (not_lt.mpr (h h0))
        · rw [Buffer.read_eq_none, Buffer.read_eq_none]
          · exact fun hh => h0 hh.1
          · exact fun hh => h0 hh.1
      · simp
    · rw [hb] at h ⊢
      simp only [Fin.val_one, Nat.cast_one, one_mul, not_and, not_lt] at h
      split
      · simp
      · rename_i hj
        simp only [if_true]
        have hF1 : ((FB_SIZE : Nat) : Int) = 139264 := by simp [FB_SIZE]
        rw [Buffer.read_eq_none, Buffer.read_eq_none]
        · intro hh
          rw [hF1] at hh
          have := h (by omega)
          omega
        · intro hh
          rw [hF1] at hh
          have := h (by omega)
          omega

/-- The function `sceGuDrawArray` with every store inside the draw buffer array and
every sample inside the readable texture memory returns, whatever the texture
pointer points to, and changes no array index outside the destination
rectangle. -/
theorem sceGuDrawArray_frame (s : State) (prim vtype count : Int) (v0 v1 : Vertex)
    (hdst : ∀ x y : Int, 0 ≤ x → x < v1.x - v0.x → 0 ≤ y → y < v1.y - v0.y →
      0 ≤ x + v0.x + (y + v0.y) * PLATFORM_LINE_SIZE ∧
      x + v0.x + (y + v0.y) * PLATFORM_LINE_SIZE < FB_SIZE)
    (hsrc : ∀ x y : Int, 0 ≤ x → x < v1.x - v0.x → 0 ≤ y → y < v1.y - v0.y →
      0 ≤ x + v0.u + (y + v0.v) * s.currentTextureWidth ∧
      x + v0.u + (y + v0.v) * s.currentTextureWidth < s.currentTexture.size) :
    ∃ d', sceGuDrawArray s prim vtype count v0 v1 = some (setVramDrawBuffer s d') ∧
      ∀ j : Int,
        (∀ x y : Int, 0 ≤ x → x < v1.x - v0.x → 0 ≤ y → y < v1.y - v0.y →
          j ≠ x + v0.x + (y + v0.y) * PLATFORM_LINE_SIZE) →
        d'.read j = (getVramDrawBuffer s).read j := by
  obtain ⟨d', hd', hB⟩ := rect_loop_frame (v1.x - v0.x) (v1.y - v0.y)
    (fun x y => x + v0.x + (y + v0.y) * PLATFORM_LINE_SIZE)
    (fun x y d => (readTexture s d (x + v0.u + (y + v0.v) * s.currentTextureWidth)).bind
      fun color => if color &&& 0xFF000000 ≠ 0 then
        d.write (x + v0.x + (y + v0.y) * PLATFORM_LINE_SIZE) color else some d)
    (by
      intro x y d h1 h2 h3 h4
      obtain ⟨c0, hc0⟩ := readTexture_of_inRange s d _ (hsrc x y h1 h2 h3 h4)
      simp only [hc0, Option.some_bind]
      by_cases ha : c0 &&& 0xFF000000 ≠ 0
      · rw [if_pos ha]
        exact Or.inr ⟨c0, rfl⟩
      · rw [if_neg ha]
        exact Or.inl rfl)
    hdst
    (getVramDrawBuffer s)
  refine ⟨d', ?_, hB⟩
  simp only [sceGuDrawArray]
  rw [hd']
  rfl

/-- Effect of `sceGuDrawArray` when no sampled texel is an element of the draw
buffer, at the array indices that exactly one texel of the destination
rectangle is stored at, and at those that none is stored at. -/
theorem sceGuDrawArray_unique (s : State) (prim vtype count : Int) (v0 v1 : Vertex)
    (hdst : ∀ x y : Int, 0 ≤ x → x < v1.x - v0.x → 0 ≤ y → y < v1.y - v0.y →
      0 ≤ x + v0.x + (y + v0.y) * PLATFORM_LINE_SIZE ∧
      x + v0.x + (y + v0.y) * PLATFORM_LINE_SIZE < FB_SIZE)
    (hsrc : ∀ x y : Int, 0 ≤ x → x < v1.x - v0.x → 0 ≤ y → y < v1.y - v0.y →
      0 ≤ x + v0.u + (y + v0.v) * s.currentTextureWidth ∧
      x + v0.u + (y + v0.v) * s.currentTextureWidth < s.currentTexture.size)
    (hdisj : ∀ x y : Int, 0 ≤ x → x < v1.x - v0.x → 0 ≤ y → y < v1.y - v0.y →
      ¬ sampleInDrawBuffer s (x + v0.u + (y + v0.v) * s.currentTextureWidth)) :
    ∃ d', sceGuDrawArray s prim vtype count v0 v1 = some (setVramDrawBuffer s d') ∧
      ∀ j : Int,
        (∀ x y : Int, 0 ≤ x → x < v1.x - v0.x → 0 ≤ y → y < v1.y - v0.y →
          x + v0.x + (y + v0.y) * PLATFORM_LINE_SIZE = j →
          (∀ x2 y2 : Int, 0 ≤ x2 → x2 < v1.x - v0.x → 0 ≤ y2 → y2 < v1.y - v0.y →
            x2 + v0.x + (y2 + v0.y) * PLATFORM_LINE_SIZE = j → x2 = x ∧ y2 = y) →
          ∃ c, readTexture s (getVramDrawBuffer s)
              (x + v0.u + (y + v0.v) * s.currentTextureWidth) = some c ∧
            d'.read j = if c &&& 0xFF000000 ≠ 0 then some c
              else (getVramDrawBuffer s).read j) ∧
        ((∀ x y : Int, 0 ≤ x → x < v1.x - v0.x → 0 ≤ y → y < v1.y - v0.y →
          x + v0.x + (y + v0.y) * PLATFORM_LINE_SIZE ≠ j) →
          d'.read j = (getVramDrawBuffer s).read j) := by
  have hrd : ∀ x y : Int, 0 ≤ x → x < v1.x - v0.x → 0 ≤ y → y < v1.y - v0.y →
      ∀ d : Buffer FB_SIZE, ∃ c,
        readTexture s (getVramDrawBuffer s) (x + v0.u + (y + v0.v) * s.currentTextureWidth)
          = some c ∧
        readTexture s d (x + v0.u + (y + v0.v) * s.currentTextureWidth) = some c := by
    intro x y h1 h2 h3 h4 d
    obtain ⟨c, hc⟩ := readTexture_of_inRange s (getVramDrawBuffer s) _ (hsrc x y h1 h2 h3 h4)
    refine ⟨c, hc, ?_⟩
    rw [readTexture_of_not_sampleInDrawBuffer s d _ (hdisj x y h1 h2 h3 h4)]
    exact hc
  obtain ⟨d', hd', hU⟩ := rect_loop_unique (v1.x - v0.x) (v1.y - v0.y)
    (fun x y => x + v0.x + (y + v0.y) * PLATFORM_LINE_SIZE)
    (fun x y => (readTexture s (getVramDrawBuffer s)
        (x + v0.u + (y + v0.v) * s.currentTextureWidth)).bind
      fun c => if c &&& 0xFF000000 ≠ 0 then some c else none)
    (fun x y d => (readTexture s d (x + v0.u + (y + v0.v) * s.currentTextureWidth)).bind
      fun color => if color &&& 0xFF000000 ≠ 0 then
        d.write (x + v0.x + (y + v0.y) * PLATFORM_LINE_SIZE) color else some d)
    (by
      intro x y d c h1 h2 h3 h4 he
      obtain ⟨c0, hc0, hc1⟩ := hrd x y h1 h2 h3 h4 d
      simp only [hc0, hc1, Option.some_bind] at he ⊢
      split at he
      · cases he
        rename_i ha
        rw [if_pos ha]
      · cases he)
    (by
      intro x y d h1 h2 h3 h4 he
      obtain ⟨c0, hc0, hc1⟩ := hrd x y h1 h2 h3 h4 d
      simp only [hc0, hc1, Option.some_bind] at he ⊢
      split at he
      · cases he
      · rename_i ha
        rw [if_neg ha])
    (fun x y _ h1 h2 h3 h4 _ => hdst x y h1 h2 h3 h4)
    (getVramDrawBuffer s)
  refine ⟨d', ?_, ?_⟩
  · simp only [sceGuDrawArray]
    rw [hd']
    rfl
  · intro j
    refine ⟨?_, (hU j).2⟩
    intro x y h1 h2 h3 h4 hj huniq
    obtain ⟨c0, hc0, _⟩ := hrd x y h1 h2 h3 h4 (getVramDrawBuffer s)
    refine ⟨c0, hc0, ?_⟩
    have := (hU j).1 x y h1 h2 h3 h4 hj huniq
    simp only [hc0, Option.some_bind] at this
    by_cases ha : c0 &&& 0xFF000000 ≠ 0
    · rw [if_pos ha]
      exact this.1 c0 (by rw [if_pos ha])
    · rw [if_neg ha]
      exact this.2 (by rw [if_neg ha])

/-- Effect of `sceGuDrawArray` on a destination rectangle that stays inside the
rows of the frame buffer array, when no sampled texel is an element of the draw
buffer. -/
theorem sceGuDrawArray_inside (s : State) (prim vtype count : Int) (v0 v1 : Vertex)
    (hx0 : 0 ≤ v0.x) (hx1 : v1.x ≤ PLATFORM_LINE_SIZE)
    (hy0 : 0 ≤ v0.y) (hy1 : v1.y ≤ PLATFORM_SCREEN_HEIGHT)
    (hsrc : ∀ x y : Int, 0 ≤ x → x < v1.x - v0.x → 0 ≤ y → y < v1.y - v0.y →
      0 ≤ x + v0.u + (y + v0.v) * s.currentTextureWidth ∧
      x + v0.u + (y + v0.v) * s.currentTextureWidth < s.currentTexture.size)
    (hdisj : ∀ x y : Int, 0 ≤ x → x < v1.x - v0.x → 0 ≤ y → y < v1.y - v0.y →
      ¬ sampleInDrawBuffer s (x + v0.u + (y + v0.v) * s.currentTextureWidth)) :
    ∃ d', sceGuDrawArray s prim vtype count v0 v1 = some (setVramDrawBuffer s d') ∧
      (∀ x y : Int, 0 ≤ x → x < v1.x - v0.x → 0 ≤ y → y < v1.y - v0.y →
        ∃ c, readTexture s (getVramDrawBuffer s)
            (x + v0.u + (y + v0.v) * s.currentTextureWidth) = some c ∧
          d'.read (x + v0.x + (y + v0.y) * PLATFORM_LINE_SIZE) =
            if c &&& 0xFF000000 ≠ 0 then some c
            else (getVramDrawBuffer s).read (x + v0.x + (y + v0.y) * PLATFORM_LINE_SIZE)) ∧
      (∀ j : Int,
        (∀ x y : Int, 0 ≤ x → x < v1.x - v0.x → 0 ≤ y → y < v1.y - v0.y →
          x + v0.x + (y + v0.y) * PLATFORM_LINE_SIZE ≠ j) →
        d'.read j = (getVramDrawBuffer s).read j) := by
  obtain ⟨d', hd', hU⟩ := sceGuDrawArray_unique s prim vtype count v0 v1
    (by
      intro x y h1 h2 h3 h4
      simp only [FB_SIZE, PLATFORM_LINE_SIZE, PLATFORM_SCREEN_HEIGHT] at *
      push_cast at *
      omega)
    hsrc hdisj
  refine ⟨d', hd', ?_, fun j => (hU j).2⟩
  intro x y h1 h2 h3 h4
  refine (hU _).1 x y h1 h2 h3 h4 rfl ?_
  intro x2 y2 g1 g2 g3 g4 heq
  simp only [PLATFORM_LINE_SIZE] at *
  push_cast at *
  omega

/-! ## The alpha test -/

theorem alpha_mask_eq (c : Nat) : c &&& 0xFF000000 = (COLOR_A c) <<< 24 := by
  unfold COLOR_A
  have h : (0xFF000000 : Nat) = 0xFF <<< 24 := by decide
  rw [h]
  apply Nat.eq_of_testBit_eq
  intro i
  simp only [Nat.testBit_land, Nat.testBit_shiftLeft, Nat.testBit_shiftRight]
  by_cases hi : 24 ≤ i
  · have : 24 + (i - 24) = i := by omega
    simp [hi, this]
  · simp [hi]

theorem alpha_test_iff (c : Nat) : c &&& 0xFF000000 ≠ 0 ↔ COLOR_A c ≠ 0 := by
  rw [alpha_mask_eq, Nat.shiftLeft_eq]
  constructor
  · intro h h0
    rw [h0] at h
    simp at h
  · intro h
    have : 0 < COLOR_A c * 2 ^ 24 := Nat.mul_pos (Nat.pos_of_ne_zero h) (by decide)
    omega


/-! ## Sprite drawing: alpha key and the absence of clipping -/

/-- C1 (counterexample): drawing the opaque 2x1 sprite at destination (511, 0)
changes the texel (0, 1), which lies outside the rectangle [511, 513) x [0, 1):
the second store goes to index 511 + 1 = 512, the first texel of the next row.
And with the draw buffer itself bound as texture (width 1, source offset 478,
only texel 478 opaque), the 3x1 rectangle at (479, 0) ends with texels 480 and
481 opaque blue, although the source texels 479 and 480 had a zero alpha byte
before the call: the samples read what the call has just stored. -/
theorem sceGuDrawArray_alpha_key_fails_when_clipped :
    ((getVramDrawBuffer blueState).read (0 + 1 * 512) = some 0 ∧
      (sceGuDrawArray blueState 0 0 0 ⟨0, 0, 511, 0, 0⟩ ⟨2, 1, 513, 1, 0⟩).map
        (fun s => (getVramDrawBuffer s).read (0 + 1 * 512)) = some (some opaqueBlue)) ∧
    (readTexture aliasState (getVramDrawBuffer aliasState) (1 + 478 + 0 * 1) = some 0 ∧
      readTexture aliasState (getVramDrawBuffer aliasState) (2 + 478 + 0 * 1) = some 0 ∧
      (getVramDrawBuffer aliasState).read 480 = some 0 ∧
      (getVramDrawBuffer aliasState).read 481 = some 0 ∧
      (sceGuDrawArray aliasState 0 0 0 ⟨478, 0, 479, 0, 0⟩ ⟨0, 0, 482, 1, 0⟩).map
        (fun s => ((getVramDrawBuffer s).read 480, (getVramDrawBuffer s).read 481)) =
        some (some opaqueBlue, some opaqueBlue)) := by
  refine ⟨⟨?_, ?_⟩, ?_, ?_, ?_, ?_, ?_⟩
  · rfl
  · rfl
  · rfl
  · rfl
  · rfl
  · rfl
  · rfl

/-- C1 (amended): for a destination rectangle that stays inside the rows of the
frame buffer array (`0 ≤ dx`, `dx + w ≤ 512`, `0 ≤ dy`, `dy + h ≤ 272`), a
source rectangle inside the texture memory and a bound texture of which no
sampled texel is an element of the draw buffer, `sceGuDrawArray` returns; each
destination texel `(dx + x, dy + y)` of the rectangle then holds the source
texel `(sx + x, sy + y)` when that texel has a non-zero alpha byte and
otherwise its old value; every texel outside the rectangle, the display buffer
and the render buffer are unchanged. -/
theorem sceGuDrawArray_alpha_key (s : State) (prim vtype count : Int) (v0 v1 : Vertex)
    (hx0 : 0 ≤ v0.x) (hx1 : v1.x ≤ PLATFORM_LINE_SIZE)
    (hy0 : 0 ≤ v0.y) (hy1 : v1.y ≤ PLATFORM_SCREEN_HEIGHT)
    (hsrc : ∀ x y : Int, 0 ≤ x → x < v1.x - v0.x → 0 ≤ y → y < v1.y - v0.y →
      0 ≤ x + v0.u + (y + v0.v) * s.currentTextureWidth ∧
      x + v0.u + (y + v0.v) * s.currentTextureWidth < s.currentTexture.size)
    (hdisj : ∀ x y : Int, 0 ≤ x → x < v1.x - v0.x → 0 ≤ y → y < v1.y - v0.y →
      ¬ sampleInDrawBuffer s (x + v0.u + (y + v0.v) * s.currentTextureWidth)) :
    ∃ s', sceGuDrawArray s prim vtype count v0 v1 = some s' ∧
      (∀ x y : Int, 0 ≤ x → x < v1.x - v0.x → 0 ≤ y → y < v1.y - v0.y →
        ∃ c, readTexture s (getVramDrawBuffer s)
            (x + v0.u + (y + v0.v) * s.currentTextureWidth) = some c ∧
          (getVramDrawBuffer s').read (x + v0.x + (y + v0.y) * PLATFORM_LINE_SIZE) =
            if COLOR_A c ≠ 0 then some c
            else (getVramDrawBuffer s).read (x + v0.x + (y + v0.y) * PLATFORM_LINE_SIZE)) ∧
      (∀ px py : Int, 0 ≤ px → px < PLATFORM_LINE_SIZE → 0 ≤ py → py < PLATFORM_SCREEN_HEIGHT →
        ¬ (v0.x ≤ px ∧ px < v1.x ∧ v0.y ≤ py ∧ py < v1.y) →
        (getVramDrawBuffer s').read (px + py * PLATFORM_LINE_SIZE) =
          (getVramDrawBuffer s).read (px + py * PLATFORM_LINE_SIZE)) ∧
      getVramDisplayBuffer s' = getVramDisplayBuffer s ∧
      s'.g_render_buffer = s.g_render_buffer := by
  obtain ⟨d', hd', hA, hB⟩ :=
    sceGuDrawArray_inside s prim vtype count v0 v1 hx0 hx1 hy0 hy1 hsrc hdisj
  refine ⟨setVramDrawBuffer s d', hd', ?_, ?_, ?_, rfl⟩
  · intro x y h1 h2 h3 h4
    obtain ⟨c, hc, hrd⟩ := hA x y h1 h2 h3 h4
    refine ⟨c, hc, ?_⟩
    rw [getVramDrawBuffer_setVramDrawBuffer, hrd]
    by_cases ha : c &&& 0xFF000000 ≠ 0
    · rw [if_pos ha, if_pos ((alpha_test_iff c).mp ha)]
    · rw [if_neg ha, if_neg (fun h => ha ((alpha_test_iff c).mpr h))]
  · intro px py h1 h2 h3 h4 hout
    rw [getVramDrawBuffer_setVramDrawBuffer]
    apply hB
    intro x y g1 g2 g3 g4 heq
    simp only [PLATFORM_LINE_SIZE, PLATFORM_SCREEN_HEIGHT] at *
    push_cast at *
    omega
  · exact getVramDisplayBuffer_setVramDrawBuffer s d'

/-- C1 (witness): the 2x2 opaque blue sprite drawn at (0, 0) into the zeroed
buffer puts blue at texel (1, 1) and leaves texel (2, 2) zero. -/
theorem sceGuDrawArray_alpha_key_witness :
    ((0 : Int) ≤ 0 ∧ (2 : Int) ≤ PLATFORM_LINE_SIZE ∧ (2 : Int) ≤ PLATFORM_SCREEN_HEIGHT) ∧
    (sceGuDrawArray blueState 0 0 0 ⟨0, 0, 0, 0, 0⟩ ⟨2, 2, 2, 2, 0⟩).map
      (fun s => ((getVramDrawBuffer s).read (1 + 1 * 512), (getVramDrawBuffer s).read (2 + 2 * 512)))
      = some (some opaqueBlue, some 0) := by
  refine ⟨by decide, ?_⟩
  obtain ⟨s', hs', hA, hB, _⟩ := sceGuDrawArray_alpha_key blueState 0 0 0
    ⟨0, 0, 0, 0, 0⟩ ⟨2, 2, 2, 2, 0⟩ (by decide) (by decide) (by decide) (by decide)
    (by
      intro x y h1 h2 h3 h4
      simp only [blueState, blueTexture, TexturePtr.size] at *
      push_cast at *
      omega)
    (fun _ _ _ _ _ _ h => h)
  rw [hs']
  obtain ⟨c, hc, hrd⟩ := hA 1 1 (by decide) (by decide) (by decide) (by decide)
  have hc' : c = opaqueBlue := by
    have : readTexture blueState (getVramDrawBuffer blueState)
        (1 + (0 : Nat) + (1 + (0 : Nat)) * blueState.currentTextureWidth) = some opaqueBlue := rfl
    rw [this] at hc
    exact (Option.some.inj hc).symm
  subst hc'
  have h11 : (getVramDrawBuffer s').read (1 + 1 * 512) = some opaqueBlue := by
    have : COLOR_A opaqueBlue ≠ 0 := by decide
    rw [if_pos this] at hrd
    exact hrd
  have h22 := hB 2 2 (by decide) (by decide) (by decide) (by decide) (by decide)
  have h22' : (getVramDrawBuffer s').read (2 + 2 * 512) = some 0 := h22
  simp only [Option.map_some', h11, h22']

/-- C2 (counterexample): `sceGuDrawArray` does not clip.  A 1x1 rectangle with
the negative origin (-1, 0) stores at index -1, outside the back buffer array
(the call faults); and a 1x1 rectangle at (480, 0), fully outside the
480x272 screen, changes the array element 480. -/
theorem sceGuDrawArray_does_not_clip :
    sceGuDrawArray blueState 0 0 0 ⟨0, 0, -1, 0, 0⟩ ⟨1, 1, 0, 1, 0⟩ = none ∧
    (getVramDrawBuffer blueState).read 480 = some 0 ∧
    (sceGuDrawArray blueState 0 0 0 ⟨0, 0, 480, 0, 0⟩ ⟨1, 1, 481, 1, 0⟩).map
      (fun s => (getVramDrawBuffer s).read 480) = some (some opaqueBlue) := by
  refine ⟨?_, ?_, ?_⟩
  · rfl
  · rfl
  · rfl

/-- C2 (amended): `sceGuDrawArray` performs no clipping; for a destination
rectangle that lies inside the screen [0,480) x [0,272), with a source
rectangle inside the texture memory, the call returns (every store is inside
the back buffer array) and every array index that is not the index of a
screen coordinate inside [0,480) x [0,272) keeps its value. -/
theorem sceGuDrawArray_inside_screen (s : State) (prim vtype count : Int) (v0 v1 : Vertex)
    (hx0 : 0 ≤ v0.x) (hx1 : v1.x ≤ PLATFORM_SCREEN_WIDTH)
    (hy0 : 0 ≤ v0.y) (hy1 : v1.y ≤ PLATFORM_SCREEN_HEIGHT)
    (hsrc : ∀ x y : Int, 0 ≤ x → x < v1.x - v0.x → 0 ≤ y → y < v1.y - v0.y →
      0 ≤ x + v0.u + (y + v0.v) * s.currentTextureWidth ∧
      x + v0.u + (y + v0.v) * s.currentTextureWidth < s.currentTexture.size) :
    ∃ s', sceGuDrawArray s prim vtype count v0 v1 = some s' ∧
      ∀ j : Int,
        (∀ px py : Int, 0 ≤ px → px < PLATFORM_SCREEN_WIDTH → 0 ≤ py →
          py < PLATFORM_SCREEN_HEIGHT → j ≠ px + py * PLATFORM_LINE_SIZE) →
        (getVramDrawBuffer s').read j = (getVramDrawBuffer s).read j := by
  obtain ⟨d', hd', hB⟩ :=
    sceGuDrawArray_frame s prim vtype count v0 v1
      (by
        intro x y h1 h2 h3 h4
        simp only [FB_SIZE, PLATFORM_SCREEN_WIDTH, PLATFORM_LINE_SIZE,
          PLATFORM_SCREEN_HEIGHT] at *
        push_cast at *
        omega)
      hsrc
  refine ⟨setVramDrawBuffer s d', hd', ?_⟩
  intro j hj
  rw [getVramDrawBuffer_setVramDrawBuffer]
  apply hB
  intro x y g1 g2 g3 g4
  refine hj (x + v0.x) (y + v0.y) (by omega) ?_ (by omega) ?_
  · simp only [PLATFORM_SCREEN_WIDTH] at *
    push_cast at *
    omega
  · simp only [PLATFORM_SCREEN_HEIGHT] at *
    push_cast at *
    omega

/-- C2 (witness): the 2x2 sprite drawn at (478, 270), the bottom right corner
of the screen, leaves the first padding element of the last row, index
480 + 271 * 512, at zero. -/
theorem sceGuDrawArray_inside_screen_witness :
    ((0 : Int) ≤ 478 ∧ (480 : Int) ≤ PLATFORM_SCREEN_WIDTH ∧
      (0 : Int) ≤ 270 ∧ (272 : Int) ≤ PLATFORM_SCREEN_HEIGHT) ∧
    (sceGuDrawArray blueState 0 0 0 ⟨0, 0, 478, 270, 0⟩ ⟨2, 2, 480, 272, 0⟩).map
      (fun s => (getVramDrawBuffer s).read (480 + 271 * 512)) = some (some 0) := by
  refine ⟨by decide, ?_⟩
  obtain ⟨s', hs', hB⟩ := sceGuDrawArray_inside_screen blueState 0 0 0
    ⟨0, 0, 478, 270, 0⟩ ⟨2, 2, 480, 272, 0⟩ (by decide) (by decide) (by decide) (by decide)
    (by
      intro x y h1 h2 h3 h4
      simp only [blueState, blueTexture, TexturePtr.size] at *
      push_cast at *
      omega)
  rw [hs']
  have h := hB (480 + 271 * 512) (by
    intro px py h1 h2 h3 h4
    simp only [PLATFORM_SCREEN_WIDTH, PLATFORM_SCREEN_HEIGHT, PLATFORM_LINE_SIZE] at *
    push_cast at *
    omega)
  have h0 : (getVramDrawBuffer blueState).read (480 + 271 * 512) = some 0 := rfl
  rw [h0] at h
  simp only [Option.map_some', h]

/-- C3 (counterexample): with the 64x1 blue strip bound, the 34x1 rectangle at
(479, 0) extends beyond the right edge; drawn unclipped it sets the in-bounds
pixel (0, 1), index 512, to blue, while the pre-clipped 1x1 rectangle at
(479, 0) leaves that pixel zero.  And with the draw buffer itself bound as
texture (width 1, source offset 478), the 2x3 rectangle at (479, 0) stores
into the padding element 480, samples it two rows later and paints the
in-bounds pixel (479, 2), which the pre-clipped 1x3 rectangle leaves zero. -/
theorem sceGuDrawArray_clipping_not_idempotent :
    ((sceGuDrawArray stripState 0 0 0 ⟨0, 0, 479, 0, 0⟩ ⟨34, 1, 513, 1, 0⟩).map
        (fun s => (getVramDrawBuffer s).read (0 + 1 * 512)) = some (some opaqueBlue) ∧
      (sceGuDrawArray stripState 0 0 0 ⟨0, 0, 479, 0, 0⟩ ⟨1, 1, 480, 1, 0⟩).map
        (fun s => (getVramDrawBuffer s).read (0 + 1 * 512)) = some (some 0)) ∧
    ((sceGuDrawArray aliasState 0 0 0 ⟨478, 0, 479, 0, 0⟩ ⟨0, 0, 481, 3, 0⟩).map
        (fun s => (getVramDrawBuffer s).read (479 + 2 * 512)) = some (some opaqueBlue) ∧
      (sceGuDrawArray aliasState 0 0 0 ⟨478, 0, 479, 0, 0⟩ ⟨0, 0, 480, 3, 0⟩).map
        (fun s => (getVramDrawBuffer s).read (479 + 2 * 512)) = some (some 0)) := by
  refine ⟨⟨?_, ?_⟩, ?_, ?_⟩
  · rfl
  · rfl
  · rfl
  · rfl

/-- C3 (amended): for a destination rectangle that extends beyond the 480x272
screen only into the 32 padding texels of the 512-texel rows, to the right
(`dx + w ≤ 512`) or to the left (`-32 ≤ dx`, and then not in row 0), with
`0 ≤ dy`, `dy + h ≤ 272`, a source rectangle inside the texture memory and a
bound texture of which no sampled texel is an element of the draw buffer,
`sceGuDrawArray` with that rectangle and `sceGuDrawArray` with the rectangle
pre-clipped to `0 ≤ x < 480` (the source offset advanced by the texels cut
off on the left) both return, and the pixels inside the 480x272 screen are the
same after the two calls. -/
theorem sceGuDrawArray_padding_overhang (s : State) (prim vtype count : Int) (v0 v1 : Vertex)
    (hx0 : -32 ≤ v0.x) (hx1 : v1.x ≤ PLATFORM_LINE_SIZE)
    (hy0 : 0 ≤ v0.y) (hy1 : v1.y ≤ PLATFORM_SCREEN_HEIGHT)
    (hrow : v0.x < 0 → 1 ≤ v0.y)
    (hsrc : ∀ x y : Int, 0 ≤ x → x < v1.x - v0.x → 0 ≤ y → y < v1.y - v0.y →
      0 ≤ x + v0.u + (y + v0.v) * s.currentTextureWidth ∧
      x + v0.u + (y + v0.v) * s.currentTextureWidth < s.currentTexture.size)
    (hdisj : ∀ x y : Int, 0 ≤ x → x < v1.x - v0.x → 0 ≤ y → y < v1.y - v0.y →
      ¬ sampleInDrawBuffer s (x + v0.u + (y + v0.v) * s.currentTextureWidth)) :
    ∃ s1 s2,
      sceGuDrawArray s prim vtype count v0 v1 = some s1 ∧
      sceGuDrawArray s prim vtype count
        { v0 with x := max v0.x 0, u := v0.u + (max v0.x 0 - v0.x).toNat }
        { v1 with x := min v1.x PLATFORM_SCREEN_WIDTH } = some s2 ∧
      ∀ px py : Int, 0 ≤ px → px < PLATFORM_SCREEN_WIDTH → 0 ≤ py →
        py < PLATFORM_SCREEN_HEIGHT →
        (getVramDrawBuffer s1).read (px + py * PLATFORM_LINE_SIZE) =
          (getVramDrawBuffer s2).read (px + py * PLATFORM_LINE_SIZE) := by
  have hmax0 : 0 ≤ max v0.x 0 := le_max_right _ _
  have hmax1 : v0.x ≤ max v0.x 0 := le_max_left _ _
  have hmax2 : max v0.x 0 = v0.x ∨ max v0.x 0 = 0 := by omega
  have hmin : min v1.x (PLATFORM_SCREEN_WIDTH : Int) ≤ v1.x := min_le_left _ _
  have hmin2 : min v1.x (PLATFORM_SCREEN_WIDTH : Int) ≤ PLATFORM_SCREEN_WIDTH := min_le_right _ _
  have hcast : (((v0.u + (max v0.x 0 - v0.x).toNat : Nat)) : Int) =
      (v0.u : Int) + (max v0.x 0 - v0.x) := by
    push_cast
    omega
  have hshift : ∀ x y : Int,
      x + ((v0.u + (max v0.x 0 - v0.x).toNat : Nat) : Int) + (y + v0.v) * s.currentTextureWidth =
        (x + (max v0.x 0 - v0.x)) + v0.u + (y + v0.v) * s.currentTextureWidth := by
    intro x y
    rw [hcast]
    ring
  obtain ⟨d1, hd1, hU1⟩ :=
    sceGuDrawArray_unique s prim vtype count v0 v1
      (by
        intro x y h1 h2 h3 h4
        have hr := hrow
        simp only [FB_SIZE, PLATFORM_LINE_SIZE, PLATFORM_SCREEN_HEIGHT] at *
        push_cast at *
        omega)
      hsrc hdisj
  obtain ⟨d2, hd2, hA2, hB2⟩ :=
    sceGuDrawArray_inside s prim vtype count
      { v0 with x := max v0.x 0, u := v0.u + (max v0.x 0 - v0.x).toNat }
      { v1 with x := min v1.x PLATFORM_SCREEN_WIDTH } hmax0
      (by
        show min v1.x (PLATFORM_SCREEN_WIDTH : Int) ≤ PLATFORM_LINE_SIZE
        simp only [PLATFORM_SCREEN_WIDTH, PLATFORM_LINE_SIZE] at *
        push_cast at *
        omega)
      hy0 hy1
      (by
        intro x y g1 g2 g3 g4
        have g2' : x < min v1.x (PLATFORM_SCREEN_WIDTH : Int) - max v0.x 0 := g2
        have g4' : y < v1.y - v0.y := g4
        show 0 ≤ x + ((v0.u + (max v0.x 0 - v0.x).toNat : Nat) : Int) +
            (y + v0.v) * s.currentTextureWidth ∧
          x + ((v0.u + (max v0.x 0 - v0.x).toNat : Nat) : Int) +
            (y + v0.v) * s.currentTextureWidth < s.currentTexture.size
        rw [hshift]
        exact hsrc (x + (max v0.x 0 - v0.x)) y (by omega) (by omega) g3 g4')
      (by
        intro x y g1 g2 g3 g4
        have g2' : x < min v1.x (PLATFORM_SCREEN_WIDTH : Int) - max v0.x 0 := g2
        have g4' : y < v1.y - v0.y := g4
        show ¬ sampleInDrawBuffer s (x + ((v0.u + (max v0.x 0 - v0.x).toNat : Nat) : Int) +
            (y + v0.v) * s.currentTextureWidth)
        rw [hshift]
        exact hdisj (x + (max v0.x 0 - v0.x)) y (by omega) (by omega) g3 g4')
  refine ⟨setVramDrawBuffer s d1, setVramDrawBuffer s d2, hd1, hd2, ?_⟩
  intro px py h1 h2 h3 h4
  rw [getVramDrawBuffer_setVramDrawBuffer, getVramDrawBuffer_setVramDrawBuffer]
  by_cases hin : v0.x ≤ px ∧ px < v1.x ∧ v0.y ≤ py ∧ py < v1.y
  · have hpx : px < min v1.x (PLATFORM_SCREEN_WIDTH : Int) := lt_min hin.2.1 h2
    obtain ⟨c1, hc1, hr1⟩ := (hU1 (px + py * PLATFORM_LINE_SIZE)).1
      (px - v0.x) (py - v0.y) (by omega) (by omega) (by omega) (by omega)
      (by ring)
      (by
        intro x2 y2 g1 g2 g3 g4 heq
        simp only [PLATFORM_LINE_SIZE, PLATFORM_SCREEN_WIDTH] at *
        push_cast at *
        omega)
    obtain ⟨c2, hc2, hr2⟩ := hA2 (px - max v0.x 0) (py - v0.y) (by omega)
      (by show px - max v0.x 0 < min v1.x (PLATFORM_SCREEN_WIDTH : Int) - max v0.x 0; omega)
      (by omega)
      (by show py - v0.y < v1.y - v0.y; omega)
    have hc2' : readTexture s (getVramDrawBuffer s)
        (px - max v0.x 0 + ((v0.u + (max v0.x 0 - v0.x).toNat : Nat) : Int) +
          (py - v0.y + v0.v) * s.currentTextureWidth) = some c2 := hc2
    have hr2' : d2.read (px - max v0.x 0 + max v0.x 0 + (py - v0.y + v0.y) * PLATFORM_LINE_SIZE) =
        if c2 &&& 0xFF000000 ≠ 0 then some c2
        else (getVramDrawBuffer s).read
          (px - max v0.x 0 + max v0.x 0 + (py - v0.y + v0.y) * PLATFORM_LINE_SIZE) := hr2
    rw [hshift] at hc2'
    have e0 : px - max v0.x 0 + (max v0.x 0 - v0.x) = px - v0.x := by omega
    rw [e0, hc1] at hc2'
    have hcc : c1 = c2 := Option.some.inj hc2'
    subst hcc
    have e1 : px - max v0.x 0 + max v0.x 0 = px := by omega
    have e2 : py - v0.y + v0.y = py := by omega
    rw [e1, e2] at hr2'
    rw [hr1, hr2']
  · have hl := (hU1 (px + py * PLATFORM_LINE_SIZE)).2 (by
      intro x y g1 g2 g3 g4 heq
      simp only [PLATFORM_LINE_SIZE, PLATFORM_SCREEN_HEIGHT, PLATFORM_SCREEN_WIDTH] at *
      push_cast at *
      omega)
    have hr := hB2 (px + py * PLATFORM_LINE_SIZE) (by
      intro x y g1 g2 g3 g4 heq
      have g2' : x < min v1.x (PLATFORM_SCREEN_WIDTH : Int) - max v0.x 0 := g2
      have g4' : y < v1.y - v0.y := g4
      have heq' : x + max v0.x 0 + (y + v0.y) * PLATFORM_LINE_SIZE =
          px + py * PLATFORM_LINE_SIZE := heq
      simp only [PLATFORM_LINE_SIZE, PLATFORM_SCREEN_HEIGHT, PLATFORM_SCREEN_WIDTH] at *
      push_cast at *
      omega)
    rw [hl, hr]

/-- C3 (witness): with the 64x1 blue strip bound, the 4x1 rectangle at (-2, 1)
overhangs the left edge by two texels, which are stored into the padding of
row 0; drawn as given and drawn pre-clipped (origin (0, 1), source offset 2,
width 2) it yields the same pixels (0, 1) and (2, 1). -/
theorem sceGuDrawArray_padding_overhang_witness :
    ((-32 : Int) ≤ -2 ∧ (2 : Int) ≤ PLATFORM_LINE_SIZE ∧
      (0 : Int) ≤ 1 ∧ (2 : Int) ≤ PLATFORM_SCREEN_HEIGHT) ∧
    (sceGuDrawArray stripState 0 0 0 ⟨0, 0, -2, 1, 0⟩ ⟨0, 0, 2, 2, 0⟩).bind
      (fun s1 => (sceGuDrawArray stripState 0 0 0 ⟨2, 0, 0, 1, 0⟩ ⟨0, 0, 2, 2, 0⟩).map
        (fun s2 => decide ((getVramDrawBuffer s1).read (0 + 1 * 512) =
            (getVramDrawBuffer s2).read (0 + 1 * 512) ∧
          (getVramDrawBuffer s1).read (2 + 1 * 512) =
            (getVramDrawBuffer s2).read (2 + 1 * 512)))) = some true := by
  refine ⟨by decide, ?_⟩
  obtain ⟨s1, s2, h1, h2, heq⟩ := sceGuDrawArray_padding_overhang stripState 0 0 0
    ⟨0, 0, -2, 1, 0⟩ ⟨0, 0, 2, 2, 0⟩ (by decide) (by decide) (by decide) (by decide)
    (by decide)
    (by
      intro x y g1 g2 g3 g4
      simp only [stripState, blueState, blueStrip, TexturePtr.size] at *
      push_cast at *
      omega)
    (fun _ _ _ _ _ _ h => h)
  have h2' : sceGuDrawArray stripState 0 0 0 ⟨2, 0, 0, 1, 0⟩ ⟨0, 0, 2, 2, 0⟩ = some s2 := h2
  rw [h1, h2']
  have e0 := heq 0 1 (by decide) (by decide) (by decide) (by decide)
  have e2 := heq 2 1 (by decide) (by decide) (by decide) (by decide)
  simp only [Option.some_bind, Option.map_some', Option.some.injEq, decide_eq_true_eq]
  exact ⟨e0, e2⟩

/-! ## Flip -/

/-- C4: after `emuFlipBuffers` the render buffer is, element for element, the
buffer that `getVramDrawBuffer` returned before the call (the copy reads the
index before it is toggled), `getVramDisplayBuffer` returns the buffer that
`getVramDrawBuffer` returned before the call and vice versa, and the index is
toggled. -/
theorem emuFlipBuffers_copies_then_toggles (s : State) :
    (emuFlipBuffers s).g_render_buffer = getVramDrawBuffer s ∧
    getVramDisplayBuffer (emuFlipBuffers s) = getVramDrawBuffer s ∧
    getVramDrawBuffer (emuFlipBuffers s) = getVramDisplayBuffer s ∧
    (emuFlipBuffers s).g_back_buffer = 1 - s.g_back_buffer ∧
    (emuFlipBuffers s).g_back_buffer ≠ s.g_back_buffer := by
  have h2 : (1 : Fin 2) - (1 - s.g_back_buffer) = s.g_back_buffer := by
    generalize s.g_back_buffer = i
    revert i
    decide
  have h3 : (1 : Fin 2) - s.g_back_buffer ≠ s.g_back_buffer := by
    generalize s.g_back_buffer = i
    revert i
    decide
  refine ⟨rfl, ?_, rfl, rfl, h3⟩
  simp only [getVramDisplayBuffer, getVramDrawBuffer, emuFlipBuffers, h2]

/-- C5: `emuFlipBuffers` changes the contents of neither frame buffer; the
buffer that becomes the draw buffer is the former display buffer with the
texels it held before the flip. -/
theorem emuFlipBuffers_keeps_framebuffers (s : State) :
    (emuFlipBuffers s).g_framebuffer = s.g_framebuffer ∧
    getVramDrawBuffer (emuFlipBuffers s) = getVramDisplayBuffer s := by
  exact ⟨rfl, rfl⟩

/-! ## Clear -/

theorem Buffer.read_val {n : Nat} (b : Buffer n) (k : Fin n) :
    b.read (k.val : Int) = some (b k) := by
  have hk : (0 : Int) ≤ (k.val : Int) ∧ (k.val : Int) < n := by
    have := k.isLt
    omega
  unfold Buffer.read
  rw [dif_pos hk]
  simp

/-- The function `sceGuClear` returns, with the draw buffer constant `clear_color`. -/
theorem sceGuClear_eq (s : State) (flags : Int) :
    sceGuClear s flags = some (setVramDrawBuffer s (fun _ => s.clear_color)) := by
  obtain ⟨d', hd', hP⟩ := forLoop_inv ((PLATFORM_LINE_SIZE * PLATFORM_SCREEN_HEIGHT : Nat) : Int)
    (fun n (d : Buffer FB_SIZE) => d.write n s.clear_color)
    (fun k d => ∀ j : Int, 0 ≤ j → j < k → d.read j = some s.clear_color)
    (getVramDrawBuffer s)
    (fun j h1 h2 => by omega)
    (by
      intro j d h1 h2 hd
      obtain ⟨d', hd'⟩ := Buffer.write_of_inRange d j s.clear_color ⟨h1, h2⟩
      refine ⟨d', hd', ?_⟩
      intro i hi1 hi2
      rw [Buffer.read_write hd']
      by_cases hij : i = j
      · rw [if_pos hij]
      · rw [if_neg hij]
        exact hd i hi1 (by omega))
  have hall : d' = fun _ => s.clear_color := by
    funext k
    have hk := k.isLt
    have h1 := hP (k.val : Int) (by omega) (by
      simp only [FB_SIZE, PLATFORM_LINE_SIZE, PLATFORM_SCREEN_HEIGHT] at hk ⊢
      push_cast
      omega)
    rw [Buffer.read_val] at h1
    exact Option.some.inj h1
  simp only [sceGuClear]
  rw [hd', hall]
  rfl

/-- C6: after `sceGuClearColor(c)` and `sceGuClear(flags)`, for any `flags`,
every element of the current draw buffer (all 512*272 of them, hence every
visible texel) equals `c`; the display buffer and the render buffer are
unchanged. -/
theorem sceGuClear_fills_draw_buffer (s : State) (c : Color) (flags : Int) :
    ∃ s', sceGuClear (sceGuClearColor s c) flags = some s' ∧
      (∀ k : Fin FB_SIZE, getVramDrawBuffer s' k = c) ∧
      getVramDisplayBuffer s' = getVramDisplayBuffer s ∧
      s'.g_render_buffer = s.g_render_buffer := by
  refine ⟨_, sceGuClear_eq (sceGuClearColor s c) flags, ?_, ?_, rfl⟩
  · intro k
    rw [getVramDrawBuffer_setVramDrawBuffer]
    rfl
  · rw [getVramDisplayBuffer_setVramDrawBuffer]
    rfl


/-! ## Blit copy -/

/-- A row-major index `a + b * w` with `0 ≤ a < w` determines `a` and `b`. -/
theorem stride_index_inj (w a b a' b' : Int) (ha : 0 ≤ a) (haw : a < w)
    (ha' : 0 ≤ a') (haw' : a' < w) (h : a + b * w = a' + b' * w) : a = a' ∧ b = b' := by
  have hw : w ≠ 0 := by omega
  have e1 : (a + b * w) % w = a := by
    rw [Int.add_mul_emod_self]
    exact Int.emod_eq_of_lt ha haw
  have e2 : (a' + b' * w) % w = a' := by
    rw [Int.add_mul_emod_self]
    exact Int.emod_eq_of_lt ha' haw'
  have haa : a = a' := by rw [← e1, ← e2, h]
  subst haa
  have hb : b * w = b' * w := by omega
  exact ⟨rfl, mul_right_cancel₀ hw hb⟩

/-- A rectangle inside a buffer of `n` texels with stride `w` has in-range indices. -/
theorem stride_index_inRange (n : Nat) (w ox oy width height x y : Int)
    (hox : 0 ≤ ox) (hoy : 0 ≤ oy) (hw : ox + width ≤ w) (hh : (oy + height) * w ≤ n)
    (hx0 : 0 ≤ x) (hx1 : x < width) (hy0 : 0 ≤ y) (hy1 : y < height) :
    0 ≤ x + ox + (y + oy) * w ∧ x + ox + (y + oy) * w < n := by
  have hwpos : 0 < w := by omega
  have h1 : 0 ≤ (y + oy) * w := mul_nonneg (by omega) (le_of_lt hwpos)
  have h2 : (y + oy + 1) * w ≤ (oy + height) * w :=
    mul_le_mul_of_nonneg_right (by omega) (le_of_lt hwpos)
  have h3 : (y + oy + 1) * w = (y + oy) * w + w := by ring
  constructor
  · omega
  · omega

/-- C7: for a source and a destination buffer that are distinct, and a
rectangle of `width` x `height` that lies inside both (strides `srcw` and
`destw`), `sceGuCopyImage` returns and `dest[(dx+x) + (dy+y)*destw]` equals
`src[(sx+x) + (sy+y)*srcw]` for every `0 ≤ x < width`, `0 ≤ y < height`,
whatever the alpha byte of the value; every other element of `dest` is
unchanged.  The source is an input only, so it is unchanged. -/
theorem sceGuCopyImage_copies_rectangle {n m : Nat} (psm sx sy width height srcw : Int)
    (src : Buffer n) (dx dy destw : Int) (dest : Buffer m)
    (hsx : 0 ≤ sx) (hsy : 0 ≤ sy) (hsw : sx + width ≤ srcw) (hsh : (sy + height) * srcw ≤ n)
    (hdx : 0 ≤ dx) (hdy : 0 ≤ dy) (hdw : dx + width ≤ destw)
    (hdh : (dy + height) * destw ≤ m) :
    ∃ d', sceGuCopyImage psm sx sy width height srcw src dx dy destw dest = some d' ∧
      (∀ x y : Int, 0 ≤ x → x < width → 0 ≤ y → y < height →
        ∃ c, src.read (x + sx + (y + sy) * srcw) = some c ∧
          d'.read (x + dx + (y + dy) * destw) = some c) ∧
      (∀ j : Int, (∀ x y : Int, 0 ≤ x → x < width → 0 ≤ y → y < height →
          j ≠ x + dx + (y + dy) * destw) → d'.read j = dest.read j) := by
  have hrd : ∀ x y : Int, 0 ≤ x → x < width → 0 ≤ y → y < height →
      ∃ c, src.read (x + sx + (y + sy) * srcw) = some c :=
    fun x y h1 h2 h3 h4 => Buffer.read_of_inRange _ _
      (stride_index_inRange n srcw sx sy width height x y hsx hsy hsw hsh h1 h2 h3 h4)
  obtain ⟨d', hd', hA, hB⟩ := rect_loop width height
    (fun x y => x + dx + (y + dy) * destw)
    (fun x y => src.read (x + sx + (y + sy) * srcw))
    (fun x y d => (src.read (x + sx + (y + sy) * srcw)).bind fun c =>
      d.write (x + dx + (y + dy) * destw) c)
    (by
      intro x y d c h1 h2 h3 h4 he
      simp only [he, Option.some_bind])
    (by
      intro x y d h1 h2 h3 h4 he
      obtain ⟨c, hc⟩ := hrd x y h1 h2 h3 h4
      have he2 : src.read (x + sx + (y + sy) * srcw) = none := he
      rw [hc] at he2
      cases he2)
    (by
      intro x y c h1 h2 h3 h4 _
      exact stride_index_inRange m destw dx dy width height x y hdx hdy hdw hdh h1 h2 h3 h4)
    (by
      intro x y x' y' h1 h2 h3 h4 h5 h6 h7 h8 heq
      have := stride_index_inj destw (x + dx) (y + dy) (x' + dx) (y' + dy)
        (by omega) (by omega) (by omega) (by omega) heq
      omega)
    dest
  refine ⟨d', hd', ?_, hB⟩
  intro x y h1 h2 h3 h4
  obtain ⟨c, hc⟩ := hrd x y h1 h2 h3 h4
  exact ⟨c, hc, (hA x y h1 h2 h3 h4).1 c hc⟩

/-- C7 (witness): copying the 2x2 buffer `1 2 / 3 4` to position (1, 1) of a
zeroed 3x3 buffer puts `4` at (2, 2). -/
theorem sceGuCopyImage_copies_rectangle_witness :
    ((0 : Int) ≤ 0 ∧ (0 : Int) + 2 ≤ 2 ∧ ((0 : Int) + 2) * 2 ≤ (4 : Nat) ∧
      (0 : Int) ≤ 1 ∧ (1 : Int) + 2 ≤ 3 ∧ ((1 : Int) + 2) * 3 ≤ (9 : Nat)) ∧
    (sceGuCopyImage 0 0 0 2 2 2 sampleSource 1 1 3
      sampleDest).map (fun d => d.read (1 + 1 + (1 + 1) * 3)) = some (some 4) := by
  refine ⟨by decide, ?_⟩
  obtain ⟨d', hd', hA, _⟩ := sceGuCopyImage_copies_rectangle 0 0 0 2 2 2
    sampleSource 1 1 3 sampleDest
    (by decide) (by decide) (by decide) (by decide) (by decide) (by decide) (by decide)
    (by decide)
  rw [hd']
  obtain ⟨c, hc, hr⟩ := hA 1 1 (by decide) (by decide) (by decide) (by decide)
  have hc4 : sampleSource.read (1 + 0 + (1 + 0) * 2) = some 4 := rfl
  rw [hc4] at hc
  have : c = 4 := (Option.some.inj hc).symm
  subst this
  simp only [Option.map_some', hr]

/-! ## Empty rectangles -/

theorem forLoopFrom_skip {σ : Type} (body : Int → σ → Option σ)
    (hbody : ∀ i s, body i s = some s) :
    ∀ (k : Nat) (i : Int) (s : σ), forLoopFrom body k i s = some s := by
  intro k
  induction k with
  | zero => intro i s; rfl
  | succ k ih =>
    intro i s
    simp only [forLoopFrom, hbody, Option.some_bind]
    exact ih (i + 1) s

theorem forLoop_nonpos {σ : Type} (n : Int) (hn : n ≤ 0) (body : Int → σ → Option σ) (s : σ) :
    forLoop n body s = some s := by
  have : n.toNat = 0 := by omega
  simp only [forLoop, this, forLoopFrom]

theorem setVramDrawBuffer_getVramDrawBuffer (s : State) :
    setVramDrawBuffer s (getVramDrawBuffer s) = s := by
  simp [setVramDrawBuffer, getVramDrawBuffer]

/-- A rectangle loop of non-positive width or height returns its start value
without running the innermost body. -/
theorem rect_loop_empty {σ : Type} (W H : Int) (h : W ≤ 0 ∨ H ≤ 0)
    (body : Int → Int → σ → Option σ) (d : σ) :
    forLoop H (fun y d => forLoop W (fun x d => body x y d) d) d = some d := by
  rcases h with hW | hH
  · exact forLoopFrom_skip _ (fun y t => forLoop_nonpos W hW _ t) _ _ _
  · exact forLoop_nonpos H hH _ d

/-- C8: `sceGuDrawArray` with `v[1].x - v[0].x ≤ 0` or `v[1].y - v[0].y ≤ 0`
returns the state it was given, and `sceGuCopyImage` with `width ≤ 0` or
`height ≤ 0` returns the destination it was given: no pixel buffer changes.
Both hold for every texture and source, the null texture and the empty
source included, on which any read would fault: no texel is read. -/
theorem empty_rectangle_is_noop (s : State) (prim vtype count : Int) (v0 v1 : Vertex)
    {n m : Nat} (psm sx sy width height srcw : Int) (src : Buffer n) (dx dy destw : Int)
    (dest : Buffer m) :
    ((v1.x - v0.x ≤ 0 ∨ v1.y - v0.y ≤ 0) →
      sceGuDrawArray s prim vtype count v0 v1 = some s ∧
      sceGuDrawArray { s with currentTexture := TexturePtr.memory Texels.null } prim vtype count v0 v1 =
        some { s with currentTexture := TexturePtr.memory Texels.null }) ∧
    ((width ≤ 0 ∨ height ≤ 0) →
      sceGuCopyImage psm sx sy width height srcw src dx dy destw dest = some dest ∧
      sceGuCopyImage psm sx sy width height srcw emptySource dx dy destw dest =
        some dest) := by
  have hdraw : ∀ t : State, (v1.x - v0.x ≤ 0 ∨ v1.y - v0.y ≤ 0) →
      sceGuDrawArray t prim vtype count v0 v1 = some t := by
    intro t h
    simp only [sceGuDrawArray]
    rw [rect_loop_empty (v1.x - v0.x) (v1.y - v0.y) h]
    simp only [Option.map_some', setVramDrawBuffer_getVramDrawBuffer]
  constructor
  · intro h
    exact ⟨hdraw s h, hdraw _ h⟩
  · intro h
    constructor
    · exact rect_loop_empty width height h _ dest
    · exact rect_loop_empty width height h _ dest

/-- C8 (witness): on the zeroed state with the null texture, a rectangle of
width -3 drawn at (10, 10) and a copy of height 0 from an empty source both
return their input. -/
theorem empty_rectangle_is_noop_witness :
    (((7 : Int) - 10 ≤ 0 ∨ (20 : Int) - 10 ≤ 0) ∧ ((5 : Int) ≤ 0 ∨ (0 : Int) ≤ 0)) ∧
    sceGuDrawArray { blueState with currentTexture := TexturePtr.memory Texels.null } 0 0 0
        ⟨0, 0, 10, 10, 0⟩ ⟨0, 0, 7, 20, 0⟩ =
      some { blueState with currentTexture := TexturePtr.memory Texels.null } ∧
    sceGuCopyImage 0 0 0 5 0 5 emptySource 0 0 3 sampleDest =
      some sampleDest := by
  have h := empty_rectangle_is_noop { blueState with currentTexture := TexturePtr.memory Texels.null } 0 0 0
    ⟨0, 0, 10, 10, 0⟩ ⟨0, 0, 7, 20, 0⟩ 0 0 0 5 0 5 emptySource 0 0 3
    sampleDest
  exact ⟨by decide, (h.1 (by decide)).1, (h.2 (by decide)).1⟩


/-! ## Scenario: clear, draw, flip, snapshot -/

/-- C9: from any state, clearing to `0xFF0000FF`, binding a 2x2 texture whose
four texels are a fully opaque colour `blue`, drawing it at destination (0, 0)
with source offset (0, 0), flipping and taking the rows that `renderFrame`
copies gives a snapshot with `blue` at texel (0, 0) and `0xFF0000FF` at
texel (10, 10). -/
theorem scenario_clear_draw_flip_snapshot (s : State)
    (flags mipmap tbw prim vtype count : Int) (blue : Color) (hblue : COLOR_A blue = 0xFF) :
    ∃ s', ((sceGuClear (sceGuClearColor s 0xFF0000FF) flags).bind fun s2 =>
        (sceGuDrawArray (sceGuTexImage s2 mipmap 2 2 tbw (TexturePtr.memory ⟨4, fun _ => blue⟩))
          prim vtype count
          ⟨0, 0, 0, 0, 0⟩ ⟨2, 2, 2, 2, 0⟩).map emuFlipBuffers) = some s' ∧
      renderFrame s' 0 0 = blue ∧ renderFrame s' 10 10 = 0xFF0000FF := by
  rw [sceGuClear_eq, Option.some_bind]
  generalize hs3 : sceGuTexImage
    (setVramDrawBuffer (sceGuClearColor s 0xFF0000FF)
      (fun _ => (sceGuClearColor s 0xFF0000FF).clear_color)) mipmap 2 2 tbw
    (TexturePtr.memory ⟨4, fun _ => blue⟩) = s3
  have htex : s3.currentTexture = TexturePtr.memory ⟨4, fun _ => blue⟩ := by rw [← hs3]; rfl
  have htw : s3.currentTextureWidth = 2 := by rw [← hs3]; rfl
  have hdraw : getVramDrawBuffer s3 = fun _ => 0xFF0000FF := by
    rw [← hs3]
    simp [getVramDrawBuffer, sceGuTexImage, setVramDrawBuffer, sceGuClearColor]
  obtain ⟨d', hd', hA, hB⟩ := sceGuDrawArray_inside s3 prim vtype count
    ⟨0, 0, 0, 0, 0⟩ ⟨2, 2, 2, 2, 0⟩ (by decide) (by decide) (by decide) (by decide)
    (by
      intro x y h1 h2 h3 h4
      rw [htex, htw]
      simp only [TexturePtr.size] at *
      push_cast
      omega)
    (by
      intro x y h1 h2 h3 h4
      unfold sampleInDrawBuffer
      rw [htex]
      exact fun h => h)
  refine ⟨emuFlipBuffers (setVramDrawBuffer s3 d'), by rw [hd']; rfl, ?_, ?_⟩
  · obtain ⟨c, hc, hr⟩ := hA 0 0 (by decide) (by decide) (by decide) (by decide)
    have hcb : c = blue := by
      have h0 : readTexture s3 (getVramDrawBuffer s3)
          (0 + ((0 : Nat) : Int) + (0 + ((0 : Nat) : Int)) * s3.currentTextureWidth) =
          some blue := by
        unfold readTexture
        rw [htw]
        rw [htex]
        rfl
      have hc2 : readTexture s3 (getVramDrawBuffer s3)
          (0 + ((0 : Nat) : Int) + (0 + ((0 : Nat) : Int)) * s3.currentTextureWidth) =
          some c := hc
      rw [h0] at hc2
      exact (Option.some.inj hc2).symm
    subst hcb
    have ha : c &&& 0xFF000000 ≠ 0 := (alpha_test_iff c).mpr (by rw [hblue]; decide)
    rw [if_pos ha] at hr
    have hr2 : d'.read (((0 : Fin FB_SIZE).val : Nat) : Int) = some c := hr
    rw [Buffer.read_val] at hr2
    have : renderFrame (emuFlipBuffers (setVramDrawBuffer s3 d')) 0 0 = d' 0 := by
      simp [renderFrame, emuFlipBuffers, setVramDrawBuffer]
    rw [this]
    exact Option.some.inj hr2
  · have h := hB (((5130 : Fin FB_SIZE).val : Nat) : Int) (by
      intro x y h1 h2 h3 h4
      show x + 0 + (y + 0) * (PLATFORM_LINE_SIZE : Int) ≠ (((5130 : Fin FB_SIZE).val : Nat) : Int)
      have e5130 : (((5130 : Fin FB_SIZE).val : Nat) : Int) = 5130 := rfl
      rw [e5130]
      simp only [PLATFORM_LINE_SIZE] at *
      push_cast
      omega)
    rw [Buffer.read_val, hdraw, Buffer.read_val] at h
    have : renderFrame (emuFlipBuffers (setVramDrawBuffer s3 d')) 10 10 = d' 5130 := by
      simp [renderFrame, emuFlipBuffers, setVramDrawBuffer]
      rfl
    rw [this]
    exact Option.some.inj h

/-- C9 (witness): the scenario run from the zeroed state with the blue
`0xFFFF0000`, whose alpha byte is `0xFF`. -/
theorem scenario_clear_draw_flip_snapshot_witness :
    COLOR_A opaqueBlue = 0xFF ∧
    ∃ s', ((sceGuClear (sceGuClearColor blueState 0xFF0000FF) 0).bind fun s2 =>
        (sceGuDrawArray (sceGuTexImage s2 0 2 2 2 (TexturePtr.memory ⟨4, fun _ => opaqueBlue⟩))
          0 0 0
          ⟨0, 0, 0, 0, 0⟩ ⟨2, 2, 2, 2, 0⟩).map emuFlipBuffers) = some s' ∧
      renderFrame s' 0 0 = opaqueBlue ∧ renderFrame s' 10 10 = 0xFF0000FF :=
  ⟨by decide, scenario_clear_draw_flip_snapshot blueState 0 0 2 0 0 0 opaqueBlue (by decide)⟩


/-! ## Input bridge -/

/-- The search loop applies `update` with the button of a mapped key. -/
theorem mappingLoop_mapped (update : Nat → Nat → Nat) (k : SDL_Scancode) (b : Nat)
    (hmem : (⟨k, b⟩ : KeyMapping) ∈ g_key_mappings) (hk : k ≠ SDL_Scancode.UNKNOWN)
    (m : Nat) : mappingLoop update k g_key_mappings m = update m b := by
  simp only [g_key_mappings, List.mem_cons, KeyMapping.mk.injEq, List.mem_singleton,
    List.not_mem_nil, or_false] at hmem
  rcases hmem with h | h | h | h | h | h | h | h | h | h | h | h | h | h
  all_goals first
    | (obtain ⟨rfl, rfl⟩ := h; rfl)
    | (exact absurd h.1 hk)

/-- The search loop leaves the mask alone for a scancode without a table entry. -/
theorem mappingLoop_unmapped (update : Nat → Nat → Nat) (k : SDL_Scancode) (m : Nat) :
    ∀ table : List KeyMapping,
      (∀ e ∈ table, e.scancode = k → k = SDL_Scancode.UNKNOWN) →
      mappingLoop update k table m = m := by
  intro table
  induction table with
  | nil => intro _; rfl
  | cons e rest ih =>
    intro h
    unfold mappingLoop
    by_cases h1 : e.scancode = SDL_Scancode.UNKNOWN
    · rw [if_pos h1]
    · rw [if_neg h1]
      by_cases h2 : e.scancode = k
      · exfalso
        have := h e (List.mem_cons_self _ _) h2
        rw [← h2] at this
        exact h1 this
      · rw [if_neg h2]
        exact ih (fun e' he' => h e' (List.mem_cons_of_mem _ he'))

/-- The mask after a key-up has exactly the bits of the old 32-bit mask that are
not bits of the button: `m & ~b` bit by bit. -/
theorem testBit_land_bitNot32 (m b i : Nat) (hm : m < 2 ^ 32) :
    (m &&& bitNot32 b).testBit i = (m.testBit i && !b.testBit i) := by
  rw [Nat.testBit_and, bitNot32, Nat.testBit_xor]
  by_cases hi : i < 32
  · have h1 : (0xFFFFFFFF : Nat).testBit i = true := by
      have := Nat.testBit_two_pow_sub_one 32 i
      simpa [hi] using this
    rw [h1]
    simp
  · have h2 : m.testBit i = false :=
      Nat.testBit_lt_two_pow (lt_of_lt_of_le hm (Nat.pow_le_pow_right (by decide) (by omega)))
    rw [h2]
    simp

/-- The button of a table entry, complemented in 32 bits, is `2^32 - 1 - b`. -/
theorem bitNot32_of_mem (k : SDL_Scancode) (b : Nat)
    (hmem : (⟨k, b⟩ : KeyMapping) ∈ g_key_mappings) : bitNot32 b = 2 ^ 32 - 1 - b := by
  simp only [g_key_mappings, List.mem_cons, KeyMapping.mk.injEq, List.mem_singleton,
    List.not_mem_nil, or_false] at hmem
  rcases hmem with h | h | h | h | h | h | h | h | h | h | h | h | h | h
  all_goals (obtain ⟨_, rfl⟩ := h; decide)

/-- C10: for every mask `m` and every mapped key `k` with button bit `b`, a
key-down of `k` yields `m | b` and a key-up of `k` yields `m & ~b`, the
complement taken in the 32 bits of the `int`: the mask is
`m & (2^32 - 1 - b)`, and for a mask `m < 2^32` bit `i` of the result is set
exactly when bit `i` of `m` is set and bit `i` of `b` is not; the same
key-down, or the same key-up, processed twice in a row yields the same mask as
processed once; a key-down or key-up of a key that is neither mapped nor
Escape leaves the mask unchanged. -/
theorem processEvents_set_clear_idempotent (s : State) (k : SDL_Scancode) (b : Nat) :
    ((⟨k, b⟩ : KeyMapping) ∈ g_key_mappings → k ≠ SDL_Scancode.UNKNOWN →
      (processEvents s [SDL_Event.SDL_KEYDOWN k]).g_current_controls =
        s.g_current_controls ||| b ∧
      (processEvents s [SDL_Event.SDL_KEYUP k]).g_current_controls =
        s.g_current_controls &&& (2 ^ 32 - 1 - b) ∧
      (s.g_current_controls < 2 ^ 32 →
        ∀ i : Nat, (processEvents s [SDL_Event.SDL_KEYUP k]).g_current_controls.testBit i =
          (s.g_current_controls.testBit i && !b.testBit i)) ∧
      (processEvents s [SDL_Event.SDL_KEYDOWN k, SDL_Event.SDL_KEYDOWN k]).g_current_controls =
        (processEvents s [SDL_Event.SDL_KEYDOWN k]).g_current_controls ∧
      (processEvents s [SDL_Event.SDL_KEYUP k, SDL_Event.SDL_KEYUP k]).g_current_controls =
        (processEvents s [SDL_Event.SDL_KEYUP k]).g_current_controls) ∧
    ((∀ e ∈ g_key_mappings, e.scancode = k → k = SDL_Scancode.UNKNOWN) →
      k ≠ SDL_Scancode.ESCAPE →
      (processEvents s [SDL_Event.SDL_KEYDOWN k]).g_current_controls = s.g_current_controls ∧
      (processEvents s [SDL_Event.SDL_KEYUP k]).g_current_controls = s.g_current_controls) := by
  constructor
  · intro hmem hk
    have hesc : k ≠ SDL_Scancode.ESCAPE := by
      intro he
      subst he
      simp [g_key_mappings] at hmem
    simp only [processEvents, List.foldl, processEvent, if_neg hesc,
      mappingLoop_mapped _ k b hmem hk]
    refine ⟨trivial, ?_, ?_, ?_, ?_⟩
    · rw [bitNot32_of_mem k b hmem]
    · intro hm i
      exact testBit_land_bitNot32 s.g_current_controls b i hm
    · rw [Nat.lor_assoc, Nat.or_self]
    · rw [Nat.land_assoc, Nat.and_self]
  · intro hun hesc
    simp only [processEvents, List.foldl, processEvent, if_neg hesc,
      mappingLoop_unmapped _ k _ g_key_mappings hun]
    exact ⟨trivial, trivial⟩

/-- C10 (witness): the key C is mapped to the cross button and F1 (scancode 58)
has no entry; from the mask `CTRL_UP` a key-down of C gives
`CTRL_UP | CTRL_CROSS = 0x4010`; from the mask `0x4010` a key-up of C gives
`0x10`, with bit 14 clear and bit 4 still set; a key-up of F1 leaves `CTRL_UP`. -/
theorem processEvents_set_clear_idempotent_witness :
    ((⟨SDL_Scancode.C, CTRL_CROSS⟩ : KeyMapping) ∈ g_key_mappings ∧
      SDL_Scancode.C ≠ SDL_Scancode.UNKNOWN ∧
      SDL_Scancode.other 58 ≠ SDL_Scancode.ESCAPE ∧ (0x4010 : Nat) < 2 ^ 32) ∧
    (processEvents { blueState with g_current_controls := CTRL_UP }
      [SDL_Event.SDL_KEYDOWN SDL_Scancode.C]).g_current_controls = 0x4010 ∧
    (processEvents { blueState with g_current_controls := 0x4010 }
      [SDL_Event.SDL_KEYUP SDL_Scancode.C]).g_current_controls = 0x10 ∧
    (processEvents { blueState with g_current_controls := 0x4010 }
      [SDL_Event.SDL_KEYUP SDL_Scancode.C]).g_current_controls.testBit 14 = false ∧
    (processEvents { blueState with g_current_controls := 0x4010 }
      [SDL_Event.SDL_KEYUP SDL_Scancode.C]).g_current_controls.testBit 4 = true ∧
    (processEvents { blueState with g_current_controls := CTRL_UP }
      [SDL_Event.SDL_KEYUP (SDL_Scancode.other 58)]).g_current_controls = CTRL_UP := by
  have hC := (processEvents_set_clear_idempotent { blueState with g_current_controls := CTRL_UP }
    SDL_Scancode.C CTRL_CROSS).1 (by decide) (by decide)
  have hU := (processEvents_set_clear_idempotent { blueState with g_current_controls := 0x4010 }
    SDL_Scancode.C CTRL_CROSS).1 (by decide) (by decide)
  have hF := (processEvents_set_clear_idempotent { blueState with g_current_controls := CTRL_UP }
    (SDL_Scancode.other 58) 0).2 (by decide) (by decide)
  exact ⟨by decide, hC.1, hU.2.1, hU.2.2.1 (by decide) 14, hU.2.2.1 (by decide) 4, hF.2⟩


/-! ## Controller polling -/

/-- Masking out a 32-bit button value with `& ~b` leaves none of its bits. -/
theorem land_bitNot32_land (m b : Nat) (hb : b < 2 ^ 32) : (m &&& bitNot32 b) &&& b = 0 := by
  apply Nat.eq_of_testBit_eq
  intro i
  have hM : (0xFFFFFFFF : Nat) = 2 ^ 32 - 1 := by decide
  simp only [bitNot32, Nat.testBit_land, Nat.testBit_xor, Nat.zero_testBit, hM,
    Nat.testBit_two_pow_sub_one]
  by_cases hi : i < 32
  · cases h : b.testBit i <;> simp [hi]
  · have hbi : b.testBit i = false := by
      apply Nat.testBit_lt_two_pow
      exact lt_of_lt_of_le hb (Nat.pow_le_pow_right (by decide) (by omega))
    simp [hbi]

/-- Every button of `g_key_mappings` is a 32-bit value. -/
theorem button_lt_of_mem (e : KeyMapping) (h : e ∈ g_key_mappings) : e.button < 2 ^ 32 := by
  simp only [g_key_mappings, List.mem_cons, List.mem_singleton, List.not_mem_nil,
    or_false] at h
  rcases h with h | h | h | h | h | h | h | h | h | h | h | h | h | h <;>
    (subst h; decide)

/-- C11: for every mapped key `k` with button bit `b`, every prior state and
every batch of earlier events, the `Buttons` field of the poll that follows
the processing of a key-down of `k` has bit `b` set, and the one that follows
the processing of a key-up of `k` has bit `b` clear; in both cases `Buttons`
equals `g_current_controls` as `processEvents` left it and the poll leaves
all globals, the mask included, unchanged. -/
theorem poll_observes_key_events (s : State) (before : List SDL_Event) (k : SDL_Scancode)
    (b : Nat) (pad_data : CtrlData) (count : Int)
    (hmem : (⟨k, b⟩ : KeyMapping) ∈ g_key_mappings) (hk : k ≠ SDL_Scancode.UNKNOWN) :
    ((ctrlReadBufferPositive (processEvents s (before ++ [SDL_Event.SDL_KEYDOWN k]))
        pad_data count).2.1.Buttons &&& b = b ∧
      (ctrlReadBufferPositive (processEvents s (before ++ [SDL_Event.SDL_KEYUP k]))
        pad_data count).2.1.Buttons &&& b = 0) ∧
    (∀ t : State, (ctrlReadBufferPositive t pad_data count).2.1.Buttons = t.g_current_controls ∧
      (ctrlReadBufferPositive t pad_data count).1 = t) := by
  have hesc : k ≠ SDL_Scancode.ESCAPE := by
    intro he
    subst he
    simp [g_key_mappings] at hmem
  refine ⟨⟨?_, ?_⟩, fun t => ⟨rfl, rfl⟩⟩
  · simp only [ctrlReadBufferPositive, processEvents, List.foldl_append, List.foldl,
      processEvent, if_neg hesc, mappingLoop_mapped _ k b hmem hk]
    rw [Nat.land_comm]
    apply Nat.eq_of_testBit_eq
    intro i
    simp only [Nat.testBit_land, Nat.testBit_lor]
    cases b.testBit i <;> simp
  · simp only [ctrlReadBufferPositive, processEvents, List.foldl_append, List.foldl,
      processEvent, mappingLoop_mapped _ k b hmem hk]
    exact land_bitNot32_land _ b (button_lt_of_mem _ hmem)

/-- C11 (witness): with the mask `CTRL_UP`, a poll after a key-down of C reads
`CTRL_UP | CTRL_CROSS`, and a poll after the key-up of C reads `CTRL_UP` again. -/
theorem poll_observes_key_events_witness :
    ((⟨SDL_Scancode.C, CTRL_CROSS⟩ : KeyMapping) ∈ g_key_mappings ∧
      SDL_Scancode.C ≠ SDL_Scancode.UNKNOWN) ∧
    (ctrlReadBufferPositive (processEvents { blueState with g_current_controls := CTRL_UP }
        ([] ++ [SDL_Event.SDL_KEYDOWN SDL_Scancode.C]))
      ⟨0, 0, 0, 0, fun _ => 0⟩ 1).2.1.Buttons &&& CTRL_CROSS = CTRL_CROSS ∧
    (ctrlReadBufferPositive (processEvents { blueState with g_current_controls := CTRL_UP }
        ([] ++ [SDL_Event.SDL_KEYUP SDL_Scancode.C]))
      ⟨0, 0, 0, 0, fun _ => 0⟩ 1).2.1.Buttons &&& CTRL_CROSS = 0 := by
  have h := poll_observes_key_events { blueState with g_current_controls := CTRL_UP } []
    SDL_Scancode.C CTRL_CROSS ⟨0, 0, 0, 0, fun _ => 0⟩ 1 (by decide) (by decide)
  exact ⟨by decide, h.1.1, h.1.2⟩

/-- C12: for every state, every event history and every `count`,
`ctrlReadBufferPositive` reports `Lx = 128` and `Ly = 128` and returns `0`. -/
theorem poll_analog_axes_neutral (s : State) (history : List SDL_Event) (pad_data : CtrlData)
    (count : Int) :
    (ctrlReadBufferPositive (processEvents s history) pad_data count).2.1.Lx = 128 ∧
    (ctrlReadBufferPositive (processEvents s history) pad_data count).2.1.Ly = 128 ∧
    (ctrlReadBufferPositive (processEvents s history) pad_data count).2.2 = 0 :=
  ⟨rfl, rfl, rfl⟩


/-! ## Vsync pacer -/

/-- C13 (failing input): a first call at tick 0 stores 0 in `last_time`, which is
also the marker for "no call yet", so the second call, at tick 5, takes the
first-call branch again: it requests no sleep and stores 5, instead of
measuring the 5 ms elapsed since the first call and sleeping the remaining
11 ms, as "enforce 60Hz timing" asks. -/
theorem emuWaitVsync_baseline_zero_not_measured :
    (emuWaitVsync 0 0 0).last_time = 0 ∧
    emuWaitVsync (emuWaitVsync 0 0 0).last_time 5 16 = { last_time := 5, delay := none } := by
  decide

/-- What the first call of `emuWaitVsync` does on every input (static `last_time`
still 0): it requests no sleep whatever the current tick is and stores the
current tick in `last_time`; when that tick is not 0, the second call measures
the elapsed time against it: it sleeps `16 - elapsed` when `elapsed < 16`, with
`elapsed` the `Uint32` difference of its tick and the stored one. -/
theorem emuWaitVsync_first_call (now after : Nat) :
    (emuWaitVsync 0 now after).delay = none ∧
    (emuWaitVsync 0 now after).last_time = now ∧
    (now ≠ 0 → ∀ now2 after2 : Nat,
      emuWaitVsync (emuWaitVsync 0 now after).last_time now2 after2 =
        { last_time := after2
          delay := if (now2 + 2 ^ 32 - now) % 2 ^ 32 < 16 then
              some (16 - (now2 + 2 ^ 32 - now) % 2 ^ 32)
            else none }) := by
  refine ⟨rfl, rfl, ?_⟩
  intro hnow now2 after2
  have h1 : (emuWaitVsync 0 now after).last_time = now := rfl
  rw [h1]
  simp only [emuWaitVsync, if_neg hnow]
  have h16 : (1000 : Nat) / 60 = 16 := by decide
  rw [h16]
  split <;> rfl

/-- Example: a first call at tick 100, then a second call at tick 105 that
sleeps 11 ms. -/
theorem emuWaitVsync_first_call_example :
    (100 : Nat) ≠ 0 ∧
    emuWaitVsync (emuWaitVsync 0 100 100).last_time 105 116 =
      { last_time := 116, delay := some 11 } := by
  refine ⟨by decide, ?_⟩
  rw [(emuWaitVsync_first_call 100 100).2.2 (by decide) 105 116]
  decide

/-- A call of `emuWaitVsync` after the first returns at least 16 ms after the
return of the previous call, when the clock does not wrap and the sleep lasts
at least the requested time. -/
theorem emuWaitVsync_period (last_time now after : Nat) (h0 : last_time ≠ 0)
    (hle : last_time ≤ now) (hnow : now < 2 ^ 32) (hafter : now ≤ after)
    (hsleep : ∀ d, (emuWaitVsync last_time now after).delay = some d → now + d ≤ after) :
    last_time + 16 ≤ (emuWaitVsync last_time now after).last_time := by
  have h16 : (1000 : Nat) / 60 = 16 := by decide
  have hel : (now + 2 ^ 32 - last_time) % 2 ^ 32 = now - last_time := by
    have : now + 2 ^ 32 - last_time = (now - last_time) + 2 ^ 32 := by omega
    rw [this, Nat.add_mod_right]
    exact Nat.mod_eq_of_lt (by omega)
  simp only [emuWaitVsync, if_neg h0, h16, hel] at hsleep ⊢
  split
  · rename_i hlt
    have := hsleep (16 - (now - last_time)) (by rw [if_pos hlt])
    show last_time + 16 ≤ after
    omega
  · rename_i hge
    show last_time + 16 ≤ after
    omega

/-- C14 (failing input): four consecutive calls, the first at tick 100, no time
spent between the calls and every sleep lasting exactly the requested 16 ms,
return at ticks 100, 116, 132 and 148: they complete in 48 ms, less than the
3 * 1000 / 60 = 50 ms of three 60 Hz frame periods. -/
theorem emuWaitVsync_four_calls_in_48_ms :
    vsyncCalls 0 [(100, 100), (100, 116), (116, 132), (132, 148)] =
      [ { last_time := 100, delay := none }, { last_time := 116, delay := some 16 },
        { last_time := 132, delay := some 16 }, { last_time := 148, delay := some 16 } ] ∧
    60 * (148 - 100) < (4 - 1) * 1000 := by
  decide

/-- C15: `sceDisplayWaitVblankStart` with the running flag false exits the
process with status 0, without a call of `emuWaitVsync` and hence without a
sleep; with the running flag true it calls `emuWaitVsync` once and returns 0;
it never returns while the running flag is false at entry. -/
theorem sceDisplayWaitVblankStart_polls_running (s : State) (last_time now after : Nat) :
    (s.g_running = false →
      sceDisplayWaitVblankStart s last_time now after = VblankOutcome.exited 0) ∧
    (s.g_running = true →
      sceDisplayWaitVblankStart s last_time now after =
        VblankOutcome.returned 0 (emuWaitVsync last_time now after)) ∧
    (s.g_running = false → ∀ (value : Int) (pacer : VsyncResult),
      sceDisplayWaitVblankStart s last_time now after ≠ VblankOutcome.returned value pacer) := by
  refine ⟨?_, ?_, ?_⟩
  · intro h
    simp [sceDisplayWaitVblankStart, emuIsRunning, h]
  · intro h
    simp [sceDisplayWaitVblankStart, emuIsRunning, h]
  · intro h value pacer
    simp [sceDisplayWaitVblankStart, emuIsRunning, h]

/-- C15 (witness): with the flag cleared the call exits; with the flag set, a
second-call wait at tick 105 after a return at tick 100 sleeps 11 ms and returns 0. -/
theorem sceDisplayWaitVblankStart_polls_running_witness :
    (({ blueState with g_running := false } : State).g_running = false ∧
      blueState.g_running = true) ∧
    sceDisplayWaitVblankStart { blueState with g_running := false } 100 105 116 =
      VblankOutcome.exited 0 ∧
    sceDisplayWaitVblankStart blueState 100 105 116 =
      VblankOutcome.returned 0 (emuWaitVsync 100 105 116) := by
  have h1 := (sceDisplayWaitVblankStart_polls_running
    { blueState with g_running := false } 100 105 116).1 rfl
  have h2 := (sceDisplayWaitVblankStart_polls_running blueState 100 105 116).2.1 rfl
  exact ⟨⟨rfl, rfl⟩, h1, h2⟩


/-! ## Render loop -/

/-- C16 (counterexample): with the running flag set and a quit event pending,
the first loop iteration drains the event, which clears the flag, and still
calls `MikMod_Update` and `renderFrame`: a display upload after the flag has
become false. -/
theorem mainLoop_uploads_after_quit :
    (mainLoop 1 ⟨initialState, [[SDL_Event.SDL_QUIT]], []⟩).trace =
      [(LoopAction.processEvents, true), (LoopAction.MikMod_Update, false),
       (LoopAction.renderFrame, false)] := by
  rfl

theorem loopInv_step (c c1 : LoopConfig) (hinv : LoopInv c) (hstep : mainLoopStep c = some c1) :
    LoopInv c1 := by
  obtain ⟨hA, hB, hC⟩ := hinv
  unfold mainLoopStep at hstep
  by_cases hrun : c.state.g_running = true
  · rw [if_pos hrun] at hstep
    have hc1 := (Option.some.inj hstep).symm
    have hnot : (LoopAction.renderFrame, false) ∉ c.trace := by
      intro hmem
      have := (hC hmem).2
      rw [hrun] at this
      cases this
    have hcount : List.count (LoopAction.renderFrame, false) c.trace = 0 :=
      List.count_eq_zero.mpr hnot
    subst hc1
    refine ⟨?_, ?_, ?_⟩
    · intro flag hmem
      simp only [List.mem_append, List.mem_cons, Prod.mk.injEq, List.mem_singleton,
        List.not_mem_nil, or_false] at hmem
      rcases hmem with h | h | h | h
      · exact hA flag h
      · rw [h.2, hrun]
      · exact absurd h.1 (by decide)
      · exact absurd h.1 (by decide)
    · simp only [List.count_append, hcount, Nat.zero_add, hrun]
      cases (processEvents c.state (c.pending.headD [])).g_running <;> decide
    · intro hmem
      simp only [List.mem_append, List.mem_cons, Prod.mk.injEq, List.mem_singleton,
        List.not_mem_nil, or_false] at hmem
      have hflag : (processEvents c.state (c.pending.headD [])).g_running = false := by
        rcases hmem with h | h | h | h
        · exact absurd h hnot
        · exact absurd h.1 (by decide)
        · exact absurd h.1 (by decide)
        · exact h.2.symm
      refine ⟨?_, hflag⟩
      simp only [hflag]
      rw [List.getLast?_append]
      rfl
  · rw [if_neg hrun] at hstep
    cases hstep

theorem loopInv_mainLoop (n : Nat) : ∀ c : LoopConfig, LoopInv c → LoopInv (mainLoop n c) := by
  induction n with
  | zero => intro c h; exact h
  | succ n ih =>
    intro c h
    unfold mainLoop
    cases hstep : mainLoopStep c with
    | none => exact h
    | some c1 => exact ih c1 (loopInv_step c c1 h hstep)

/-- C16 (amended): in every run of the render loop of `main` (any start state,
any events, any number of iterations), no iteration is started once the
running flag is false; the iteration whose `processEvents` drains a quit or
Escape event still performs its display upload, so at most one `renderFrame`
is made with the flag false, and when there is one it is the last call of the
loop. -/
theorem mainLoop_at_most_one_upload_after_stop (n : Nat) (s : State)
    (pending : List (List SDL_Event)) :
    (∀ flag, (LoopAction.processEvents, flag) ∈ (mainLoop n ⟨s, pending, []⟩).trace →
      flag = true) ∧
    List.count (LoopAction.renderFrame, false) (mainLoop n ⟨s, pending, []⟩).trace ≤ 1 ∧
    ((LoopAction.renderFrame, false) ∈ (mainLoop n ⟨s, pending, []⟩).trace →
      (mainLoop n ⟨s, pending, []⟩).trace.getLast? = some (LoopAction.renderFrame, false) ∧
      (mainLoop n ⟨s, pending, []⟩).state.g_running = false ∧
      mainLoopStep (mainLoop n ⟨s, pending, []⟩) = none) := by
  have h : LoopInv (mainLoop n ⟨s, pending, []⟩) :=
    loopInv_mainLoop n ⟨s, pending, []⟩
      ⟨fun flag hmem => (by cases hmem), (by simp), fun hmem => (by cases hmem)⟩
  refine ⟨h.1, h.2.1, fun hmem => ?_⟩
  obtain ⟨h1, h2⟩ := h.2.2 hmem
  refine ⟨h1, h2, ?_⟩
  simp [mainLoopStep, h2]

/-- C16 (witness): with a quit event pending in the second iteration and five
iterations allowed, the loop stops after the second upload, made with the flag
false. -/
theorem mainLoop_at_most_one_upload_after_stop_witness :
    (LoopAction.renderFrame, false) ∈
      (mainLoop 5 ⟨initialState, [[], [SDL_Event.SDL_QUIT]], []⟩).trace ∧
    (mainLoop 5 ⟨initialState, [[], [SDL_Event.SDL_QUIT]], []⟩).trace.getLast? =
      some (LoopAction.renderFrame, false) ∧
    (mainLoop 5 ⟨initialState, [[], [SDL_Event.SDL_QUIT]], []⟩).state.g_running = false ∧
    mainLoopStep (mainLoop 5 ⟨initialState, [[], [SDL_Event.SDL_QUIT]], []⟩) = none := by
  have hmem : (LoopAction.renderFrame, false) ∈
      (mainLoop 5 ⟨initialState, [[], [SDL_Event.SDL_QUIT]], []⟩).trace := by
    have : (mainLoop 5 ⟨initialState, [[], [SDL_Event.SDL_QUIT]], []⟩).trace =
        [(LoopAction.processEvents, true), (LoopAction.MikMod_Update, true),
         (LoopAction.renderFrame, true), (LoopAction.processEvents, true),
         (LoopAction.MikMod_Update, false), (LoopAction.renderFrame, false)] := rfl
    rw [this]
    decide
  exact ⟨hmem, (mainLoop_at_most_one_upload_after_stop 5 initialState
    [[], [SDL_Event.SDL_QUIT]]).2.2 hmem⟩


/-! ## Script thread and running flag -/

/-- C17: whatever `runScript` returns (no error message, or an error message
after a load or runtime failure), `luaThread` calls `uninitSound` after it and
only then clears the running flag; the error message reaches nothing else:
two scripts with the same effect on the globals give the same result whatever
their messages. -/
theorem luaThread_stops_audio_then_clears_flag (script : State → State × Option String)
    (s : State) :
    (luaThread script s).2 =
      [ThreadAction.runScript, ThreadAction.uninitSound, ThreadAction.clearRunning] ∧
    (luaThread script s).1 = { (script s).1 with g_running := false } ∧
    (luaThread script s).1.g_running = false ∧
    (∀ script2 : State → State × Option String, (script2 s).1 = (script s).1 →
      luaThread script2 s = luaThread script s) := by
  refine ⟨rfl, rfl, rfl, ?_⟩
  intro script2 h
  simp only [luaThread, h]

/-- C17 (witness): a script that fails with a message and one that returns
without, both leaving the globals alone, give the same result. -/
theorem luaThread_stops_audio_then_clears_flag_witness :
    luaThread (fun t => (t, some "error")) blueState = luaThread (fun t => (t, none)) blueState :=
  (luaThread_stops_audio_then_clears_flag (fun t => (t, none)) blueState).2.2.2
    (fun t => (t, some "error")) rfl

theorem processEvent_keeps_stopped (s : State) (event : SDL_Event)
    (h : s.g_running = false) : (processEvent s event).g_running = false := by
  cases event with
  | SDL_QUIT => rfl
  | SDL_KEYDOWN scancode =>
    simp only [processEvent]
    split
    · rfl
    · exact h
  | SDL_KEYUP scancode => exact h
  | ignored => exact h

theorem processEvents_keeps_stopped (events : List SDL_Event) :
    ∀ s : State, s.g_running = false → (processEvents s events).g_running = false := by
  induction events with
  | nil => intro s h; exact h
  | cons e rest ih =>
    intro s h
    exact ih (processEvent s e) (processEvent_keeps_stopped s e h)

theorem apply_keeps_stopped (op : Operation) (s t : State) (h : s.g_running = false)
    (hop : op.apply s = some t) : t.g_running = false := by
  cases op with
  | processEvents events =>
    cases hop
    exact processEvents_keeps_stopped events s h
  | emuFlipBuffers => cases hop; exact h
  | sceGuClearColor color => cases hop; exact h
  | sceGuClear flags =>
    simp only [Operation.apply, sceGuClear, Option.map_eq_some'] at hop
    obtain ⟨d, _, rfl⟩ := hop
    exact h
  | sceGuTexImage mipmap width height tbw tbp => cases hop; exact h
  | sceGuDrawArray prim vtype count v0 v1 =>
    simp only [Operation.apply, sceGuDrawArray, Option.map_eq_some'] at hop
    obtain ⟨d, _, rfl⟩ := hop
    exact h
  | ctrlReadBufferPositive pad_data count => cases hop; exact h
  | luaThreadEnd => cases hop; rfl
  | mainLoopEnd => cases hop; rfl

/-- C18: the running flag is true at startup; a quit event or an Escape
key-down sets it to false, and an Escape key-down changes no button bit; no
event and no other operation sets it back to true: from a state with the flag
false, every sequence of operations ends with the flag false. -/
theorem running_flag_only_falls :
    initialState.g_running = true ∧
    (∀ s : State, (processEvents s [SDL_Event.SDL_QUIT]).g_running = false ∧
      (processEvents s [SDL_Event.SDL_KEYDOWN SDL_Scancode.ESCAPE]).g_running = false ∧
      (processEvents s [SDL_Event.SDL_KEYDOWN SDL_Scancode.ESCAPE]).g_current_controls =
        s.g_current_controls) ∧
    (∀ (ops : List Operation) (s t : State), s.g_running = false →
      runOperations ops s = some t → t.g_running = false) := by
  refine ⟨rfl, fun s => ⟨rfl, rfl, rfl⟩, ?_⟩
  intro ops
  induction ops with
  | nil =>
    intro s t h hrun
    cases hrun
    exact h
  | cons op rest ih =>
    intro s t h hrun
    simp only [runOperations, Option.bind_eq_some] at hrun
    obtain ⟨u, hu, hrest⟩ := hrun
    exact ih u t (apply_keeps_stopped op s u h hu) hrest

/-- C18 (witness): after a quit event, a key-down of C, a flip and a colour
change leave the flag false. -/
theorem running_flag_only_falls_witness :
    (processEvents initialState [SDL_Event.SDL_QUIT]).g_running = false ∧
    (runOperations [Operation.processEvents [SDL_Event.SDL_KEYDOWN SDL_Scancode.C],
        Operation.emuFlipBuffers, Operation.sceGuClearColor 7]
      (processEvents initialState [SDL_Event.SDL_QUIT])).map (fun t => t.g_running) =
      some false := by
  refine ⟨rfl, ?_⟩
  have h := running_flag_only_falls.2.2
    [Operation.processEvents [SDL_Event.SDL_KEYDOWN SDL_Scancode.C],
      Operation.emuFlipBuffers, Operation.sceGuClearColor 7]
    (processEvents initialState [SDL_Event.SDL_QUIT])
  cases hr : runOperations [Operation.processEvents [SDL_Event.SDL_KEYDOWN SDL_Scancode.C],
      Operation.emuFlipBuffers, Operation.sceGuClearColor 7]
    (processEvents initialState [SDL_Event.SDL_QUIT]) with
  | none => cases hr
  | some t =>
    have := h t rfl hr
    simp only [Option.map_some', this]


/-! ## Start of `main` -/

theorem clampScale_eq (n : Int) : clampScale n = min 8 (max 1 n) := by
  unfold clampScale
  by_cases h1 : n < 1
  · rw [if_pos h1, if_neg (by decide), max_eq_left (le_of_lt h1)]
    decide
  · rw [if_neg h1]
    have h1' : 1 ≤ n := not_lt.mp h1
    rw [max_eq_right h1']
    by_cases h8 : n > 8
    · rw [if_pos h8, min_eq_left (le_of_lt h8)]
    · rw [if_neg h8, min_eq_right (not_lt.mp h8)]

theorem clampScale_range (n : Int) : 1 ≤ clampScale n ∧ clampScale n ≤ 8 := by
  unfold clampScale
  by_cases h1 : n < 1
  · rw [if_pos h1, if_neg (by decide)]
    decide
  · rw [if_neg h1]
    by_cases h8 : n > 8
    · rw [if_pos h8]
      decide
    · rw [if_neg h8]
      omega

/-- Accepted arguments leave `g_scale` inside `[1, 8]` when it starts there. -/
theorem parseArguments_range (atoi : String → Int) :
    ∀ (k : Nat) (args : List String), args.length ≤ k → ∀ (g scale : Int) (script : String),
      1 ≤ g → g ≤ 8 → parseArguments atoi args g = Except.ok (scale, script) →
      1 ≤ scale ∧ scale ≤ 8 := by
  intro k
  induction k with
  | zero =>
    intro args hlen g scale script _ _ h
    have : args = [] := List.length_eq_zero.mp (Nat.le_zero.mp hlen)
    subst this
    simp [parseArguments] at h
  | succ k ih =>
    intro args hlen g scale script hg1 hg8 h
    match args, hlen, h with
    | [], _, h => simp [parseArguments] at h
    | arg :: rest, hlen, h =>
      unfold parseArguments at h
      by_cases hdash : arg.data.head? = some '-'
      · rw [if_pos hdash] at h
        by_cases hscale : arg = "-scale"
        · rw [if_pos hscale] at h
          match rest, hlen, h with
          | [], _, h => simp at h
          | value :: rest2, hlen, h =>
            simp only at h
            have hl : rest2.length ≤ k := by
              simp only [List.length_cons] at hlen
              omega
            exact ih rest2 hl (clampScale (atoi value)) scale script
              (clampScale_range _).1 (clampScale_range _).2 h
        · rw [if_neg hscale] at h
          cases h
      · rw [if_neg hdash] at h
        have := Except.ok.inj h
        rw [← (Prod.mk.inj this).1]
        exact ⟨hg1, hg8⟩

theorem parseArguments_script (atoi : String → Int) (script : String) (rest : List String)
    (g : Int) (hscript : script.data.head? ≠ some '-') :
    parseArguments atoi (script :: rest) g = Except.ok (g, script) := by
  rw [parseArguments.eq_def]
  simp only [if_neg hscript]

theorem parseArguments_scale (atoi : String → Int) (v : String) (rest : List String)
    (g : Int) :
    parseArguments atoi ("-scale" :: v :: rest) g =
      parseArguments atoi rest (clampScale (atoi v)) := by
  have hd : ("-scale" : String).data.head? = some '-' := by decide
  rw [parseArguments.eq_def]
  simp only [if_pos hd, if_true]

/-- A run of `-scale v` options followed by a script path yields the clamped
value of the last option, or the scale it started with when there is none. -/
theorem parseArguments_scaleOptions (atoi : String → Int) (script : String)
    (rest : List String) (hscript : script.data.head? ≠ some '-') :
    ∀ (values : List String) (g : Int),
      parseArguments atoi (scaleOptions values ++ script :: rest) g =
        Except.ok (match values.getLast? with
          | none => g
          | some v => clampScale (atoi v), script) := by
  intro values
  induction values with
  | nil =>
    intro g
    exact parseArguments_script atoi script rest g hscript
  | cons v vs ih =>
    intro g
    have hstep : parseArguments atoi (scaleOptions (v :: vs) ++ script :: rest) g =
        parseArguments atoi (scaleOptions vs ++ script :: rest) (clampScale (atoi v)) :=
      parseArguments_scale atoi v (scaleOptions vs ++ script :: rest) g
    rw [hstep, ih (clampScale (atoi v))]
    cases vs with
    | nil => rfl
    | cons w ws =>
      have h1 : (v :: w :: ws).getLast? = (w :: ws).getLast? := by
        simp [List.getLast?_cons_cons]
      have h2 : (w :: ws).getLast? = some ((w :: ws).getLast (by simp)) :=
        List.getLast?_eq_getLast _ _
      rw [h1, h2]

/-- C19: for every argument vector that the option loop of `main` accepts, the
resulting display scale lies in `[1, 8]`; for options `-scale N` followed by
the script path it is `min 8 (max 1 n)` with `n` the `atoi` value of the last
such option, and it is 2 when no `-scale` option is given. -/
theorem display_scale_clamped (atoi : String → Int) :
    (∀ (args : List String) (scale : Int) (script : String),
      parseArguments atoi args 2 = Except.ok (scale, script) → 1 ≤ scale ∧ scale ≤ 8) ∧
    (∀ (values : List String) (script : String) (rest : List String),
      script.data.head? ≠ some '-' →
      parseArguments atoi (scaleOptions values ++ script :: rest) 2 =
        Except.ok (match values.getLast? with
          | none => 2
          | some v => min 8 (max 1 (atoi v)), script)) := by
  constructor
  · intro args scale script h
    exact parseArguments_range atoi args.length args (le_refl _) 2 scale script
      (by decide) (by decide) h
  · intro values script rest hscript
    rw [parseArguments_scaleOptions atoi script rest hscript values 2]
    cases values.getLast? with
    | none => rfl
    | some v => simp only [clampScale_eq]

/-- C19 (witness): with an `atoi` that yields the length of its argument, the
arguments `-scale 1234567890 -scale abc game.lua` give scale 3, and
`game.lua` alone gives scale 2. -/
theorem display_scale_clamped_witness :
    (("game.lua" : String).data.head? ≠ some '-') ∧
    parseArguments (fun a => a.length)
      (scaleOptions ["1234567890", "abc"] ++ "game.lua" :: []) 2 = Except.ok (3, "game.lua") ∧
    parseArguments (fun a => a.length) (scaleOptions [] ++ "game.lua" :: []) 2 =
      Except.ok (2, "game.lua") := by
  have h := (display_scale_clamped (fun a => a.length)).2
  refine ⟨by decide, ?_, ?_⟩
  · rw [h ["1234567890", "abc"] "game.lua" [] (by decide)]
    rfl
  · rw [h [] "game.lua" [] (by decide)]
    rfl

/-- C20 (counterexample): when every SDL step succeeds and `MikMod_Init` fails,
`initSound` returns after `MikMod_Init` and `main` goes on to `initGraphics`
and `pthread_create`: the script thread is created although audio
initialisation failed. -/
theorem mainStartup_continues_after_audio_failure :
    mainStartup
        { sdlInit := true, createWindow := true, createRenderer := true,
          createTexture := true, mikmodInit := false } =
      StartupResult.threadStarted
        [StartupAction.SDL_Init, StartupAction.SDL_CreateWindow,
         StartupAction.SDL_CreateRenderer, StartupAction.SDL_RenderSetLogicalSize,
         StartupAction.SDL_CreateTexture, StartupAction.MikMod_Init,
         StartupAction.initGraphics, StartupAction.pthread_create] := by
  rfl

/-- C20 (amended): whenever `SDL_Init` (video and audio subsystems),
`SDL_CreateWindow`, `SDL_CreateRenderer` or `SDL_CreateTexture` fails, `main`
returns 1 having called neither `initSound`, `initGraphics` nor
`pthread_create`: no script thread is created. -/
theorem mainStartup_aborts_on_sdl_failure (o : InitOutcomes)
    (h : o.sdlInit = false ∨ o.createWindow = false ∨ o.createRenderer = false ∨
      o.createTexture = false) :
    ∃ calls, mainStartup o = StartupResult.returned 1 calls ∧
      StartupAction.pthread_create ∉ calls ∧ StartupAction.MikMod_Init ∉ calls ∧
      StartupAction.initGraphics ∉ calls := by
  obtain ⟨a, b, c, d, e⟩ := o
  simp only at h
  cases a <;> cases b <;> cases c <;> cases d <;> simp at h <;>
    exact ⟨_, rfl, by decide, by decide, by decide⟩

/-- C20 (witness): a failing `SDL_CreateRenderer` makes `main` return 1 without
a call of `pthread_create`. -/
theorem mainStartup_aborts_on_sdl_failure_witness :
    (true = false ∨ true = false ∨ false = false ∨ true = false) ∧
    ∃ calls,
      mainStartup { sdlInit := true, createWindow := true, createRenderer := false,
                    createTexture := true, mikmodInit := true } =
        StartupResult.returned 1 calls ∧
      StartupAction.pthread_create ∉ calls ∧ StartupAction.MikMod_Init ∉ calls ∧
      StartupAction.initGraphics ∉ calls :=
  ⟨by decide, mainStartup_aborts_on_sdl_failure
    { sdlInit := true, createWindow := true, createRenderer := false,
      createTexture := true, mikmodInit := true } (by decide)⟩


/-! ## Flip atomicity -/

theorem processEvent_buffers (s : State) (e : SDL_Event) :
    (processEvent s e).g_render_buffer = s.g_render_buffer ∧
    getVramDrawBuffer (processEvent s e) = getVramDrawBuffer s := by
  cases e with
  | SDL_QUIT => exact ⟨rfl, rfl⟩
  | SDL_KEYDOWN scancode =>
    simp only [processEvent]
    split <;> exact ⟨rfl, rfl⟩
  | SDL_KEYUP scancode => exact ⟨rfl, rfl⟩
  | ignored => exact ⟨rfl, rfl⟩

theorem processEvents_buffers (events : List SDL_Event) :
    ∀ s : State, (processEvents s events).g_render_buffer = s.g_render_buffer ∧
      getVramDrawBuffer (processEvents s events) = getVramDrawBuffer s := by
  induction events with
  | nil => intro s; exact ⟨rfl, rfl⟩
  | cons e rest ih =>
    intro s
    have h1 := processEvent_buffers s e
    have h2 := ih (processEvent s e)
    exact ⟨h2.1.trans h1.1, h2.2.trans h1.2⟩

/-- No call of the script other than the flip touches the render buffer. -/
theorem scriptCall_render (op : Operation) (s t : State) (hop : op.apply s = some t)
    (hsc : op.isScriptCall = true) : t.g_render_buffer = s.g_render_buffer := by
  cases op with
  | processEvents events => cases hsc
  | emuFlipBuffers => cases hsc
  | sceGuClearColor color => cases hop; rfl
  | sceGuClear flags =>
    simp only [Operation.apply, sceGuClear, Option.map_eq_some'] at hop
    obtain ⟨d, _, rfl⟩ := hop
    rfl
  | sceGuTexImage mipmap width height tbw tbp => cases hop; rfl
  | sceGuDrawArray prim vtype count v0 v1 =>
    simp only [Operation.apply, sceGuDrawArray, Option.map_eq_some'] at hop
    obtain ⟨d, _, rfl⟩ := hop
    rfl
  | ctrlReadBufferPositive pad_data count => cases hop; rfl
  | luaThreadEnd => cases hsc
  | mainLoopEnd => cases hsc

theorem Buffer.eq_of_read_nat {n : Nat} {b b' : Buffer n}
    (h : ∀ j : Nat, j < n → b.read (j : Int) = b'.read (j : Int)) : b = b' := by
  apply Buffer.ext_read
  intro j
  by_cases hj : 0 ≤ j ∧ j < n
  · have := h j.toNat (by omega)
    have e : ((j.toNat : Nat) : Int) = j := by omega
    rw [e] at this
    exact this
  · rw [Buffer.read_eq_none b j hj, Buffer.read_eq_none b' j hj]

theorem initialThreads_inv (s : State) : ThreadsInv (initialThreads s) := by
  refine ⟨?_, ?_, ?_, ?_⟩
  · intro k hk
    cases hk
  · intro k hk
    cases hk
  · intro _
    rfl
  · intro p hp
    cases hp

/-- Every enabled step preserves the invariant. -/
theorem threadStep_inv (c c' : Threads) (st : Step) (hinv : ThreadsInv c)
    (h : threadStep c st = some c') : ThreadsInv c' := by
  obtain ⟨h1, h2, h3, h4⟩ := hinv
  cases st with
  | script op =>
    cases hpc : c.flipPc with
    | outside =>
      simp only [threadStep, hpc] at h
      split at h
      · rename_i hsc
        simp only [Option.map_eq_some'] at h
        obtain ⟨t, ht, rfl⟩ := h
        have hr : t.g_render_buffer = c.state.g_render_buffer :=
          scriptCall_render op c.state t ht hsc
        refine ⟨?_, ?_, ?_, h4⟩
        · intro k hk
          cases hk
        · intro k hk
          obtain ⟨a, b, d⟩ := h2 k hk
          refine ⟨a, b, ?_⟩
          intro j hj
          show t.g_render_buffer.read _ = _
          rw [hr]
          exact d j hj
        · intro _
          show c.frames.getLast? = some t.g_render_buffer
          rw [hr]
          exact h3 (by intro k hk2; rw [hpc] at hk2; cases hk2)
      · cases h
    | copying k => simp [threadStep, hpc] at h
    | unlocked => simp [threadStep, hpc] at h
  | flipLock =>
    cases hpc : c.flipPc with
    | outside =>
      cases hmx : c.mutex with
      | none =>
        simp only [threadStep, hpc, hmx] at h
        cases h
        refine ⟨?_, ?_, ?_, h4⟩
        · intro k hk
          cases hk
          exact ⟨rfl, Nat.zero_le _, fun j hj => absurd hj (Nat.not_lt_zero j)⟩
        · intro k hk
          have := (h2 k hk).1
          rw [hmx] at this
          cases this
        · intro hk
          exact absurd rfl (hk 0)
      | some t => simp [threadStep, hpc, hmx] at h
    | copying k => simp [threadStep, hpc] at h
    | unlocked => simp [threadStep, hpc] at h
  | flipCopy =>
    cases hpc : c.flipPc with
    | outside => simp [threadStep, hpc] at h
    | copying k =>
      obtain ⟨hm, hk, hcp⟩ := h1 k hpc
      simp only [threadStep, hpc] at h
      split at h
      · rename_i hlt
        simp only [Option.bind_eq_some, Option.map_eq_some'] at h
        obtain ⟨color, hcol, r, hr, rfl⟩ := h
        refine ⟨?_, ?_, ?_, h4⟩
        · intro k2 hk2
          cases hk2
          refine ⟨hm, hlt, ?_⟩
          intro j hj
          show r.read (j : Int) = (getVramDrawBuffer c.state).read (j : Int)
          rw [Buffer.read_write hr]
          by_cases hjk : j = k
          · subst hjk
            rw [if_pos rfl]
            exact hcol.symm
          · rw [if_neg (by omega)]
            exact hcp j (by omega)
        · intro k2 hk2
          have := (h2 k2 hk2).1
          rw [hm] at this
          cases this
        · intro hk2
          exact absurd rfl (hk2 (k + 1))
      · cases h
    | unlocked => simp [threadStep, hpc] at h
  | flipUnlock =>
    cases hpc : c.flipPc with
    | outside => simp [threadStep, hpc] at h
    | copying k =>
      obtain ⟨hm, hk, hcp⟩ := h1 k hpc
      simp only [threadStep, hpc] at h
      split at h
      · rename_i hkeq
        cases h
        have hall : c.state.g_render_buffer = getVramDrawBuffer c.state :=
          Buffer.eq_of_read_nat (fun j hj => hcp j (by rw [hkeq]; exact hj))
        refine ⟨?_, ?_, ?_, ?_⟩
        · intro k2 hk2
          cases hk2
        · intro k2 hk2
          have := (h2 k2 hk2).1
          rw [hm] at this
          cases this
        · intro _
          show (c.frames ++ [getVramDrawBuffer c.state]).getLast? = some c.state.g_render_buffer
          rw [hall]
          simp
        · intro p hp
          obtain ⟨f, hf, hs⟩ := h4 p hp
          exact ⟨f, List.mem_append_left _ hf, hs⟩
      · cases h
    | unlocked => simp [threadStep, hpc] at h
  | flipToggle =>
    cases hpc : c.flipPc with
    | outside => simp [threadStep, hpc] at h
    | copying k => simp [threadStep, hpc] at h
    | unlocked =>
      simp only [threadStep, hpc] at h
      cases h
      refine ⟨?_, ?_, ?_, h4⟩
      · intro k hk
        cases hk
      · intro k hk
        exact h2 k hk
      · intro _
        exact h3 (by intro k hk2; rw [hpc] at hk2; cases hk2)
  | processEvents events =>
    cases hpc : c.showPc with
    | outside =>
      simp only [threadStep, hpc] at h
      cases h
      have hb := processEvents_buffers events c.state
      refine ⟨?_, ?_, ?_, h4⟩
      · intro k hk
        obtain ⟨a, b, d⟩ := h1 k hk
        refine ⟨a, b, ?_⟩
        intro j hj
        show (processEvents c.state events).g_render_buffer.read (j : Int) =
          (getVramDrawBuffer (processEvents c.state events)).read (j : Int)
        rw [hb.1, hb.2]
        exact d j hj
      · intro k hk
        cases hk
      · intro hk
        show c.frames.getLast? = some (processEvents c.state events).g_render_buffer
        rw [hb.1]
        exact h3 hk
    | copying k => simp [threadStep, hpc] at h
  | showLock =>
    cases hpc : c.showPc with
    | outside =>
      cases hmx : c.mutex with
      | none =>
        simp only [threadStep, hpc, hmx] at h
        cases h
        refine ⟨?_, ?_, h3, h4⟩
        · intro k hk
          have := (h1 k hk).1
          rw [hmx] at this
          cases this
        · intro k hk
          cases hk
          exact ⟨rfl, Nat.zero_le _, fun j hj => absurd hj (Nat.not_lt_zero j)⟩
      | some t => simp [threadStep, hpc, hmx] at h
    | copying k => simp [threadStep, hpc] at h
  | showCopy =>
    cases hpc : c.showPc with
    | outside => simp [threadStep, hpc] at h
    | copying k =>
      obtain ⟨hm, hk, hcp⟩ := h2 k hpc
      simp only [threadStep, hpc] at h
      split at h
      · rename_i hlt
        simp only [Option.map_eq_some'] at h
        obtain ⟨color, hcol, rfl⟩ := h
        refine ⟨?_, ?_, h3, h4⟩
        · intro k2 hk2
          have := (h1 k2 hk2).1
          rw [hm] at this
          cases this
        · intro k2 hk2
          cases hk2
          refine ⟨hm, hlt, ?_⟩
          intro j hj
          show c.state.g_render_buffer.read _ = some (Function.update c.pixels k color j)
          by_cases hjk : j = k
          · subst hjk
            rw [Function.update_same]
            exact hcol
          · rw [Function.update_noteq hjk]
            exact hcp j (by omega)
      · cases h
  | showUnlock =>
    cases hpc : c.showPc with
    | outside => simp [threadStep, hpc] at h
    | copying k =>
      obtain ⟨hm, hk, hcp⟩ := h2 k hpc
      simp only [threadStep, hpc] at h
      split at h
      · rename_i hkeq
        cases h
        have hnc : ∀ n, c.flipPc ≠ FlipPc.copying n := by
          intro n hn
          have := (h1 n hn).1
          rw [hm] at this
          cases this
        have hlast := h3 hnc
        have hmem : c.state.g_render_buffer ∈ c.frames := List.mem_of_mem_getLast? hlast
        refine ⟨?_, ?_, h3, ?_⟩
        · intro k2 hk2
          exact absurd hk2 (hnc k2)
        · intro k2 hk2
          cases hk2
        · intro p hp
          rcases List.mem_append.mp hp with hp | hp
          · exact h4 p hp
          · rw [List.mem_singleton] at hp
            subst hp
            refine ⟨c.state.g_render_buffer, hmem, ?_⟩
            intro x y hx hy
            have hj := hcp (x + y * PLATFORM_SCREEN_WIDTH) (by
              rw [hkeq]
              simp only [PLATFORM_SCREEN_WIDTH, PLATFORM_SCREEN_HEIGHT] at *
              omega)
            have e1 : (x + y * PLATFORM_SCREEN_WIDTH) % PLATFORM_SCREEN_WIDTH = x := by
              simp only [PLATFORM_SCREEN_WIDTH] at *
              omega
            have e2 : (x + y * PLATFORM_SCREEN_WIDTH) / PLATFORM_SCREEN_WIDTH = y := by
              simp only [PLATFORM_SCREEN_WIDTH] at *
              omega
            rw [e1, e2] at hj
            exact hj
      · cases h

theorem runThreads_inv (steps : List Step) :
    ∀ c c' : Threads, ThreadsInv c → runThreads steps c = some c' → ThreadsInv c' := by
  induction steps with
  | nil =>
    intro c c' hinv h
    cases h
    exact hinv
  | cons st rest ih =>
    intro c c' hinv h
    simp only [runThreads, Option.bind_eq_some] at h
    obtain ⟨c1, h1, h2⟩ := h
    exact ih c1 c' (threadStep_inv c c1 st hinv h1) h2

theorem runThreads_cons (st : Step) (rest : List Step) (c : Threads) :
    runThreads (st :: rest) c = (threadStep c st).bind (runThreads rest) := rfl

theorem runThreads_append (a b : List Step) :
    ∀ c : Threads, runThreads (a ++ b) c = (runThreads a c).bind (runThreads b) := by
  induction a with
  | nil => intro c; rfl
  | cons st rest ih =>
    intro c
    rw [List.cons_append, runThreads_cons, runThreads_cons, Option.bind_assoc]
    congr 1
    funext c1
    exact ih c1

/-- A call of the script outside `emuFlipBuffers` that does not fault is enabled. -/
theorem threadStep_script (c : Threads) (op : Operation) (t : State)
    (hpc : c.flipPc = FlipPc.outside) (hsc : op.isScriptCall = true)
    (hop : op.apply c.state = some t) :
    threadStep c (Step.script op) = some { c with state := t } := by
  simp only [threadStep, hpc, hsc, if_true, hop, Option.map_some']

/-- The texel copies of a flip that are left can all be taken, one after the other. -/
theorem runThreads_flipCopies (n : Nat) :
    ∀ (c : Threads) (k : Nat), c.flipPc = FlipPc.copying k →
      k + n ≤ PLATFORM_LINE_SIZE * PLATFORM_SCREEN_HEIGHT →
      ∃ r, runThreads (List.replicate n Step.flipCopy) c =
        some { c with state := { c.state with g_render_buffer := r },
                      flipPc := FlipPc.copying (k + n) } := by
  induction n with
  | zero =>
    intro c k hpc _
    refine ⟨c.state.g_render_buffer, ?_⟩
    cases c with
    | mk state mutex flipPc showPc pixels frames snapshots =>
      simp only at hpc
      subst hpc
      rfl
  | succ n ih =>
    intro c k hpc hk
    have hr : (0 : Int) ≤ (k : Int) ∧ (k : Int) < (FB_SIZE : Nat) := by
      simp only [FB_SIZE]
      omega
    obtain ⟨color, hcol⟩ := Buffer.read_of_inRange (getVramDrawBuffer c.state) k hr
    obtain ⟨r1, hr1⟩ := Buffer.write_of_inRange c.state.g_render_buffer k color hr
    have hstep : threadStep c Step.flipCopy =
        some { c with state := { c.state with g_render_buffer := r1 },
                      flipPc := FlipPc.copying (k + 1) } := by
      simp only [threadStep, hpc]
      rw [if_pos (by omega), hcol, Option.some_bind, hr1, Option.map_some']
    obtain ⟨r, hrun⟩ := ih { c with state := { c.state with g_render_buffer := r1 },
                                     flipPc := FlipPc.copying (k + 1) } (k + 1) rfl (by omega)
    refine ⟨r, ?_⟩
    rw [List.replicate_succ, runThreads_cons, hstep, Option.some_bind, hrun]
    have e : k + 1 + n = k + (n + 1) := by omega
    rw [e]

/-- The pixel copies of a snapshot that are left can all be taken, one after the other. -/
theorem runThreads_showCopies (n : Nat) :
    ∀ (c : Threads) (k : Nat), c.showPc = ShowPc.copying k →
      k + n ≤ PLATFORM_SCREEN_WIDTH * PLATFORM_SCREEN_HEIGHT →
      ∃ p, runThreads (List.replicate n Step.showCopy) c =
        some { c with pixels := p, showPc := ShowPc.copying (k + n) } := by
  induction n with
  | zero =>
    intro c k hpc _
    refine ⟨c.pixels, ?_⟩
    cases c with
    | mk state mutex flipPc showPc pixels frames snapshots =>
      simp only at hpc
      subst hpc
      rfl
  | succ n ih =>
    intro c k hpc hk
    have hr : (0 : Int) ≤ ((k % PLATFORM_SCREEN_WIDTH : Nat) : Int) +
          ((k / PLATFORM_SCREEN_WIDTH : Nat) : Int) * (PLATFORM_LINE_SIZE : Nat) ∧
        ((k % PLATFORM_SCREEN_WIDTH : Nat) : Int) +
          ((k / PLATFORM_SCREEN_WIDTH : Nat) : Int) * (PLATFORM_LINE_SIZE : Nat) <
            (FB_SIZE : Nat) := by
      simp only [FB_SIZE, PLATFORM_LINE_SIZE, PLATFORM_SCREEN_WIDTH, PLATFORM_SCREEN_HEIGHT] at *
      omega
    obtain ⟨color, hcol⟩ := Buffer.read_of_inRange c.state.g_render_buffer _ hr
    have hstep : threadStep c Step.showCopy =
        some { c with pixels := Function.update c.pixels k color,
                      showPc := ShowPc.copying (k + 1) } := by
      simp only [threadStep, hpc]
      rw [if_pos (by omega), hcol, Option.map_some']
    obtain ⟨p, hrun⟩ := ih { c with pixels := Function.update c.pixels k color,
                                     showPc := ShowPc.copying (k + 1) } (k + 1) rfl (by omega)
    refine ⟨p, ?_⟩
    rw [List.replicate_succ, runThreads_cons, hstep, Option.some_bind, hrun]
    have e : k + 1 + n = k + (n + 1) := by omega
    rw [e]

/-- A flip is never stuck once the mutex is free, and its steps in program order
amount to `emuFlipBuffers`: they copy the draw buffer into the render buffer,
append it to the frames and toggle the draw buffer index. -/
theorem runThreads_flipSteps (c : Threads) (hinv : ThreadsInv c)
    (hpc : c.flipPc = FlipPc.outside) (hmx : c.mutex = none) :
    runThreads flipSteps c =
      some { c with state := emuFlipBuffers c.state,
                    frames := c.frames ++ [getVramDrawBuffer c.state] } := by
  have hlock : threadStep c Step.flipLock =
      some { c with mutex := some Thread.script, flipPc := FlipPc.copying 0 } := by
    simp only [threadStep, hpc, hmx]
  obtain ⟨r, hrun⟩ := runThreads_flipCopies (PLATFORM_LINE_SIZE * PLATFORM_SCREEN_HEIGHT)
    { c with mutex := some Thread.script, flipPc := FlipPc.copying 0 } 0 rfl (by omega)
  have hcopies : runThreads
      (Step.flipLock :: List.replicate (PLATFORM_LINE_SIZE * PLATFORM_SCREEN_HEIGHT) Step.flipCopy) c =
      some { c with state := { c.state with g_render_buffer := r },
                    mutex := some Thread.script,
                    flipPc := FlipPc.copying (0 + PLATFORM_LINE_SIZE * PLATFORM_SCREEN_HEIGHT) } := by
    rw [runThreads_cons, hlock, Option.some_bind, hrun]
  have hinv2 := runThreads_inv _ _ _ hinv hcopies
  have hrd := (hinv2.1 _ rfl).2.2
  have hr : r = getVramDrawBuffer c.state :=
    Buffer.eq_of_read_nat (fun j hj => hrd j (by
      simp only [FB_SIZE] at hj
      omega))
  unfold flipSteps
  rw [runThreads_append, hcopies, Option.some_bind, runThreads_cons]
  have hunlock : threadStep
      { c with state := { c.state with g_render_buffer := r },
               mutex := some Thread.script,
               flipPc := FlipPc.copying (0 + PLATFORM_LINE_SIZE * PLATFORM_SCREEN_HEIGHT) }
      Step.flipUnlock =
      some { c with state := { c.state with g_render_buffer := r }, mutex := none,
                    flipPc := FlipPc.unlocked,
                    frames := c.frames ++ [getVramDrawBuffer c.state] } := by
    simp only [threadStep]
    rw [if_pos (by omega)]
    rfl
  rw [hunlock, Option.some_bind, runThreads_cons]
  subst hr
  cases c with
  | mk state mutex flipPc showPc pixels frames snapshots =>
    simp only at hpc hmx
    subst hpc
    subst hmx
    rfl

/-- A snapshot is never stuck once the mutex is free: the steps of the critical
section of `renderFrame` in program order run to its end and record the
picture taken. -/
theorem runThreads_showSteps (c : Threads) (hpc : c.showPc = ShowPc.outside)
    (hmx : c.mutex = none) :
    ∃ p, runThreads showSteps c =
      some { c with pixels := p, snapshots := c.snapshots ++ [p] } := by
  have hlock : threadStep c Step.showLock =
      some { c with mutex := some Thread.main, showPc := ShowPc.copying 0 } := by
    simp only [threadStep, hpc, hmx]
  obtain ⟨p, hrun⟩ := runThreads_showCopies (PLATFORM_SCREEN_WIDTH * PLATFORM_SCREEN_HEIGHT)
    { c with mutex := some Thread.main, showPc := ShowPc.copying 0 } 0 rfl (by omega)
  refine ⟨p, ?_⟩
  unfold showSteps
  rw [runThreads_append, runThreads_cons, hlock, Option.some_bind, hrun, Option.some_bind,
    runThreads_cons]
  have hunlock : threadStep
      { c with mutex := some Thread.main, pixels := p,
               showPc := ShowPc.copying (0 + PLATFORM_SCREEN_WIDTH * PLATFORM_SCREEN_HEIGHT) }
      Step.showUnlock =
      some { c with mutex := none, pixels := p, showPc := ShowPc.outside,
                    snapshots := c.snapshots ++ [p] } := by
    simp only [threadStep]
    rw [if_pos (by omega)]
  rw [hunlock, Option.some_bind]
  cases c with
  | mk state mutex flipPc showPc pixels frames snapshots =>
    simp only at hpc hmx
    subst hpc
    subst hmx
    rfl

theorem runThreads_cons_of (st : Step) (rest : List Step) (c c1 c2 : Threads)
    (h1 : threadStep c st = some c1) (h2 : runThreads rest c1 = some c2) :
    runThreads (st :: rest) c = some c2 := by
  rw [runThreads_cons, h1, Option.some_bind, h2]

theorem runThreads_clear (c : Threads) (color : Color) (hpc : c.flipPc = FlipPc.outside) :
    runThreads [Step.script (Operation.sceGuClearColor color),
        Step.script (Operation.sceGuClear 0)] c =
      some { c with
        state := setVramDrawBuffer (sceGuClearColor c.state color) (fun _ => color) } := by
  have h1 : threadStep c (Step.script (Operation.sceGuClearColor color)) =
      some { c with state := sceGuClearColor c.state color } :=
    threadStep_script c (Operation.sceGuClearColor color) (sceGuClearColor c.state color)
      hpc rfl rfl
  have h2 : threadStep { c with state := sceGuClearColor c.state color }
      (Step.script (Operation.sceGuClear 0)) =
      some { c with
        state := setVramDrawBuffer (sceGuClearColor c.state color) (fun _ => color) } :=
    threadStep_script { c with state := sceGuClearColor c.state color } (Operation.sceGuClear 0)
      (setVramDrawBuffer (sceGuClearColor c.state color) (fun _ => color))
      hpc rfl (sceGuClear_eq (sceGuClearColor c.state color) 0)
  exact runThreads_cons_of _ _ _ _ _ h1 (runThreads_cons_of _ _ _ _ _ h2 rfl)

theorem threadStep_showLock (c : Threads) (hpc : c.showPc = ShowPc.outside)
    (hmx : c.mutex = none) :
    threadStep c Step.showLock =
      some { c with mutex := some Thread.main, showPc := ShowPc.copying 0 } := by
  simp only [threadStep, hpc, hmx]

theorem threadStep_showUnlock (c : Threads)
    (hpc : c.showPc = ShowPc.copying (PLATFORM_SCREEN_WIDTH * PLATFORM_SCREEN_HEIGHT)) :
    threadStep c Step.showUnlock =
      some { c with mutex := none, showPc := ShowPc.outside,
                    snapshots := c.snapshots ++ [c.pixels] } := by
  simp only [threadStep, hpc, if_true]

/-- The schedule `exampleSchedule` is a run from the zeroed start: it ends with
two frames and one snapshot taken. -/
theorem exampleSchedule_runs :
    ∃ c, runThreads exampleSchedule (initialThreads blueState) = some c ∧
      c.frames.length = 2 ∧ c.snapshots.length = 1 := by
  have h0 : ThreadsInv (initialThreads blueState) := initialThreads_inv blueState
  obtain ⟨c1, r1, f1, m1, s1, fr1, sn1⟩ : ∃ c1,
      runThreads [Step.script (Operation.sceGuClearColor 0xFF0000FF),
        Step.script (Operation.sceGuClear 0)] (initialThreads blueState) = some c1 ∧
      c1.flipPc = FlipPc.outside ∧ c1.mutex = none ∧ c1.showPc = ShowPc.outside ∧
      c1.frames.length = 1 ∧ c1.snapshots.length = 0 :=
    ⟨_, runThreads_clear (initialThreads blueState) 0xFF0000FF rfl, rfl, rfl, rfl, rfl, rfl⟩
  have i1 : ThreadsInv c1 := runThreads_inv _ _ _ h0 r1
  obtain ⟨c2, r2, f2, m2, s2, fr2, sn2⟩ : ∃ c2,
      runThreads flipSteps c1 = some c2 ∧
      c2.flipPc = FlipPc.outside ∧ c2.mutex = none ∧ c2.showPc = ShowPc.outside ∧
      c2.frames.length = 2 ∧ c2.snapshots.length = 0 :=
    ⟨_, runThreads_flipSteps c1 i1 f1 m1, f1, m1, s1,
      (by rw [List.length_append, fr1]; rfl), sn1⟩
  obtain ⟨p1, r4⟩ := runThreads_showCopies 1000
    { c2 with mutex := some Thread.main, showPc := ShowPc.copying 0 } 0 rfl (by decide)
  obtain ⟨c4, r34, f4, s4, fr4, sn4⟩ : ∃ c4,
      runThreads (Step.showLock :: List.replicate 1000 Step.showCopy) c2 = some c4 ∧
      c4.flipPc = FlipPc.outside ∧ c4.showPc = ShowPc.copying 1000 ∧
      c4.frames.length = 2 ∧ c4.snapshots.length = 0 :=
    ⟨_, runThreads_cons_of _ _ _ _ _ (threadStep_showLock c2 s2 m2) r4, f2, rfl, fr2, sn2⟩
  obtain ⟨c5, r5, s5, fr5, sn5⟩ : ∃ c5,
      runThreads [Step.script (Operation.sceGuClearColor 0xFFFF0000),
        Step.script (Operation.sceGuClear 0)] c4 = some c5 ∧
      c5.showPc = ShowPc.copying 1000 ∧ c5.frames.length = 2 ∧ c5.snapshots.length = 0 :=
    ⟨_, runThreads_clear c4 0xFFFF0000 f4, s4, fr4, sn4⟩
  obtain ⟨p2, r6⟩ := runThreads_showCopies
    (PLATFORM_SCREEN_WIDTH * PLATFORM_SCREEN_HEIGHT - 1000) c5 1000 s5 (by decide)
  have hsn : (c5.snapshots ++ [p2]).length = 1 := by
    rw [List.length_append, sn5]
    rfl
  obtain ⟨c7, r7, fr7, sn7⟩ : ∃ c7,
      runThreads [Step.showUnlock]
        { c5 with pixels := p2,
                  showPc := ShowPc.copying
                    (1000 + (PLATFORM_SCREEN_WIDTH * PLATFORM_SCREEN_HEIGHT - 1000)) } = some c7 ∧
      c7.frames.length = 2 ∧ c7.snapshots.length = 1 :=
    ⟨_, runThreads_cons_of _ _ _ _ _ (threadStep_showUnlock _ rfl) rfl, fr5, hsn⟩
  refine ⟨c7, ?_, fr7, sn7⟩
  simp only [exampleSchedule, runThreads_append]
  rw [r1, Option.some_bind, r2, Option.some_bind, r34, Option.some_bind, r5, Option.some_bind,
    r6, Option.some_bind, r7]

/-- A picture shows the content of the render buffer exactly when it consists of
the rows that the sequential `renderFrame` copies. -/
theorem showsFrame_iff_renderFrame (s : State) (p : Nat → Color) :
    showsFrame p s.g_render_buffer ↔
      ∀ (y : Fin PLATFORM_SCREEN_HEIGHT) (x : Fin PLATFORM_SCREEN_WIDTH),
        renderFrame s y x = p (x.val + y.val * PLATFORM_SCREEN_WIDTH) := by
  have key : ∀ (y : Fin PLATFORM_SCREEN_HEIGHT) (x : Fin PLATFORM_SCREEN_WIDTH),
      s.g_render_buffer.read ((x.val : Int) + (y.val : Int) * (PLATFORM_LINE_SIZE : Nat)) =
        some (renderFrame s y x) := by
    intro y x
    have hb : y.val * PLATFORM_LINE_SIZE + x.val < FB_SIZE := by
      have hx := x.isLt
      have hy := y.isLt
      simp only [FB_SIZE, PLATFORM_LINE_SIZE, PLATFORM_SCREEN_HEIGHT, PLATFORM_SCREEN_WIDTH] at *
      omega
    have h := Buffer.read_val s.g_render_buffer ⟨y.val * PLATFORM_LINE_SIZE + x.val, hb⟩
    have e : ((y.val * PLATFORM_LINE_SIZE + x.val : Nat) : Int) =
        (x.val : Int) + (y.val : Int) * (PLATFORM_LINE_SIZE : Nat) := by
      push_cast
      ring
    rw [← e]
    exact h
  constructor
  · intro h y x
    have h1 := h x.val y.val x.isLt y.isLt
    rw [key y x] at h1
    exact Option.some.inj h1
  · intro h x y hx hy
    have h1 := key ⟨y, hy⟩ ⟨x, hx⟩
    rw [h ⟨y, hy⟩ ⟨x, hx⟩] at h1
    exact h1

/-- C21: in every run of the script thread and the main thread from their start,
whatever the schedule of script calls, flip steps, event processing and snapshot
steps, every picture taken by a completed critical section of `renderFrame`
shows one single frame, the initial content of the render buffer or the draw
buffer copied by one completed flip: no picture mixes two frames.  While a
snapshot is copying no flip is copying, the render buffer is one of those
frames and the pixels copied so far are its texels; while a flip is copying no
snapshot is copying. -/
theorem flip_atomicity (s : State) (schedule : List Step) (c : Threads)
    (hrun : runThreads schedule (initialThreads s) = some c) :
    (∀ p ∈ c.snapshots, ∃ f ∈ c.frames, showsFrame p f) ∧
    (∀ k, c.showPc = ShowPc.copying k →
      (∀ n, c.flipPc ≠ FlipPc.copying n) ∧
      c.state.g_render_buffer ∈ c.frames ∧
      ∀ j : Nat, j < k →
        c.state.g_render_buffer.read
            ((j % PLATFORM_SCREEN_WIDTH : Nat) +
              (j / PLATFORM_SCREEN_WIDTH : Nat) * (PLATFORM_LINE_SIZE : Nat)) =
          some (c.pixels j)) ∧
    (∀ n, c.flipPc = FlipPc.copying n → ∀ k, c.showPc ≠ ShowPc.copying k) := by
  obtain ⟨h1, h2, h3, h4⟩ := runThreads_inv schedule _ c (initialThreads_inv s) hrun
  have hex : ∀ n k, c.flipPc = FlipPc.copying n → c.showPc = ShowPc.copying k → False := by
    intro n k hn hk
    have a := (h1 n hn).1
    have b := (h2 k hk).1
    rw [a] at b
    cases b
  refine ⟨h4, ?_, fun n hn k hk => hex n k hn hk⟩
  intro k hk
  have hnc : ∀ n, c.flipPc ≠ FlipPc.copying n := fun n hn => hex n k hn hk
  exact ⟨hnc, List.mem_of_mem_getLast? (h3 hnc), (h2 k hk).2.2⟩

/-- C21 (witness): the schedule `exampleSchedule`, in which the script draws the
next frame while the snapshot is being taken, is a run; it ends with two frames
and one picture, and that picture shows one of the two frames. -/
theorem flip_atomicity_witness :
    ∃ c, runThreads exampleSchedule (initialThreads blueState) = some c ∧
      c.frames.length = 2 ∧ c.snapshots.length = 1 ∧
      ∀ p ∈ c.snapshots, ∃ f ∈ c.frames, showsFrame p f := by
  obtain ⟨c, hc, hf, hs⟩ := exampleSchedule_runs
  exact ⟨c, hc, hf, hs, (flip_atomicity blueState exampleSchedule c hc).1⟩


/-! ## Mixer settings -/

/-- C22: for each of `setMusicVolume` (max 128), `setSFXVolume` (max 128),
`setReverb` (max 15) and `setPanSep` (max 128) and every argument, a call with
`arg = 9999` leaves the settings unchanged and returns the current value, and
a call with any other `arg` stores `min arg max` in its setting, leaves the
other settings alone and returns the stored value, which is at most `max`. -/
theorem mixer_setters_clamp (m : MixerSettings) (arg : Nat) :
    (setMusicVolume m 9999 = (m, m.md_musicvolume) ∧
      setSFXVolume m 9999 = (m, m.md_sndfxvolume) ∧
      setReverb m 9999 = (m, m.md_reverb) ∧
      setPanSep m 9999 = (m, m.md_pansep)) ∧
    (arg ≠ 9999 →
      setMusicVolume m arg = ({ m with md_musicvolume := min arg 128 }, min arg 128) ∧
      setSFXVolume m arg = ({ m with md_sndfxvolume := min arg 128 }, min arg 128) ∧
      setReverb m arg = ({ m with md_reverb := min arg 15 }, min arg 15) ∧
      setPanSep m arg = ({ m with md_pansep := min arg 128 }, min arg 128) ∧
      (setMusicVolume m arg).1.md_musicvolume ≤ 128 ∧
      (setSFXVolume m arg).1.md_sndfxvolume ≤ 128 ∧
      (setReverb m arg).1.md_reverb ≤ 15 ∧
      (setPanSep m arg).1.md_pansep ≤ 128) := by
  refine ⟨⟨rfl, rfl, rfl, rfl⟩, ?_⟩
  intro h
  have h128 : (if arg > 128 then 128 else arg) % 256 = min arg 128 := by
    split <;> omega
  have h15 : (if arg > 15 then 15 else arg) % 256 = min arg 15 := by
    split <;> omega
  simp only [setMusicVolume, setSFXVolume, setReverb, setPanSep, if_pos h, h128, h15]
  refine ⟨trivial, trivial, trivial, trivial, ?_, ?_, ?_, ?_⟩ <;> omega

/-- C22 (witness): from the settings of `initSound`, `setReverb 200` stores and
returns 15, and `setMusicVolume 64` stores and returns 64. -/
theorem mixer_setters_clamp_witness :
    ((200 : Nat) ≠ 9999 ∧ (64 : Nat) ≠ 9999) ∧
    setReverb ⟨96, 128, 0, 128⟩ 200 = (⟨96, 128, 15, 128⟩, 15) ∧
    setMusicVolume ⟨96, 128, 0, 128⟩ 64 = (⟨64, 128, 0, 128⟩, 64) := by
  have h1 := ((mixer_setters_clamp ⟨96, 128, 0, 128⟩ 200).2 (by decide)).2.2.1
  have h2 := ((mixer_setters_clamp ⟨96, 128, 0, 128⟩ 64).2 (by decide)).1
  exact ⟨by decide, h1, h2⟩


/-! ## Texture sampling -/

/-- C23 (counterexample): `sceGuDrawArray` has no bounds test on the source.  With
the 2x2 texture bound, a 2x2 draw from source offset (1, 1) reads
`currentTexture[1 + 1 + (0 + 1) * 2]`, index 4 of 4 texels; with no texture
bound (null pointer) a 1x1 draw reads through the null pointer.  Both calls
fault. -/
theorem sceGuDrawArray_reads_outside_texture :
    sceGuDrawArray blueState 0 0 0 ⟨1, 1, 0, 0, 0⟩ ⟨3, 3, 2, 2, 0⟩ = none ∧
    sceGuDrawArray initialState 0 0 0 ⟨0, 0, 0, 0, 0⟩ ⟨1, 1, 1, 1, 0⟩ = none := by
  constructor
  · rfl
  · rfl

/-- C23 (amended): `sceGuDrawArray` does not test its source coordinates; when a
texture whose memory holds at least `width * height` texels has been bound with
that width and height and the source rectangle of the draw lies inside these
dimensions (`u + w ≤ width`, `v + h ≤ height`), every sample index lies inside
the `width * height` texels and the sample is read without a fault, wherever
the destination rectangle lies and whatever the draw buffer holds at that
moment; the call as a whole returns when, in addition, every store lies inside
the back buffer array. -/
theorem sceGuDrawArray_samples_inside (s : State) (mipmap width height tbw : Int)
    (tbp : TexturePtr) (prim vtype count : Int) (v0 v1 : Vertex)
    (hsize : width * height ≤ (tbp.size : Int))
    (hu : v0.u + (v1.x - v0.x) ≤ width) (hv : v0.v + (v1.y - v0.y) ≤ height) :
    (∀ x y : Int, 0 ≤ x → x < v1.x - v0.x → 0 ≤ y → y < v1.y - v0.y →
      (0 ≤ x + v0.u + (y + v0.v) * width ∧ x + v0.u + (y + v0.v) * width < width * height) ∧
      ∀ d : Buffer FB_SIZE,
        ∃ c, readTexture (sceGuTexImage s mipmap width height tbw tbp) d
          (x + v0.u + (y + v0.v) *
            (sceGuTexImage s mipmap width height tbw tbp).currentTextureWidth) = some c) ∧
    ((∀ x y : Int, 0 ≤ x → x < v1.x - v0.x → 0 ≤ y → y < v1.y - v0.y →
        0 ≤ x + v0.x + (y + v0.y) * PLATFORM_LINE_SIZE ∧
        x + v0.x + (y + v0.y) * PLATFORM_LINE_SIZE < FB_SIZE) →
      ∃ s', sceGuDrawArray (sceGuTexImage s mipmap width height tbw tbp) prim vtype count
        v0 v1 = some s') := by
  have hin : ∀ x y : Int, 0 ≤ x → x < v1.x - v0.x → 0 ≤ y → y < v1.y - v0.y →
      0 ≤ x + v0.u + (y + v0.v) * width ∧
      x + v0.u + (y + v0.v) * width < ((width * height).toNat : Nat) := by
    intro x y h1 h2 h3 h4
    have hw : 0 ≤ width := by omega
    have hh : 0 ≤ height := by omega
    have hwh : 0 ≤ width * height := mul_nonneg hw hh
    exact stride_index_inRange (width * height).toNat width v0.u v0.v (v1.x - v0.x)
      (v1.y - v0.y) x y (by omega) (by omega) hu
      (by
        rw [Int.toNat_of_nonneg hwh, mul_comm width height]
        exact mul_le_mul_of_nonneg_right hv hw)
      h1 h2 h3 h4
  have hsrc : ∀ x y : Int, 0 ≤ x → x < v1.x - v0.x → 0 ≤ y → y < v1.y - v0.y →
      0 ≤ x + v0.u + (y + v0.v) * width ∧ x + v0.u + (y + v0.v) * width < tbp.size := by
    intro x y h1 h2 h3 h4
    have h := hin x y h1 h2 h3 h4
    have hwh : 0 ≤ width * height := by
      have hw : 0 ≤ width := by omega
      have hh : 0 ≤ height := by omega
      exact mul_nonneg hw hh
    rw [Int.toNat_of_nonneg hwh] at h
    exact ⟨h.1, lt_of_lt_of_le h.2 hsize⟩
  constructor
  · intro x y h1 h2 h3 h4
    have h := hin x y h1 h2 h3 h4
    have hwh : 0 ≤ width * height := by
      have hw : 0 ≤ width := by omega
      have hh : 0 ≤ height := by omega
      exact mul_nonneg hw hh
    rw [Int.toNat_of_nonneg hwh] at h
    refine ⟨h, ?_⟩
    intro d
    exact readTexture_of_inRange (sceGuTexImage s mipmap width height tbw tbp) d _
      (hsrc x y h1 h2 h3 h4)
  · intro hdst
    obtain ⟨d, hd, _⟩ := sceGuDrawArray_frame (sceGuTexImage s mipmap width height tbw tbp)
      prim vtype count v0 v1 hdst hsrc
    exact ⟨_, hd⟩

/-- C23 (witness): with the 2x2 texture bound, the 1x1 draw from source offset
(1, 1), the last texel, to the destination (0, 0) samples index 3 of the 4
texels and returns. -/
theorem sceGuDrawArray_samples_inside_witness :
    ((2 : Int) * 2 ≤ (((TexturePtr.memory blueTexture).size : Nat) : Int) ∧
      ((1 : Nat) : Int) + (1 - 0) ≤ 2) ∧
    ((0 : Int) ≤ 0 + (1 : Nat) + (0 + (1 : Nat)) * 2 ∧
      (0 : Int) + (1 : Nat) + (0 + (1 : Nat)) * 2 < 2 * 2) ∧
    ∃ s', sceGuDrawArray (sceGuTexImage blueState 0 2 2 2 (TexturePtr.memory blueTexture)) 0 0 0
      ⟨1, 1, 0, 0, 0⟩ ⟨2, 2, 1, 1, 0⟩ = some s' :=
  ⟨by decide,
    ((sceGuDrawArray_samples_inside blueState 0 2 2 2 (TexturePtr.memory blueTexture) 0 0 0
      ⟨1, 1, 0, 0, 0⟩ ⟨2, 2, 1, 1, 0⟩ (by decide) (by decide) (by decide)).1 0 0
        (by decide) (by decide) (by decide) (by decide)).1,
    (sceGuDrawArray_samples_inside blueState 0 2 2 2 (TexturePtr.memory blueTexture) 0 0 0
      ⟨1, 1, 0, 0, 0⟩ ⟨2, 2, 1, 1, 0⟩ (by decide) (by decide) (by decide)).2
      (by
        intro x y h1 h2 h3 h4
        have h2' : x < 1 - 0 := h2
        have h4' : y < 1 - 0 := h4
        show 0 ≤ x + 0 + (y + 0) * (PLATFORM_LINE_SIZE : Int) ∧
          x + 0 + (y + 0) * (PLATFORM_LINE_SIZE : Int) < (FB_SIZE : Nat)
        simp only [FB_SIZE, PLATFORM_LINE_SIZE, PLATFORM_SCREEN_HEIGHT]
        push_cast
        omega)⟩

/-! ## Active buffer index -/

theorem apply_backBuffer (op : Operation) (s t : State) (hop : op.apply s = some t) :
    op.backBuffer (s.g_back_buffer.val : Int) = (t.g_back_buffer.val : Int) := by
  cases op with
  | processEvents events =>
    cases hop
    simp only [Operation.backBuffer]
    induction events generalizing s with
    | nil => rfl
    | cons e rest ih =>
      have he : (processEvent s e).g_back_buffer = s.g_back_buffer := by
        cases e with
        | SDL_QUIT => rfl
        | SDL_KEYDOWN scancode =>
          simp only [processEvent]
          split <;> rfl
        | SDL_KEYUP scancode => rfl
        | ignored => rfl
      rw [← he]
      exact ih (processEvent s e)
  | emuFlipBuffers =>
    cases hop
    simp only [Operation.backBuffer, emuFlipBuffers]
    generalize s.g_back_buffer = i
    revert i
    decide
  | sceGuClearColor color => cases hop; rfl
  | sceGuClear flags =>
    simp only [Operation.apply, sceGuClear, Option.map_eq_some'] at hop
    obtain ⟨d, _, rfl⟩ := hop
    rfl
  | sceGuTexImage mipmap width height tbw tbp => cases hop; rfl
  | sceGuDrawArray prim vtype count v0 v1 =>
    simp only [Operation.apply, sceGuDrawArray, Option.map_eq_some'] at hop
    obtain ⟨d, _, rfl⟩ := hop
    rfl
  | ctrlReadBufferPositive pad_data count => cases hop; rfl
  | luaThreadEnd => cases hop; rfl
  | mainLoopEnd => cases hop; rfl

theorem runOperations_backBuffer (ops : List Operation) :
    ∀ s t : State, runOperations ops s = some t →
      backBufferAfter ops (s.g_back_buffer.val : Int) = (t.g_back_buffer.val : Int) := by
  induction ops with
  | nil =>
    intro s t h
    cases h
    rfl
  | cons op rest ih =>
    intro s t h
    simp only [runOperations, Option.bind_eq_some] at h
    obtain ⟨u, hu, hrest⟩ := h
    simp only [backBufferAfter]
    rw [apply_backBuffer op s u hu]
    exact ih u t hrest

/-- C24: in every state reached from startup by a sequence of operations (flips,
draws and clears among them), the `int` variable `g_back_buffer` is 0 or 1;
`getVramDrawBuffer` and `getVramDisplayBuffer` return the frame buffers of two
different indices, and neither is the render buffer: a store through the draw
pointer changes neither the display buffer nor the render buffer; two
consecutive flips restore the index. -/
theorem back_buffer_index_invariant (ops : List Operation) (s : State)
    (hreach : runOperations ops initialState = some s) :
    (backBufferAfter ops 0 = 0 ∨ backBufferAfter ops 0 = 1) ∧
    backBufferAfter ops 0 = (s.g_back_buffer.val : Int) ∧
    getVramDrawBuffer s = s.g_framebuffer s.g_back_buffer ∧
    getVramDisplayBuffer s = s.g_framebuffer (1 - s.g_back_buffer) ∧
    s.g_back_buffer ≠ 1 - s.g_back_buffer ∧
    (∀ d : Buffer FB_SIZE,
      getVramDrawBuffer (setVramDrawBuffer s d) = d ∧
      getVramDisplayBuffer (setVramDrawBuffer s d) = getVramDisplayBuffer s ∧
      (setVramDrawBuffer s d).g_render_buffer = s.g_render_buffer) ∧
    (emuFlipBuffers (emuFlipBuffers s)).g_back_buffer = s.g_back_buffer := by
  have hidx : backBufferAfter ops 0 = (s.g_back_buffer.val : Int) :=
    runOperations_backBuffer ops initialState s hreach
  have hne : s.g_back_buffer ≠ 1 - s.g_back_buffer := by
    generalize s.g_back_buffer = i
    revert i
    decide
  have hflip : (1 : Fin 2) - (1 - s.g_back_buffer) = s.g_back_buffer := by
    generalize s.g_back_buffer = i
    revert i
    decide
  refine ⟨?_, hidx, rfl, rfl, hne, ?_, hflip⟩
  · rw [hidx]
    have := s.g_back_buffer.isLt
    omega
  · intro d
    exact ⟨getVramDrawBuffer_setVramDrawBuffer s d,
      getVramDisplayBuffer_setVramDrawBuffer s d, rfl⟩

/-- C24 (witness): after a flip, a colour change and two more flips from
startup, `g_back_buffer` is 1. -/
theorem back_buffer_index_invariant_witness :
    backBufferAfter [Operation.emuFlipBuffers, Operation.sceGuClearColor 7,
      Operation.emuFlipBuffers, Operation.emuFlipBuffers] 0 = 1 ∧
    (backBufferAfter [Operation.emuFlipBuffers, Operation.sceGuClearColor 7,
      Operation.emuFlipBuffers, Operation.emuFlipBuffers] 0 = 0 ∨
     backBufferAfter [Operation.emuFlipBuffers, Operation.sceGuClearColor 7,
      Operation.emuFlipBuffers, Operation.emuFlipBuffers] 0 = 1) :=
  ⟨by decide, (back_buffer_index_invariant [Operation.emuFlipBuffers,
    Operation.sceGuClearColor 7, Operation.emuFlipBuffers, Operation.emuFlipBuffers]
    (emuFlipBuffers (emuFlipBuffers (sceGuClearColor (emuFlipBuffers initialState) 7)))
    rfl).1⟩

/-! ## Pacer branches -/

/-- C25 (failing input): the first call reads tick 4294967280 and stores it; the
second call sleeps 16 ms and the 32-bit clock then reads 0, which it stores;
the third call, at tick 3, finds `last_time == 0` and takes the first-call
branch again: it requests no sleep and stores 3, whereas the pacing branch
would have measured 3 ms and slept 13 ms. -/
theorem emuWaitVsync_baseline_again_after_wrap :
    vsyncCalls 0 [(4294967280, 4294967280), (4294967280, 0), (3, 19)] =
      [ { last_time := 4294967280, delay := none }, { last_time := 0, delay := some 16 },
        { last_time := 3, delay := none } ] ∧
    pacingBranch 0 3 19 = { last_time := 19, delay := some 13 } := by
  decide

theorem emuWaitVsync_eq_pacingBranch (last_time now after : Nat) (h : last_time ≠ 0) :
    emuWaitVsync last_time now after = pacingBranch last_time now after := by
  simp only [emuWaitVsync, pacingBranch, if_neg h]
  split <;> rfl

theorem vsyncCalls_eq_pacedCalls (rest : List (Nat × Nat)) :
    ∀ last_time : Nat, last_time ≠ 0 → (∀ p ∈ rest, p.2 ≠ 0) →
      vsyncCalls last_time rest = pacedCalls last_time rest := by
  induction rest with
  | nil => intro _ _ _; rfl
  | cons p ps ih =>
    intro last_time h0 hall
    have hp : p.2 ≠ 0 := hall p (List.mem_cons_self _ _)
    simp only [vsyncCalls, pacedCalls, emuWaitVsync_eq_pacingBranch last_time p.1 p.2 h0]
    have hl : (pacingBranch last_time p.1 p.2).last_time = p.2 := rfl
    rw [hl, ih p.2 hp (fun q hq => hall q (List.mem_cons_of_mem _ hq))]

/-- What the branches of `emuWaitVsync` do on every input, with the 32-bit
millisecond clock modelled as an input: a call that finds a non-zero
`last_time` takes the pacing branch (`elapsed = (now - last_time) mod 2^32`,
sleep `1000/60 - elapsed` when `elapsed` is below that period, no sleep
otherwise), and a call that finds `last_time` 0 returns without measuring; so
in a run whose first call reads a non-zero tick and whose later calls end at
non-zero ticks, every call other than the first takes the pacing branch. -/
theorem emuWaitVsync_branches (first : Nat × Nat) (rest : List (Nat × Nat)) :
    (∀ last_time now after : Nat, last_time ≠ 0 →
      emuWaitVsync last_time now after = pacingBranch last_time now after) ∧
    (∀ now after : Nat, emuWaitVsync 0 now after = { last_time := now, delay := none }) ∧
    (first.1 ≠ 0 → (∀ p ∈ rest, p.2 ≠ 0) →
      vsyncCalls 0 (first :: rest) =
        { last_time := first.1, delay := none } :: pacedCalls first.1 rest) := by
  refine ⟨emuWaitVsync_eq_pacingBranch, fun _ _ => rfl, ?_⟩
  intro h1 hall
  have h0 : emuWaitVsync 0 first.1 first.2 = { last_time := first.1, delay := none } := rfl
  simp only [vsyncCalls, h0]
  rw [vsyncCalls_eq_pacedCalls rest first.1 h1 hall]

/-- Example: a run of three calls at ticks 100, 105 and 140, the second one
ending its sleep at tick 116: the first call is the baseline, the second sleeps
11 ms, the third does not sleep. -/
theorem emuWaitVsync_branches_example :
    ((100 : Nat) ≠ 0 ∧ ∀ p ∈ [((105 : Nat), (116 : Nat)), (140, 140)], p.2 ≠ 0) ∧
    vsyncCalls 0 [(100, 100), (105, 116), (140, 140)] =
      [ { last_time := 100, delay := none }, { last_time := 116, delay := some 11 },
        { last_time := 140, delay := none } ] := by
  have hall : ∀ p ∈ [((105 : Nat), (116 : Nat)), (140, 140)], p.2 ≠ 0 := by decide
  refine ⟨⟨by decide, hall⟩, ?_⟩
  rw [(emuWaitVsync_branches (100, 100) [(105, 116), (140, 140)]).2.2 (by decide) hall]
  decide


/-! ## MD5 -/


theorem md5_calc_n (b64 : List Nat) (ctxt : md5_ctxt) :
    (md5_calc b64 ctxt).md5_n = ctxt.md5_n := by
  unfold md5_calc
  rfl


theorem md5_calc_i (b64 : List Nat) (ctxt : md5_ctxt) :
    (md5_calc b64 ctxt).md5_i = ctxt.md5_i := by
  unfold md5_calc
  rfl


theorem md5_calc_buf (b64 : List Nat) (ctxt : md5_ctxt) :
    (md5_calc b64 ctxt).md5_buf = ctxt.md5_buf := by
  unfold md5_calc
  rfl


theorem memcpy_of_inRange (dest : List Nat) (doff : Nat) (src : List Nat) (soff n : Nat)
    (hd : doff + n ≤ dest.length) (hs : soff + n ≤ src.length) :
    ∃ r, memcpy dest doff src soff n = some r ∧ r.length = dest.length ∧
      r.drop doff = (src.drop soff).take n ++ dest.drop (doff + n) := by
  refine ⟨dest.take doff ++ (src.drop soff).take n ++ dest.drop (doff + n), ?_, ?_, ?_⟩
  · simp only [memcpy, if_pos (And.intro hd hs)]
  · simp only [List.length_append, List.length_take, List.length_drop]
    omega
  · rw [List.append_assoc, List.drop_append_of_le_length (by simp; omega)]
    have : List.drop doff (List.take doff dest) = [] := by
      rw [List.drop_eq_nil_iff]
      simp
    rw [this, List.nil_append]


/-- The block loop of `md5_loop` ends, with `len - 64 < i ≤ len`, when the
length stays 64 below `2 ^ 32` and the bound on the iterations is large enough. -/
theorem md5_loop_blocks_total (input : List Nat) :
    ∀ (fuel i : Nat) (ctxt : md5_ctxt), i ≤ input.length →
      input.length - i < 64 * fuel → input.length + 64 < 2 ^ 32 →
      ∃ j c, md5_loop_blocks input input.length fuel i ctxt = some (j, c) ∧
        i ≤ j ∧ j ≤ input.length ∧ input.length < j + 64 ∧
        c.md5_n = ctxt.md5_n ∧ c.md5_buf = ctxt.md5_buf := by
  intro fuel
  induction fuel with
  | zero =>
    intro i ctxt _ h _
    omega
  | succ fuel ih =>
    intro i ctxt hi hfuel hlen
    have hmod : (i + MD5_BUFLEN) % 2 ^ 32 = i + 64 := Nat.mod_eq_of_lt (by
      simp only [MD5_BUFLEN]
      omega)
    unfold md5_loop_blocks
    rw [hmod]
    by_cases hle : i + 64 ≤ input.length
    · rw [if_pos hle, if_pos hle]
      obtain ⟨j, c, hjc, h1, h2, h3, h4, h5⟩ :=
        ih (i + 64) (md5_calc ((input.drop i).take MD5_BUFLEN) ctxt) hle (by omega) hlen
      exact ⟨j, c, hjc, by omega, h2, h3, h4.trans (md5_calc_n _ _),
        h5.trans (md5_calc_buf _ _)⟩
    · rw [if_neg hle]
      exact ⟨i, ctxt, rfl, le_refl _, hi, by omega, rfl, rfl⟩


/-- The function `md5_loop` returns for a context with `md5_i < 64` and an input
64 bytes shorter than `2 ^ 32`; it adds `len * 8`, computed in 32 bits, to the
bit count and leaves `md5_i < 64`. -/
theorem md5_loop_total (ctxt : md5_ctxt) (input : List Nat) (hi : ctxt.md5_i < 64)
    (hb : ctxt.md5_buf.length = 64) (hlen : input.length + 64 < 2 ^ 32) :
    ∃ c, md5_loop ctxt input = some c ∧
      c.md5_n = (ctxt.md5_n + (input.length * 8) % 2 ^ 32) % 2 ^ 64 ∧
      c.md5_i < 64 ∧ c.md5_buf.length = 64 := by
  have hgap : (MD5_BUFLEN + 2 ^ 32 - ctxt.md5_i) % 2 ^ 32 = 64 - ctxt.md5_i := by
    have : MD5_BUFLEN + 2 ^ 32 - ctxt.md5_i = (64 - ctxt.md5_i) + 2 ^ 32 := by
      simp only [MD5_BUFLEN]
      omega
    rw [this, Nat.add_mod_right]
    exact Nat.mod_eq_of_lt (by omega)
  simp only [md5_loop, hgap]
  by_cases hge : input.length ≥ 64 - ctxt.md5_i
  · rw [if_pos hge]
    obtain ⟨buf, hbuf, hbl, _⟩ := memcpy_of_inRange ctxt.md5_buf ctxt.md5_i input 0
      (64 - ctxt.md5_i) (by omega) (by omega)
    rw [hbuf, Option.some_bind]
    obtain ⟨j, c, hjc, h1, h2, h3, h4, h5⟩ := md5_loop_blocks_total input
      (input.length / MD5_BUFLEN + 1) (64 - ctxt.md5_i)
      (md5_calc buf { ctxt with
        md5_n := (ctxt.md5_n + (input.length * 8) % 2 ^ 32) % 2 ^ 64, md5_buf := buf })
      hge (by
        simp only [MD5_BUFLEN]
        have := Nat.lt_div_mul_add (a := input.length) (b := 64) (by decide)
        omega) hlen
    rw [hjc, Option.some_bind]
    have hrem : (input.length + 2 ^ 32 - j) % 2 ^ 32 = input.length - j := by
      have : input.length + 2 ^ 32 - j = (input.length - j) + 2 ^ 32 := by omega
      rw [this, Nat.add_mod_right]
      exact Nat.mod_eq_of_lt (by omega)
    simp only [hrem]
    have hcb : c.md5_buf.length = 64 := by rw [h5, md5_calc_buf]; exact hbl.trans hb
    obtain ⟨buf3, hbuf3, hbl3, _⟩ := memcpy_of_inRange c.md5_buf 0 input j
      (input.length - j) (by omega) (by omega)
    rw [hbuf3]
    refine ⟨_, rfl, ?_, ?_, ?_⟩
    · show c.md5_n = _
      rw [h4, md5_calc_n]
    · show input.length - j < 64
      omega
    · show buf3.length = 64
      omega
  · rw [if_neg hge]
    obtain ⟨buf, hbuf, hbl, _⟩ := memcpy_of_inRange ctxt.md5_buf ctxt.md5_i input 0
      input.length (by omega) (by omega)
    rw [hbuf]
    refine ⟨_, rfl, rfl, ?_, ?_⟩
    · show (ctxt.md5_i + input.length) % 2 ^ 32 < 64
      rw [Nat.mod_eq_of_lt (by omega)]
      omega
    · show buf.length = 64
      omega


theorem md5_paddat_length : md5_paddat.length = 64 := by decide


/-- The function `md5_pad` returns for a context with `md5_i < 64`, and the last
eight bytes of the block it hashes last are the bytes of the bit count. -/
theorem md5_pad_total (ctxt : md5_ctxt) (hi : ctxt.md5_i < 64)
    (hb : ctxt.md5_buf.length = 64) :
    ∃ c, md5_pad ctxt = some c ∧ c.md5_buf.drop 56 = md5_n8 ctxt := by
  have hgap : (MD5_BUFLEN + 2 ^ 32 - ctxt.md5_i) % 2 ^ 32 = 64 - ctxt.md5_i := by
    have : MD5_BUFLEN + 2 ^ 32 - ctxt.md5_i = (64 - ctxt.md5_i) + 2 ^ 32 := by
      simp only [MD5_BUFLEN]
      omega
    rw [this, Nat.add_mod_right]
    exact Nat.mod_eq_of_lt (by omega)
  have hn8 : ∀ c : md5_ctxt, (md5_n8 c).length = 8 := fun c => by simp [md5_n8]
  have hfinal : ∀ c2 : md5_ctxt, c2.md5_buf.length = 64 → c2.md5_n = ctxt.md5_n →
      ∃ c, ((memcpy c2.md5_buf 56 (md5_n8 c2) 0 8).map fun buf3 =>
        md5_calc buf3 { c2 with md5_buf := buf3 }) = some c ∧
        c.md5_buf.drop 56 = md5_n8 ctxt := by
    intro c2 hl hn
    obtain ⟨buf3, hbuf3, hbl3, hdrop⟩ := memcpy_of_inRange c2.md5_buf 56 (md5_n8 c2) 0 8
      (by omega) (by rw [hn8])
    rw [hbuf3]
    refine ⟨_, rfl, ?_⟩
    rw [md5_calc_buf]
    show buf3.drop 56 = md5_n8 ctxt
    rw [hdrop, List.drop_zero, List.take_of_length_le (by rw [hn8]),
      List.drop_eq_nil_of_le (by omega), List.append_nil]
    simp only [md5_n8, hn]
  simp only [md5_pad, hgap]
  by_cases hgt : 64 - ctxt.md5_i > 8
  · rw [if_pos hgt]
    obtain ⟨buf, hbuf, hbl, _⟩ := memcpy_of_inRange ctxt.md5_buf ctxt.md5_i md5_paddat 0
      (64 - ctxt.md5_i - 8) (by omega) (by rw [md5_paddat_length]; omega)
    rw [hbuf]
    exact hfinal { ctxt with md5_buf := buf } (hbl.trans hb) rfl
  · rw [if_neg hgt]
    obtain ⟨buf, hbuf, hbl, _⟩ := memcpy_of_inRange ctxt.md5_buf ctxt.md5_i md5_paddat 0
      (64 - ctxt.md5_i) (by omega) (by rw [md5_paddat_length]; omega)
    rw [hbuf, Option.some_bind]
    obtain ⟨buf2, hbuf2, hbl2, _⟩ := memcpy_of_inRange
      (md5_calc buf { ctxt with md5_buf := buf }).md5_buf 0 md5_paddat (64 - ctxt.md5_i)
      (MD5_BUFLEN - 8) (by rw [md5_calc_buf]; simp only [MD5_BUFLEN]; omega)
      (by rw [md5_paddat_length]; simp only [MD5_BUFLEN]; omega)
    rw [hbuf2]
    exact hfinal { md5_calc buf { ctxt with md5_buf := buf } with md5_buf := buf2 }
      (by show buf2.length = 64; rw [hbl2, md5_calc_buf]; exact hbl.trans hb)
      (md5_calc_n buf { ctxt with md5_buf := buf })


/-- The digest of the empty input is `d41d8cd98f00b204e9800998ecf8427e`, and
the function returns 0. -/
theorem md5_empty_input :
    sceKernelUtilsMd5Digest [] =
      some ([0xd4, 0x1d, 0x8c, 0xd9, 0x8f, 0x00, 0xb2, 0x04,
             0xe9, 0x80, 0x09, 0x98, 0xec, 0xf8, 0x42, 0x7e], 0) := by
  decide!

/-- The digest of the three bytes `abc` is `900150983cd24fb0d6963f7d28e17f72`. -/
theorem md5_abc_input :
    sceKernelUtilsMd5Digest [0x61, 0x62, 0x63] =
      some ([0x90, 0x01, 0x50, 0x98, 0x3c, 0xd2, 0x4f, 0xb0,
             0xd6, 0x96, 0x3f, 0x7d, 0x28, 0xe1, 0x7f, 0x72], 0) := by
  decide!

theorem md5_init_i : md5_init.md5_i < 64 := by decide

theorem md5_init_buf : md5_init.md5_buf.length = 64 := by decide

/-- C26 (failing input): for 2^29 = 536870912 bytes of data (here zero bytes),
`md5_loop` returns with the bit count `md5_n` equal to 0, because `len * 8`
is computed in 32 bits; `md5_pad` then appends the eight length bytes
`00 .. 00`, whereas the bit length `8 * size` is `2 ^ 32`, whose length bytes
are `00 00 00 00 01 00 00 00`. -/
theorem md5_bit_count_wraps_at_512_MiB :
    ∃ c c2, md5_loop md5_init (List.replicate (2 ^ 29) 0) = some c ∧ c.md5_n = 0 ∧
      md5_pad c = some c2 ∧ c2.md5_buf.drop 56 = [0, 0, 0, 0, 0, 0, 0, 0] ∧
      8 * (List.replicate (2 ^ 29) 0).length = 2 ^ 32 := by
  have hlen : (List.replicate (2 ^ 29) 0).length = 2 ^ 29 := List.length_replicate _ _
  obtain ⟨c, hc, hn, hi, hb⟩ := md5_loop_total md5_init (List.replicate (2 ^ 29) 0)
    md5_init_i md5_init_buf (by rw [hlen]; norm_num)
  have hn0 : c.md5_n = 0 := by
    rw [hn, hlen]
    have : md5_init.md5_n = 0 := rfl
    rw [this]
    norm_num
  obtain ⟨c2, hc2, hdrop⟩ := md5_pad_total c hi hb
  refine ⟨c, c2, hc, hn0, hc2, ?_, ?_⟩
  · rw [hdrop]
    simp only [md5_n8, hn0]
    decide
  · rw [hlen]
    norm_num

/-- C27 (failing input): with `a` and `b` both 2^28 = 268435456 zero bytes,
`md5_loop(a)` followed by `md5_loop(b)` leaves the bit count `md5_n` at
`2 ^ 32`, while the single `md5_loop(a ++ b)` leaves it at 0: the two contexts
differ. -/
theorem md5_loop_chunking_changes_bit_count :
    ∃ c1 c2 c12,
      md5_loop md5_init (List.replicate (2 ^ 28) 0) = some c1 ∧
      md5_loop c1 (List.replicate (2 ^ 28) 0) = some c2 ∧
      md5_loop md5_init (List.replicate (2 ^ 28) 0 ++ List.replicate (2 ^ 28) 0) = some c12 ∧
      c2.md5_n = 2 ^ 32 ∧ c12.md5_n = 0 ∧ c2 ≠ c12 := by
  have hlen : (List.replicate (2 ^ 28) 0).length = 2 ^ 28 := List.length_replicate _ _
  have hlen2 : (List.replicate (2 ^ 28) 0 ++ List.replicate (2 ^ 28) 0).length = 2 ^ 29 := by
    rw [List.length_append, hlen]
    norm_num
  have h0 : md5_init.md5_n = 0 := rfl
  obtain ⟨c1, hc1, hn1, hi1, hb1⟩ := md5_loop_total md5_init (List.replicate (2 ^ 28) 0)
    md5_init_i md5_init_buf (by rw [hlen]; norm_num)
  obtain ⟨c2, hc2, hn2, _, _⟩ := md5_loop_total c1 (List.replicate (2 ^ 28) 0)
    hi1 hb1 (by rw [hlen]; norm_num)
  obtain ⟨c12, hc12, hn12, _, _⟩ := md5_loop_total md5_init
    (List.replicate (2 ^ 28) 0 ++ List.replicate (2 ^ 28) 0)
    md5_init_i md5_init_buf (by rw [hlen2]; norm_num)
  have e1 : c1.md5_n = 2 ^ 31 := by
    rw [hn1, hlen, h0]
    norm_num
  have e2 : c2.md5_n = 2 ^ 32 := by
    rw [hn2, hlen, e1]
    norm_num
  have e12 : c12.md5_n = 0 := by
    rw [hn12, hlen2, h0]
    norm_num
  refine ⟨c1, c2, c12, hc1, hc2, hc12, e2, e12, ?_⟩
  intro heq
  rw [heq, e12] at e2
  norm_num at e2

end LuaPlayer
